import Mathlib

/-!
# Event participation and scoring: a model of `eventController.js`

The definitions below follow `src/backend/controllers/eventController.js`,
the schemas of `src/backend/models/{Event,User,Team}.js` and, for the combined
leaderboard, `src/frontend/src/components/Leaderboard.jsx`.

Conventions of the embedding.

* An `ObjectId` is the string that `toString()` gives for it: hexadecimal
  digits in lower case.  Identifiers are written as short labels (`e1`, `t1`,
  `u1`); a request names a document by a string, which mongoose casts to an
  `ObjectId` (`castObjectId`) where the code looks the document up, and which
  the code compares as it is where the code compares strings.
* An instant (`Date`) is a number of milliseconds, an `Int`.
* A schema field of type `Number` that counts something is a `Nat`; scores and
  points are `Int`.  A field that the code reads through `x || 0` and that a
  stored document may lack is an `Option`.
* The store is three collections (lists of documents).  A request handler is
  a function from the store (and the request, the clock readings and the
  outcome of the store's writes) to a reply and the store after the request.
* A Mongo session is a snapshot plus the staged state: `abortTransaction`
  returns the snapshot, `commitTransaction` the staged state.
-/

namespace Tournament

abbrev ObjectId := String

abbrev Instant := Int

/-- Mongoose's cast of a string to an `ObjectId`, which `findById` applies to
its argument and a document applies to the value given for a reference.  The
hexadecimal digits of an identifier are read without regard to case and
`toString()` gives them in lower case; a string that does not spell an
identifier cannot be cast (`none`).  On the labels of this development: a
label of letters and digits stands for the digits of an identifier, and the
same label in another case for the same digits in another case. -/
def castObjectId (raw : String) : Option ObjectId :=
  if raw.data.isEmpty || !raw.data.all Char.isAlphanum then none
  else some ⟨raw.data.map Char.toLower⟩

/-! ## Schemas -/

/-- Sub-document `questionSchema` of `Event.js`. -/
structure Question where
  _id : ObjectId
  question : String
  options : List String
  answer : String
  points : Int
  deriving DecidableEq, Repr

/-- An element of `participantSchema.answers`. -/
structure AnswerRecord where
  question : ObjectId
  answer : String
  isCorrect : Bool
  submittedAt : Instant
  deriving DecidableEq, Repr

inductive RegistrationType where
  | individual
  | team
  deriving DecidableEq, Repr

/-- Sub-document `participantSchema` of `Event.js`.  `user` and `team` are
references that may be absent. -/
structure Participant where
  user : Option ObjectId
  team : Option ObjectId
  registeredBy : ObjectId
  registrationType : RegistrationType
  score : Int
  perfectRun : Bool
  hasCompleted : Bool
  answers : List AnswerRecord
  deriving DecidableEq, Repr

inductive EventType where
  | online
  | offline
  deriving DecidableEq, Repr

inductive EventStatus where
  | upcoming
  | active
  | completed
  deriving DecidableEq, Repr

/-- Document `eventSchema` of `Event.js`.  `maxParticipants` is `none` when the
stored value is `null` (what `createEvent` stores for an online event). -/
structure Event where
  _id : ObjectId
  name : String
  type : EventType
  description : String
  location : Option String
  startDate : Instant
  endDate : Instant
  questions : List Question
  maxParticipants : Option Nat
  status : EventStatus
  participants : List Participant
  currentParticipants : Nat
  teamSize : Nat
  deriving DecidableEq, Repr

inductive Role where
  | admin
  | user
  deriving DecidableEq, Repr

inductive ParticipationType where
  | individual
  | team
  deriving DecidableEq, Repr

/-- Document `userSchema` of `User.js` (the password hash is left out). -/
structure User where
  _id : ObjectId
  username : String
  email : String
  score : Option Int
  wins : Option Nat
  role : Role
  participationType : ParticipationType
  teamId : Option ObjectId
  isCaptain : Bool
  deriving DecidableEq, Repr

/-- Sub-document `teamMemberSchema` of `Team.js`. -/
structure TeamMember where
  name : String
  email : Option String
  user : Option ObjectId
  deriving DecidableEq, Repr

/-- An element of `teamSchema.eventsParticipated`; the schema does not require
`event`. -/
structure EventParticipation where
  event : Option ObjectId
  score : Int
  participantCount : Nat
  completedAt : Instant
  deriving DecidableEq, Repr

/-- Document `teamSchema` of `Team.js`. -/
structure Team where
  _id : ObjectId
  name : String
  captain : ObjectId
  members : List TeamMember
  score : Option Int
  wins : Option Nat
  eventsParticipated : List EventParticipation
  deriving DecidableEq, Repr

/-! ## The store and its sessions -/

structure Store where
  events : List Event
  users : List User
  teams : List Team
  deriving DecidableEq, Repr

/-- Lookup `Model.findById`: the first document of the collection with that `_id`. -/
def findById {α : Type} (key : α → ObjectId) (docs : List α) (id : ObjectId) : Option α :=
  docs.find? (fun d => key d == id)

/-- Saving a loaded document (`doc.save()`): the stored document with the same
`_id` is replaced. -/
def saveDoc {α : Type} (key : α → ObjectId) (doc : α) : List α → List α
  | [] => []
  | d :: ds => if key d == key doc then doc :: ds else d :: saveDoc key doc ds

/-- A session started by `mongoose.startSession()` / `startTransaction()`. -/
structure Session where
  snapshot : Store
  staged : Store
  deriving DecidableEq, Repr

def startTransaction (db : Store) : Session := ⟨db, db⟩

def Session.abortTransaction (s : Session) : Store := s.snapshot

def Session.commitTransaction (s : Session) : Store := s.staged

/-- How a handler's `try` block ends when it does not reach its last line:
by an explicit `return res.status(..).json({ error })`, or by an exception. -/
inductive Abrupt where
  | reply (status : Nat) (error : String)
  | thrown (message : String)
  deriving DecidableEq, Repr

/-- What the handler sends: `res.json(body)` or `res.status(s).json({ error })`. -/
inductive Reply (α : Type) where
  | json (body : α)
  | error (status : Nat) (error : String)
  deriving DecidableEq, Repr

/-- Outcome of the writes of one request: `true` means that the write throws
(validation failure, write conflict, lost connection). -/
structure Faults where
  teamSave : Bool
  eventSave : Bool
  userSave : Bool
  deriving DecidableEq, Repr

def noFaults : Faults := ⟨false, false, false⟩

def Session.saveTeam (s : Session) (t : Team) (fails : Bool) : Except Abrupt Session :=
  if fails then .error (.thrown "team.save failed")
  else .ok { s with staged := { s.staged with teams := saveDoc Team._id t s.staged.teams } }

def Session.saveEvent (s : Session) (e : Event) (fails : Bool) : Except Abrupt Session :=
  if fails then .error (.thrown "event.save failed")
  else .ok { s with staged := { s.staged with events := saveDoc Event._id e s.staged.events } }

def Session.saveUser (s : Session) (u : User) (fails : Bool) : Except Abrupt Session :=
  if fails then .error (.thrown "user.save failed")
  else .ok { s with staged := { s.staged with users := saveDoc User._id u s.staged.users } }

/-- Search `Array.prototype.find` / `findIndex` with a predicate that may throw:
the index and the element of the first match. -/
def jsFind {α : Type} (pred : α → Except Abrupt Bool) : List α → Except Abrupt (Option (Nat × α))
  | [] => .ok none
  | x :: xs =>
    match pred x with
    | .error e => .error e
    | .ok true => .ok (some (0, x))
    | .ok false =>
      match jsFind pred xs with
      | .error e => .error e
      | .ok none => .ok none
      | .ok (some (i, y)) => .ok (some (i + 1, y))

/-- The predicate `(p) => p.user.toString() === userId.toString()`; reading
`toString` of an absent `user` throws a `TypeError`. -/
def userMatches (userId : ObjectId) (p : Participant) : Except Abrupt Bool :=
  match p.user with
  | none => .error (.thrown "TypeError: Cannot read properties of undefined")
  | some u => .ok (u == userId)

/-! ## `submitAnswers` (eventController.js, lines 203-344) -/

/-- The fields `questionId` and `answer` of one element of `req.body.answers`.
A field holds the submitted string; the empty string stands for every falsy
value (absent, `null`, `""`). -/
structure AnswerEntry where
  questionId : String
  answer : String
  deriving DecidableEq, Repr

/-- The request of `submitAnswers`: `req.params.eventId`, `req.user._id` and
`req.body.answers` (`none` when it is not an array).  The handler uses the
event id of the path in two ways: `eventId` is the `ObjectId` that it is cast
to, by `Event.findById` (line 212) and for the reference of the snapshot
(line 302), and `eventIdText` is the string of the path itself, which line 313
compares; the two are related by `castObjectId eventIdText = some eventId`.
An element of the array of answers is `none` when it is `null`, of which no
field can be read, and else it is taken by its two fields. -/
structure SubmitRequest where
  eventId : ObjectId
  eventIdText : String
  userId : ObjectId
  answers : Option (List (Option AnswerEntry))
  deriving DecidableEq, Repr

/-- The readings of `new Date()` during one `submitAnswers` request: line 234,
line 273 in the k-th iteration of the loop, and line 305. -/
structure Clock where
  now : Instant
  answerAt : Nat → Instant
  completedAt : Instant

/-- The body sent by a successful `submitAnswers` (lines 331-336). -/
structure SubmitResult where
  score : Int
  correctAnswers : List ObjectId
  perfectRun : Bool
  teamUpdated : Bool
  deriving DecidableEq, Repr

/-- The test `a.questionId && a.answer` of line 247. -/
def validEntry (a : AnswerEntry) : Bool :=
  a.questionId != "" && a.answer != ""

/-- Line 247, `answers.every((a) => a.questionId && a.answer)`: the elements are
tested in order up to the first that fails the test, and the test throws on
`null`. -/
def everyValid : List (Option AnswerEntry) → Except Abrupt Bool
  | [] => .ok true
  | none :: _ => .error (.thrown "TypeError: Cannot read properties of null")
  | some a :: rest => if validEntry a then everyValid rest else .ok false

/-- The variables that the loop of lines 253-275 updates: `totalScore`,
`correctAnswers` and `participant.answers`. -/
structure Grading where
  totalScore : Int
  correctAnswers : List ObjectId
  answers : List AnswerRecord
  deriving DecidableEq, Repr

/-- One iteration of the loop of lines 253-275. -/
def gradeAnswer (questions : List Question) (submittedAt : Instant) (g : Grading)
    (a : AnswerEntry) : Except Abrupt Grading :=
  match questions.find? (fun q => q._id == a.questionId) with
  | none => .error (.thrown ("Question " ++ a.questionId ++ " not found"))
  | some question =>
    let isCorrect := question.answer == a.answer
    .ok { totalScore := if isCorrect then g.totalScore + question.points else g.totalScore
          correctAnswers := if isCorrect then g.correctAnswers ++ [a.questionId] else g.correctAnswers
          answers := g.answers ++ [⟨a.questionId, a.answer, isCorrect, submittedAt⟩] }

/-- The loop `answers.forEach(...)` of lines 253-275, from iteration `k` on.
The parameter `({ questionId, answer })` cannot be bound to `null`. -/
def gradeAnswers (questions : List Question) (clock : Clock) :
    Nat → Grading → List (Option AnswerEntry) → Except Abrupt Grading
  | _, g, [] => .ok g
  | _, _, none :: _ => .error (.thrown "TypeError: Cannot destructure null")
  | k, g, some a :: rest =>
    match gradeAnswer questions (clock.answerAt k) g a with
    | .error e => .error e
    | .ok g1 => gradeAnswers questions clock (k + 1) g1 rest

/-- The predicate `(ep) => ep.event.toString() === eventId.toString()` of line
313, where `eventId` is the string of the path. -/
def eventMatches (eventIdText : String) (ep : EventParticipation) : Except Abrupt Bool :=
  match ep.event with
  | none => .error (.thrown "TypeError: Cannot read properties of undefined")
  | some e => .ok (e == eventIdText)

/-- Lines 296-320: the update of the loaded team document.  (A mongoose array
field is always an array, so the branch of line 308 is never taken.) -/
def recordTeamResult (team : Team) (eventId : ObjectId) (eventIdText : String)
    (totalScore : Int) (perfectRun : Bool) (completedAt : Instant) : Except Abrupt Team :=
  let score := some (team.score.getD 0 + totalScore)
  let wins := if perfectRun then some (team.wins.getD 0 + 1) else team.wins
  let eventParticipation : EventParticipation :=
    { event := some eventId, score := totalScore,
      participantCount := team.members.length, completedAt := completedAt }
  match jsFind (eventMatches eventIdText) team.eventsParticipated with
  | .error e => .error e
  | .ok (some (existingEventIndex, _)) =>
    .ok { team with
          score := score, wins := wins
          eventsParticipated := team.eventsParticipated.set existingEventIndex eventParticipation }
  | .ok none =>
    .ok { team with
          score := score, wins := wins
          eventsParticipated := team.eventsParticipated ++ [eventParticipation] }

/-- Lines 293-324: the team of a team-type user is loaded, updated and saved in
the session.  The `pre('save')` hook of `Team.js` returns at once for a stored
team whose captain is not modified. -/
def updateTeamOf (s : Session) (user : User) (eventId : ObjectId) (eventIdText : String)
    (totalScore : Int) (perfectRun : Bool) (completedAt : Instant) (fails : Bool) :
    Except Abrupt Session :=
  match user.participationType, user.teamId with
  | .team, some teamId =>
    match findById Team._id s.staged.teams teamId with
    | none => .ok s
    | some team =>
      match recordTeamResult team eventId eventIdText totalScore perfectRun completedAt with
      | .error e => .error e
      | .ok team1 => s.saveTeam team1 fails
  | _, _ => .ok s

/-- Line 277: `correctAnswers.length === event.questions.length`. -/
def isPerfectRun (g : Grading) (event : Event) : Bool :=
  g.correctAnswers.length == event.questions.length

/-- The participant record after the loop and lines 278-280. -/
def completedParticipant (participant : Participant) (g : Grading) (perfectRun : Bool) :
    Participant :=
  { participant with
    answers := g.answers, score := g.totalScore, perfectRun := perfectRun, hasCompleted := true }

/-- The user document after lines 288-291. -/
def creditedUser (user : User) (totalScore : Int) (perfectRun : Bool) : User :=
  { user with
    score := some (user.score.getD 0 + totalScore)
    wins := if perfectRun then some (user.wins.getD 0 + 1) else user.wins }

/-- The event document that `submitAnswers` saves: the participant found at
index `i` is replaced by its completed state. -/
def submittedEvent (event : Event) (i : Nat) (participant : Participant) (g : Grading) : Event :=
  { event with
    participants :=
      event.participants.set i (completedParticipant participant g (isPerfectRun g event)) }

/-- Lines 277-336 of `submitAnswers`: what follows the grading loop. -/
def applyGrading (s : Session) (req : SubmitRequest) (clock : Clock) (faults : Faults)
    (event : Event) (i : Nat) (participant : Participant) (g : Grading) :
    Except Abrupt (SubmitResult × Session) :=
  let perfectRun := isPerfectRun g event
  let event1 := submittedEvent event i participant g
  match findById User._id s.staged.users req.userId with
  | none => .error (.reply 404 "User not found")
  | some user =>
    let user1 := creditedUser user g.totalScore perfectRun
    match updateTeamOf s user req.eventId req.eventIdText g.totalScore perfectRun
        clock.completedAt faults.teamSave with
    | .error e => .error e
    | .ok s1 =>
      match s1.saveEvent event1 faults.eventSave with
      | .error e => .error e
      | .ok s2 =>
        match s2.saveUser user1 faults.userSave with
        | .error e => .error e
        | .ok s3 =>
          .ok ({ score := g.totalScore, correctAnswers := g.correctAnswers
                 perfectRun := perfectRun
                 teamUpdated := decide (user.participationType = .team) }, s3)

/-- The `try` block of `submitAnswers` (lines 208-336). -/
def submitAnswersBody (s : Session) (req : SubmitRequest) (clock : Clock) (faults : Faults) :
    Except Abrupt (SubmitResult × Session) :=
  match findById Event._id s.staged.events req.eventId with
  | none => .error (.reply 404 "Event not found")
  | some event =>
    match jsFind (userMatches req.userId) event.participants with
    | .error e => .error e
    | .ok none => .error (.reply 404 "Participant not found")
    | .ok (some (i, participant)) =>
      if participant.hasCompleted then
        .error (.reply 400 "You have already completed this event")
      else if clock.now < event.startDate ∨ clock.now > event.endDate then
        .error (.reply 403 "Event is not active for submissions")
      else
        match req.answers with
        | none => .error (.reply 400 "Invalid answers format")
        | some answers =>
          match everyValid answers with
          | .error e => .error e
          | .ok false => .error (.reply 400 "Invalid answers format")
          | .ok true =>
            match gradeAnswers event.questions clock 0 ⟨0, [], participant.answers⟩ answers with
            | .error e => .error e
            | .ok g => applyGrading s req clock faults event i participant g

/-- The handler `submitAnswers`: the reply and the store after the request.
Every explicit error reply follows `session.abortTransaction()`, and the
`catch` block aborts and replies 500. -/
def submitAnswers (db : Store) (req : SubmitRequest) (clock : Clock) (faults : Faults) :
    Reply SubmitResult × Store :=
  let session := startTransaction db
  match submitAnswersBody session req clock faults with
  | .ok (result, s) => (.json result, s.commitTransaction)
  | .error (.reply status error) => (.error status error, session.abortTransaction)
  | .error (.thrown _) => (.error 500 "Failed to submit answers", session.abortTransaction)

/-! ## `subscribeToEvent` (eventController.js, lines 371-498) -/

/-- The request of `subscribeToEvent`: `req.params.eventId`, `req.user._id`,
`req.body.type` and `req.body.teamId`; the empty string stands for a falsy
`teamId`. -/
structure SubscribeRequest where
  eventId : ObjectId
  userId : ObjectId
  type : String
  teamId : String
  deriving DecidableEq, Repr

/-- The body sent by a successful `subscribeToEvent` (lines 481-487). -/
structure SubscribeResult where
  message : String
  currentParticipants : Nat
  maxParticipants : Option Nat
  deriving DecidableEq, Repr

/-- Result of `populate` on a reference: the referenced document, `null` when
the reference is absent or no such document is stored. -/
def populateRef {α : Type} (key : α → ObjectId) (docs : List α) (ref : Option ObjectId) :
    Option α :=
  ref.bind (findById key docs)

/-- The JavaScript `a || b` on two counts: `a` unless it is `0`. -/
def jsOr (a b : Nat) : Nat := if a = 0 then b else a

/-- The validator of `eventSchema.currentParticipants` (Event.js, lines 68-73),
`value <= this.maxParticipants`; a `null` bound compares as `0`. -/
def capacityOk (e : Event) : Bool :=
  decide (e.currentParticipants ≤ e.maxParticipants.getD 0)

/-- Lines 404-412: `isUserRegistered`, on the roster with `participants.user`
populated. -/
def isUserRegistered (users : List User) (event : Event) (userId : ObjectId) : Bool :=
  event.participants.any fun p =>
    match p.registrationType, populateRef User._id users p.user with
    | .individual, some u => u._id == userId
    | _, _ => false

/-- Lines 435-437: `isTeamRegistered`, on the roster with `participants.team`
populated; `p.team._id.toString() === teamId` compares the identifier of the
team with the string of the request. -/
def isTeamRegistered (teams : List Team) (event : Event) (teamId : String) : Bool :=
  event.participants.any fun p =>
    match populateRef Team._id teams p.team with
    | some t => t._id == teamId
    | none => false

/-- The participant sub-document that `participants.push(participantData)`
creates: the schema defaults fill the fields that `participantData` lacks. -/
def newParticipant (user team : Option ObjectId) (registeredBy : ObjectId)
    (registrationType : RegistrationType) : Participant :=
  { user := user, team := team, registeredBy := registeredBy
    registrationType := registrationType
    score := 0, perfectRun := false, hasCompleted := false, answers := [] }

/-- Lines 421-460: `participantData` and `participantsToAdd`.  Line 425,
`Team.findById(teamId)`, casts the string of the request and throws when it
cannot be cast; line 436 compares the string itself; the reference
`team: teamId` of line 446 is cast when the record is pushed. -/
def registrationData (s : Session) (event : Event) (req : SubscribeRequest) :
    Except Abrupt (Participant × Nat) :=
  if req.type == "team" && req.teamId != "" then
    match castObjectId req.teamId with
    | none => .error (.thrown "CastError: Cast to ObjectId failed")
    | some teamId =>
      match findById Team._id s.staged.teams teamId with
      | none => .error (.reply 404 "Team not found")
      | some team =>
        if isTeamRegistered s.staged.teams event req.teamId then
          .error (.reply 400 "Your team is already registered for this event")
        else
          .ok (newParticipant none (some teamId) req.userId .team,
               jsOr event.teamSize (jsOr team.members.length 5))
  else
    .ok (newParticipant (some req.userId) none req.userId .individual, 1)

/-- Lines 475-476: the event document that a successful `subscribeToEvent` saves. -/
def subscribedEvent (event : Event) (participantData : Participant) (participantsToAdd : Nat) :
    Event :=
  { event with
    participants := event.participants ++ [participantData]
    currentParticipants := event.currentParticipants + participantsToAdd }

/-- The `try` block of `subscribeToEvent` (lines 376-487).  The save runs the
validator of the modified path `currentParticipants`. -/
def subscribeToEventBody (s : Session) (req : SubscribeRequest) (faults : Faults) :
    Except Abrupt (SubscribeResult × Session) :=
  match findById Event._id s.staged.events req.eventId with
  | none => .error (.reply 404 "Event not found")
  | some event =>
    if event.type ≠ .offline then
      .error (.reply 400 "This endpoint is for offline events only")
    else if isUserRegistered s.staged.users event req.userId then
      .error (.reply 400 "You are already registered for this event")
    else
      match registrationData s event req with
      | .error e => .error e
      | .ok (participantData, participantsToAdd) =>
        let currentTotal := event.currentParticipants
        if currentTotal + participantsToAdd > event.maxParticipants.getD 0 then
          .error (.reply 400 (if req.type == "team"
            then "Not enough spots available for the entire team"
            else "No spots available for registration"))
        else
          let event1 := subscribedEvent event participantData participantsToAdd
          if !capacityOk event1 then
            .error (.thrown "Maximum participants limit exceeded")
          else
            match s.saveEvent event1 faults.eventSave with
            | .error e => .error e
            | .ok s1 =>
              .ok ({ message := if req.type == "team"
                       then "Successfully registered team for the event"
                       else "Successfully registered participant for the event"
                     currentParticipants := event1.currentParticipants
                     maxParticipants := event1.maxParticipants }, s1)

/-- The handler `subscribeToEvent`: the reply and the store after the request. -/
def subscribeToEvent (db : Store) (req : SubscribeRequest) (faults : Faults) :
    Reply SubscribeResult × Store :=
  let session := startTransaction db
  match subscribeToEventBody session req faults with
  | .ok (result, s) => (.json result, s.commitTransaction)
  | .error (.reply status error) => (.error status error, session.abortTransaction)
  | .error (.thrown _) =>
    (.error 500 "Failed to register for the event", session.abortTransaction)

/-! ## `participateInEvent` (eventController.js, lines 662-724) -/

/-- The request of `participateInEvent`: `req.params.eventId` and `req.user._id`. -/
structure ParticipateRequest where
  eventId : ObjectId
  userId : ObjectId
  deriving DecidableEq, Repr

/-- An element of `sanitizedQuestions` (lines 704-709). -/
structure SanitizedQuestion where
  _id : ObjectId
  question : String
  options : List String
  points : Int
  deriving DecidableEq, Repr

/-- The body sent by a successful `participateInEvent` (lines 711-719). -/
structure ParticipateResult where
  _id : ObjectId
  name : String
  type : EventType
  description : String
  startDate : Instant
  endDate : Instant
  questions : List SanitizedQuestion
  deriving DecidableEq, Repr

/-- Lines 704-709: the projection of a question that the reply carries. -/
def sanitizeQuestion (q : Question) : SanitizedQuestion :=
  { _id := q._id, question := q.question, options := q.options, points := q.points }

/-- Lines 704-719: the reply built from the loaded event. -/
def participateReply (event : Event) : ParticipateResult :=
  { _id := event._id, name := event.name, type := event.type, description := event.description
    startDate := event.startDate, endDate := event.endDate
    questions := event.questions.map sanitizeQuestion }

/-- Lines 692-700: the event with the record of the requester pushed. -/
def joinedEvent (event : Event) (userId : ObjectId) : Event :=
  { event with
    participants := event.participants ++ [newParticipant (some userId) none userId .individual] }

/-- The `try` block of `participateInEvent` (lines 664-719); `now` is the
reading of `new Date()` at line 676.  The handler uses no session: the save of
line 701 writes to the store at once. -/
def participateInEventBody (db : Store) (req : ParticipateRequest) (now : Instant)
    (faults : Faults) : Except Abrupt (ParticipateResult × Store) :=
  match findById Event._id db.events req.eventId with
  | none => .error (.reply 404 "Event not found")
  | some event =>
    if event.type ≠ .online then
      .error (.reply 400 "This is not an online event")
    else if now < event.startDate ∨ now > event.endDate then
      .error (.reply 400 "This Event Hasn't Started yet, Pls Wait 😁")
    else
      match jsFind (userMatches req.userId) event.participants with
      | .error e => .error e
      | .ok (some (_, existingParticipation)) =>
        if existingParticipation.hasCompleted then
          .error (.reply 400 "You Can't Submit Twice Bro 😑")
        else
          .ok (participateReply event, db)
      | .ok none =>
        if faults.eventSave then
          .error (.thrown "event.save failed")
        else
          .ok (participateReply (joinedEvent event req.userId),
               { db with events := saveDoc Event._id (joinedEvent event req.userId) db.events })

/-- The handler `participateInEvent`: the reply and the store after the request. -/
def participateInEvent (db : Store) (req : ParticipateRequest) (now : Instant)
    (faults : Faults) : Reply ParticipateResult × Store :=
  match participateInEventBody db req now faults with
  | .ok (result, db1) => (.json result, db1)
  | .error (.reply status error) => (.error status error, db)
  | .error (.thrown _) => (.error 500 "Internal server error", db)

/-! ## `getEventById` (eventController.js, lines 180-201) -/

/-- A question as the reply of `getEventById` carries it: `answer` is `none`
when the field is `undefined` and so left out of the JSON. -/
structure QuestionView where
  _id : ObjectId
  question : String
  options : List String
  answer : Option String
  points : Int
  deriving DecidableEq, Repr

/-- A populated `participants.user`: the fields `username email` and `_id`. -/
structure UserRef where
  _id : ObjectId
  username : String
  email : String
  deriving DecidableEq, Repr

/-- A populated `participants.team`: the field `name` and `_id`. -/
structure TeamRef where
  _id : ObjectId
  name : String
  deriving DecidableEq, Repr

/-- A participant record with `user` and `team` populated. -/
structure ParticipantView where
  user : Option UserRef
  team : Option TeamRef
  registeredBy : ObjectId
  registrationType : RegistrationType
  score : Int
  perfectRun : Bool
  hasCompleted : Bool
  answers : List AnswerRecord
  deriving DecidableEq, Repr

/-- The event document that `getEventById` sends. -/
structure EventView where
  _id : ObjectId
  name : String
  type : EventType
  description : String
  location : Option String
  startDate : Instant
  endDate : Instant
  questions : List QuestionView
  maxParticipants : Option Nat
  status : EventStatus
  participants : List ParticipantView
  currentParticipants : Nat
  teamSize : Nat
  deriving DecidableEq, Repr

/-- Lines 183-184: a participant record with its references populated. -/
def populateParticipant (db : Store) (p : Participant) : ParticipantView :=
  { user := (populateRef User._id db.users p.user).map fun u => ⟨u._id, u.username, u.email⟩
    team := (populateRef Team._id db.teams p.team).map fun t => ⟨t._id, t.name⟩
    registeredBy := p.registeredBy, registrationType := p.registrationType
    score := p.score, perfectRun := p.perfectRun, hasCompleted := p.hasCompleted
    answers := p.answers }

/-- A stored question as it is sent to an admin. -/
def fullQuestion (q : Question) : QuestionView :=
  { _id := q._id, question := q.question, options := q.options, answer := some q.answer
    points := q.points }

/-- Lines 191-194: `{ ...q.toObject(), answer: undefined }`. -/
def hiddenQuestion (q : Question) : QuestionView :=
  { _id := q._id, question := q.question, options := q.options, answer := none
    points := q.points }

/-- Line 197, `res.json(event)`, serialises every populated team with the
virtuals of its schema (Team.js, lines 44-58). The team was read with the field
`name` only (line 184), so `averageEventScore` reads `.length` of the absent
`eventsParticipated` and throws: the serialisation fails as soon as one record
of the roster has a stored team. -/
def serialisationThrows (db : Store) (event : Event) : Bool :=
  event.participants.any fun p => (populateRef Team._id db.teams p.team).isSome

/-- The handler `getEventById`; `role` is `req.user.role`. A throw of line 197
is caught at line 198 and answered with status 500 and the message of the
error. -/
def getEventById (db : Store) (eventId : ObjectId) (role : Role) : Reply EventView :=
  match findById Event._id db.events eventId with
  | none => .error 404 "Event not found"
  | some event =>
    if serialisationThrows db event then
      .error 500 "Cannot read properties of undefined (reading 'length')"
    else
    .json
      { _id := event._id, name := event.name, type := event.type
        description := event.description, location := event.location
        startDate := event.startDate, endDate := event.endDate
        questions :=
          if role ≠ .admin then event.questions.map hiddenQuestion
          else event.questions.map fullQuestion
        maxParticipants := event.maxParticipants, status := event.status
        participants := event.participants.map (populateParticipant db)
        currentParticipants := event.currentParticipants, teamSize := event.teamSize }

/-! ## The combined leaderboard (Leaderboard.jsx, lines 14-38) -/

/-- A row of the reply of `/teams/leaderboard`; `members` is `none` when the
row has no such field. -/
structure TeamRow where
  _id : ObjectId
  name : String
  score : Option Int
  wins : Option Nat
  members : Option (List TeamMember)
  deriving DecidableEq, Repr

/-- A row of the reply of `/users/leaderboard`. -/
structure UserRow where
  _id : ObjectId
  username : String
  email : String
  score : Option Int
  wins : Option Nat
  deriving DecidableEq, Repr

/-- An element of `teamsData` / `usersData`: the row with the fields that lines
19-31 add. -/
structure LeaderboardEntry where
  _id : ObjectId
  participantType : ParticipationType
  displayName : String
  memberCount : Nat
  score : Option Int
  wins : Option Nat
  deriving DecidableEq, Repr

/-- An element of `combinedData`: the entry with its rank. -/
structure RankedEntry where
  entry : LeaderboardEntry
  rank : Nat
  deriving DecidableEq, Repr

/-- Lines 19-24. -/
def teamEntry (team : TeamRow) : LeaderboardEntry :=
  { _id := team._id, participantType := .team, displayName := team.name
    memberCount := (team.members.map List.length).getD 0
    score := team.score, wins := team.wins }

/-- Lines 26-31. -/
def userEntry (user : UserRow) : LeaderboardEntry :=
  { _id := user._id, participantType := .individual, displayName := user.username
    memberCount := 1, score := user.score, wins := user.wins }

/-- The key `(x.score || 0)` of the comparator of line 34. -/
def scoreKey (e : LeaderboardEntry) : Int := e.score.getD 0

/-- Insertion of an entry into a list sorted by the comparator of line 34,
before the first entry that it does not rank below. -/
def insertByScore (a : LeaderboardEntry) : List LeaderboardEntry → List LeaderboardEntry
  | [] => [a]
  | b :: rest => if scoreKey b ≤ scoreKey a then a :: b :: rest else b :: insertByScore a rest

/-- The call `.sort((a, b) => (b.score || 0) - (a.score || 0))` of line 34.
`Array.prototype.sort` is stable, and with this comparator the stable sorted
arrangement of a list is unique; it is computed here by insertion from the
right. -/
def sortByScore : List LeaderboardEntry → List LeaderboardEntry
  | [] => []
  | a :: rest => insertByScore a (sortByScore rest)

/-- Lines 35-38: `.map((participant, index) => ({ ...participant, rank: index + 1 }))`,
from index `k` on. -/
def assignRanks : Nat → List LeaderboardEntry → List RankedEntry
  | _, [] => []
  | k, e :: rest => ⟨e, k + 1⟩ :: assignRanks (k + 1) rest

/-- Lines 19-38: `combinedData`. -/
def combinedLeaderboard (teams : List TeamRow) (users : List UserRow) : List RankedEntry :=
  assignRanks 0 (sortByScore (teams.map teamEntry ++ users.map userEntry))

/-! ## Sorting by a score, from high to low

The calls `.sort((a, b) => b.totalScore - a.totalScore)` and
`.sort((a, b) => b.score - a.score)` of `eventController.js`.  As for
`sortByScore`, the stable sorted arrangement is unique and is computed by
insertion from the right. -/

/-- Insertion of an element before the first element that it does not rank
below. -/
def insertDescBy {α : Type} (key : α → Int) (a : α) : List α → List α
  | [] => [a]
  | b :: rest => if key b ≤ key a then a :: b :: rest else b :: insertDescBy key a rest

/-- The stable sort of a list by a key, from high to low. -/
def sortDescBy {α : Type} (key : α → Int) : List α → List α
  | [] => []
  | a :: rest => insertDescBy key a (sortDescBy key rest)

/-! ## `getTeamEventStandings` (eventController.js, lines 500-546) -/

/-- A value of the object `teamScores` (lines 517-523). -/
structure TeamScore where
  teamId : ObjectId
  teamName : String
  totalScore : Int
  perfectRuns : Nat
  participantCount : Nat
  deriving DecidableEq, Repr

/-- An element of `standings` (lines 533-537).  The quotient `averageScore` is
kept exact; JavaScript yields the double nearest to it. -/
structure TeamStanding where
  teamId : ObjectId
  teamName : String
  totalScore : Int
  perfectRuns : Nat
  participantCount : Nat
  rank : Nat
  averageScore : Rat
  deriving DecidableEq, Repr

/-- The body sent by a successful `getTeamEventStandings` (lines 539-542). -/
structure StandingsResult where
  eventName : String
  teamStandings : List TeamStanding
  deriving DecidableEq, Repr

/-- Lines 525-527: the entry of a team credited with a participant record. -/
def creditRecord (s : TeamScore) (p : Participant) : TeamScore :=
  { s with
    totalScore := s.totalScore + p.score
    perfectRuns := if p.perfectRun then s.perfectRuns + 1 else s.perfectRuns
    participantCount := s.participantCount + 1 }

/-- Lines 515-527 for a record whose populated team is `team`: the entry of the
team is created at the end of `teamScores` when it is missing, and credited.
The keys are ObjectId strings, so the object keeps them in insertion order. -/
def creditTeam (team : Team) (p : Participant) : List TeamScore → List TeamScore
  | [] => [creditRecord ⟨team._id, team.name, 0, 0, 0⟩ p]
  | s :: rest =>
    if s.teamId == team._id then creditRecord s p :: rest
    else s :: creditTeam team p rest

/-- One iteration of the loop of lines 513-529, on the roster with
`participants.team` populated. -/
def addToTeamScores (teams : List Team) (scores : List TeamScore) (p : Participant) :
    List TeamScore :=
  match populateRef Team._id teams p.team with
  | none => scores
  | some team => creditTeam team p scores

/-- Lines 533-537: `.map((team, index) => ...)`, from index `k` on. -/
def rankStandings : Nat → List TeamScore → List TeamStanding
  | _, [] => []
  | k, s :: rest =>
    { teamId := s.teamId, teamName := s.teamName, totalScore := s.totalScore
      perfectRuns := s.perfectRuns, participantCount := s.participantCount
      rank := k + 1
      averageScore := (s.totalScore : Rat) / (s.participantCount : Rat) } ::
      rankStandings (k + 1) rest

/-- Lines 512-537: `standings` of an event. -/
def teamStandings (teams : List Team) (event : Event) : List TeamStanding :=
  rankStandings 0
    (sortDescBy TeamScore.totalScore (event.participants.foldl (addToTeamScores teams) []))

/-- The handler `getTeamEventStandings`. -/
def getTeamEventStandings (db : Store) (eventId : ObjectId) : Reply StandingsResult :=
  match findById Event._id db.events eventId with
  | none => .error 404 "Event not found"
  | some event => .json { eventName := event.name, teamStandings := teamStandings db.teams event }

/-! ## `getEventLeaderboard` (eventController.js, lines 598-627) -/

/-- An element of `leaderboard` (lines 613-618); `completedAt` is `none` when
the participant has no answers. -/
structure LeaderboardRow where
  username : String
  score : Int
  perfectRun : Bool
  completedAt : Option Instant
  deriving DecidableEq, Repr

/-- The body sent by a successful `getEventLeaderboard` (lines 620-623). -/
structure LeaderboardResult where
  eventName : String
  leaderboard : List LeaderboardRow
  deriving DecidableEq, Repr

/-- Lines 613-618 for one record, on the roster with `participants.user`
populated: reading `username` of an absent or unpopulated user throws. -/
def leaderboardRow (users : List User) (p : Participant) : Except Abrupt LeaderboardRow :=
  match p.user with
  | none => .error (.thrown "Cannot read properties of undefined (reading 'username')")
  | some userId =>
    match findById User._id users userId with
    | none => .error (.thrown "Cannot read properties of null (reading 'username')")
    | some user =>
      .ok { username := user.username, score := p.score, perfectRun := p.perfectRun
            completedAt := p.answers.getLast?.map AnswerRecord.submittedAt }

/-- The call `.map(...)` of line 613 with a callback that may throw. -/
def leaderboardRows (users : List User) : List Participant → Except Abrupt (List LeaderboardRow)
  | [] => .ok []
  | p :: rest =>
    match leaderboardRow users p with
    | .error e => .error e
    | .ok row =>
      match leaderboardRows users rest with
      | .error e => .error e
      | .ok rows => .ok (row :: rows)

/-- The handler `getEventLeaderboard`; the `catch` block replies 500 with the
message of the exception. -/
def getEventLeaderboard (db : Store) (eventId : ObjectId) : Reply LeaderboardResult :=
  match findById Event._id db.events eventId with
  | none => .error 404 "Event not found"
  | some event =>
    match leaderboardRows db.users (sortDescBy Participant.score event.participants) with
    | .ok rows => .json { eventName := event.name, leaderboard := rows }
    | .error (.thrown message) => .error 500 message
    | .error (.reply status error) => .error status error

/-! ## `getEvents` (eventController.js, lines 156-168) -/

/-- Lines 157-162: `currentParticipants` as `getEvents` computes it from the
roster, with `participants.team` populated. -/
def computedParticipants (teams : List Team) (event : Event) : Nat :=
  event.participants.foldl
    (fun total participant =>
      total + (match populateRef Team._id teams participant.team with
        | some _ => jsOr event.teamSize 1
        | none => 1))
    0

/-! ## `createEvent` (eventController.js, lines 7-101) -/

/-- The value of `options` in an element of `req.body.questions`: absent (or a
value without `length`), an array of strings, or a string.  The handler reads
`.length` of it and calls `.includes` on it, and a string has both. -/
inductive OptionsInput where
  | absent
  | list (options : List String)
  | text (options : String)
  deriving DecidableEq, Repr

/-- `options?.length`, with 0 for an absent value. -/
def OptionsInput.length : OptionsInput → Nat
  | .absent => 0
  | .list options => options.length
  | .text options => options.length

/-- The first list starts with the second. -/
def startsWithChars : List Char → List Char → Bool
  | _, [] => true
  | [], _ :: _ => false
  | c :: rest, d :: more => c == d && startsWithChars rest more

/-- `String.prototype.includes` on the characters of two strings: the second
occurs somewhere in the first. -/
def includesChars : List Char → List Char → Bool
  | [], needle => startsWithChars [] needle
  | c :: rest, needle => startsWithChars (c :: rest) needle || includesChars rest needle

/-- `options.includes(answer)` (line 60): membership in an array, and for a
string the test that `answer` occurs in it. -/
def OptionsInput.includes : OptionsInput → String → Bool
  | .absent, _ => false
  | .list options, answer => options.contains answer
  | .text options, answer => includesChars options.data answer.data

/-- The value that mongoose stores in the path `options: [String]` (Event.js,
line 5): an array as it is, and a string as the array of that one string. -/
def OptionsInput.stored : OptionsInput → List String
  | .absent => []
  | .list options => options
  | .text options => [options]

/-- An element of `req.body.questions`.  The empty string stands for a falsy
`question` or `answer`, and `points` is whatever the request supplies. -/
structure QuestionInput where
  question : String
  answer : String
  options : OptionsInput
  points : Option Int
  deriving DecidableEq, Repr

/-- A date field of the request body, by the two readings that the handler
makes of its value.  `parsed` is the instant of `new Date(value)` (lines 26-27),
`none` when that is an invalid date; `cast` is the instant that mongoose stores
for the value when the event is saved (line 96), `none` when the value cannot
be cast to a date.  An ISO date string and a number are read the same way by
both; a string of digits is an invalid date for `new Date`, and mongoose reads
it as a number of milliseconds. -/
structure DateInput where
  parsed : Option Instant
  cast : Option Instant
  deriving DecidableEq, Repr

/-- A date value that `new Date` and mongoose both read as the instant `t`. -/
def dateValue (t : Instant) : DateInput := ⟨some t, some t⟩

/-- A string of digits: no date for `new Date`, `t` milliseconds for mongoose. -/
def digitsValue (t : Instant) : DateInput := ⟨none, some t⟩

/-- The JavaScript `a >= b` on two dates: false when one of them is invalid. -/
def dateGe : Option Instant → Option Instant → Bool
  | some a, some b => decide (a ≥ b)
  | _, _ => false

/-- The JavaScript `a < b` on two dates: false when one of them is invalid. -/
def dateLt : Option Instant → Option Instant → Bool
  | some a, some b => decide (a < b)
  | _, _ => false

/-- The body of a `createEvent` request.  The empty string stands for a falsy
text field, `none` for a missing date, list or number. -/
structure CreateEventRequest where
  name : String
  type : String
  description : String
  location : String
  startDate : Option DateInput
  endDate : Option DateInput
  questions : Option (List QuestionInput)
  maxParticipants : Option Nat
  deriving DecidableEq, Repr

/-- The identifiers that mongoose generates for the new event and for its
k-th question. -/
structure FreshIds where
  event : ObjectId
  question : Nat → ObjectId

/-- Lines 48-65: the checks on the questions of an online event, in order; the
first failure is the reply. -/
def checkQuestions : List QuestionInput → Except Abrupt Unit
  | [] => .ok ()
  | q :: rest =>
    if q.question == "" || q.answer == "" || q.options.length == 0 then
      .error (.reply 400
        "Invalid question format. Each question must have question text, answer, and options")
    else if !q.options.includes q.answer then
      .error (.reply 400 "Answer must be one of the options provided")
    else checkQuestions rest

/-- Line 90: `questions.map((q) => ({ ...q, points: 10 }))`, cast to question
sub-documents with fresh identifiers, from index `k` on. -/
def storedQuestions (ids : FreshIds) : Nat → List QuestionInput → List Question
  | _, [] => []
  | k, q :: rest =>
    { _id := ids.question k, question := q.question, options := q.options.stored
      answer := q.answer, points := 10 } :: storedQuestions ids (k + 1) rest

/-- The value of the enum path `type` of `eventSchema`; another string fails
the validation of the save. -/
def eventTypeOf (type : String) : Option EventType :=
  if type == "online" then some .online
  else if type == "offline" then some .offline
  else none

/-- The `try` block of `createEvent` (lines 9-97); `now` is the reading of
`new Date()` at line 35.  The guards of lines 29 and 35 compare the dates that
`new Date` made; the document gets the request values, which mongoose casts.
The save inserts the new document; it throws when `type` is not in the enum of
the schema or a date cannot be cast, and `faults.eventSave` stands for every
other failure of the save. -/
def createEventBody (db : Store) (req : CreateEventRequest) (now : Instant) (ids : FreshIds)
    (faults : Faults) : Except Abrupt (Event × Store) :=
  match req.startDate, req.endDate with
  | some startDate, some endDate =>
    if req.name == "" || req.type == "" || req.description == "" then
      .error (.reply 400 "Missing required fields")
    else if dateGe startDate.parsed endDate.parsed then
      .error (.reply 400 "End date must be after start date")
    else if dateLt startDate.parsed (some now) then
      .error (.reply 400 "Start date cannot be in the past")
    else
      match (if req.type == "online" then
              (if (req.questions.getD []).length == 0 then
                .error (.reply 400 "Online events require questions")
               else checkQuestions (req.questions.getD []))
             else .ok ()) with
      | .error e => .error e
      | .ok () =>
        if req.type == "offline" && req.location == "" then
          .error (.reply 400 "Offline events require a location")
        else if req.type == "offline" && req.maxParticipants.getD 0 == 0 then
          .error (.reply 400 "Offline events require a valid maximum number of participants")
        else
          match eventTypeOf req.type, startDate.cast, endDate.cast with
          | some type, some start, some end_ =>
            if faults.eventSave then .error (.thrown "event.save failed")
            else
              let event : Event :=
                { _id := ids.event, name := req.name, type := type
                  description := req.description
                  location := if req.location == "" then none else some req.location
                  startDate := start, endDate := end_
                  questions :=
                    if req.type == "online" then storedQuestions ids 0 (req.questions.getD [])
                    else []
                  maxParticipants := if req.type == "offline" then req.maxParticipants else none
                  status := .upcoming, participants := [], currentParticipants := 0
                  teamSize := 5 }
              .ok (event, { db with events := db.events ++ [event] })
          | _, _, _ => .error (.thrown "Event validation failed")
  | _, _ => .error (.reply 400 "Missing required fields")

/-- The handler `createEvent`: the reply and the store after the request.  The
`catch` block replies 400 with the message of the exception. -/
def createEvent (db : Store) (req : CreateEventRequest) (now : Instant) (ids : FreshIds)
    (faults : Faults) : Reply Event × Store :=
  match createEventBody db req now ids faults with
  | .ok (event, db1) => (.json event, db1)
  | .error (.reply status error) => (.error status error, db)
  | .error (.thrown message) => (.error 400 message, db)

/-! ## Reference definitions for grading

What the specification says of a submitted answer, stated on the list of
questions of the event. -/

/-- The question that an answer refers to. -/
def referencedQuestion (questions : List Question) (a : AnswerEntry) : Option Question :=
  questions.find? (fun q => q._id == a.questionId)

/-- An answer is correct when its text is identical to the recorded answer of
the question it refers to. -/
def isCorrectAnswer (questions : List Question) (a : AnswerEntry) : Bool :=
  match referencedQuestion questions a with
  | some q => q.answer == a.answer
  | none => false

/-- The points of the question that an answer refers to. -/
def pointsOf (questions : List Question) (a : AnswerEntry) : Int :=
  match referencedQuestion questions a with
  | some q => q.points
  | none => 0

/-- The answer records of a submission, the k-th stamped with the k-th reading
of the clock. -/
def answerRecords (questions : List Question) (clock : Clock) : Nat → List AnswerEntry →
    List AnswerRecord
  | _, [] => []
  | k, a :: rest =>
    ⟨a.questionId, a.answer, isCorrectAnswer questions a, clock.answerAt k⟩ ::
      answerRecords questions clock (k + 1) rest

/-! ## Reference definitions for registration -/

/-- The seats that a registration asks for, in the words of the specification:
one for an individual; for a team `event.teamSize` when it is set and not zero,
otherwise the number of members of the team when not zero, otherwise 5. -/
def seatsRequested (event : Event) : Option Team → Nat
  | none => 1
  | some team =>
    if event.teamSize ≠ 0 then event.teamSize
    else if team.members.length ≠ 0 then team.members.length
    else 5

/-- A request is a team request when `type` is `"team"` and `teamId` is given
(the test of line 424). -/
def isTeamRequest (req : SubscribeRequest) : Bool :=
  req.type == "team" && req.teamId != ""

/-- The store after a sequence of `subscribeToEvent` calls. -/
def subscribeAll (db : Store) : List (SubscribeRequest × Faults) → Store
  | [] => db
  | call :: rest => subscribeAll (subscribeToEvent db call.1 call.2).2 rest

/-- The users of the individual records of a roster. -/
def individualUsers (roster : List Participant) : List ObjectId :=
  roster.filterMap fun p =>
    match p.registrationType with
    | .individual => p.user
    | .team => none

/-- The teams of the team records of a roster. -/
def registeredTeams (roster : List Participant) : List ObjectId :=
  roster.filterMap fun p =>
    match p.registrationType with
    | .team => p.team
    | .individual => none

/-- The uniqueness invariant of a roster: no two individual records with the
same user and no two team records with the same team. -/
def rosterUnique (roster : List Participant) : Prop :=
  (individualUsers roster).Nodup ∧ (registeredTeams roster).Nodup

/-- The records of a roster whose `user` is the given user. -/
def recordsOf (userId : ObjectId) (roster : List Participant) : List Participant :=
  roster.filter fun p => p.user == some userId

/-- Two events differ at most in the `answer` fields of their questions. -/
def sameUpToAnswers (e1 e2 : Event) : Prop :=
  { e1 with questions := [] } = { e2 with questions := [] } ∧
  e1.questions.map sanitizeQuestion = e2.questions.map sanitizeQuestion

/-! ## Reference definitions for the standings -/

/-- The team of a participant record as `populate` resolves it: the id of the
stored team that the record references, if any. -/
def teamIdOf (teams : List Team) (p : Participant) : Option ObjectId :=
  (populateRef Team._id teams p.team).map Team._id

/-- The participant records of a roster that reference the given stored team. -/
def recordsOfTeam (teams : List Team) (teamId : ObjectId) (roster : List Participant) :
    List Participant :=
  roster.filter fun p => teamIdOf teams p == some teamId

/-- An entry of `teamScores` agrees with the records of its team in a roster:
sum of the scores, number of perfect runs, number of records. -/
def accurateFor (teams : List Team) (roster : List Participant) (s : TeamScore) : Prop :=
  s.totalScore = ((recordsOfTeam teams s.teamId roster).map Participant.score).sum ∧
  s.perfectRuns = ((recordsOfTeam teams s.teamId roster).filter Participant.perfectRun).length ∧
  s.participantCount = (recordsOfTeam teams s.teamId roster).length

/-- The sum of the points of all questions of an event. -/
def totalPoints (event : Event) : Int := (event.questions.map Question.points).sum

/-- The entries of a reply of `getTeamEventStandings`, none for an error. -/
def standingsOf : Reply StandingsResult → List TeamStanding
  | .json r => r.teamStandings
  | .error _ _ => []

/-- The event document that a successful `createEvent` inserts (lines 82-94). -/
def createdEvent (req : CreateEventRequest) (ids : FreshIds) (start end_ : Instant)
    (type : EventType) : Event :=
  { _id := ids.event, name := req.name, type := type
    description := req.description
    location := if req.location == "" then none else some req.location
    startDate := start, endDate := end_
    questions :=
      if req.type == "online" then storedQuestions ids 0 (req.questions.getD [])
      else []
    maxParticipants := if req.type == "offline" then req.maxParticipants else none
    status := .upcoming, participants := [], currentParticipants := 0
    teamSize := 5 }

/-! ## Sample data

An online quiz of two questions and an offline event of five seats, with one
team-type user and that user's team. -/

def quizQ1 : Question :=
  { _id := "q1", question := "Capital of France?", options := ["Paris", "Rome"]
    answer := "Paris", points := 10 }

def quizQ2 : Question :=
  { _id := "q2", question := "Six times seven?", options := ["42", "0"]
    answer := "42", points := 10 }

def quizPlayer : Participant := newParticipant (some "u1") none "u1" .individual

def quizEvent : Event :=
  { _id := "e1", name := "Quiz", type := .online, description := "A quiz", location := none
    startDate := 100, endDate := 200, questions := [quizQ1, quizQ2], maxParticipants := none
    status := .upcoming, participants := [quizPlayer], currentParticipants := 0, teamSize := 5 }

def offlineEvent : Event :=
  { _id := "e2", name := "Meetup", type := .offline, description := "A meetup"
    location := some "Hall", startDate := 100, endDate := 200, questions := []
    maxParticipants := some 5, status := .upcoming, participants := []
    currentParticipants := 0, teamSize := 5 }

def captain : User :=
  { _id := "u1", username := "alice", email := "alice@example.org", score := some 5
    wins := none, role := .user, participationType := .team, teamId := some "t1"
    isCaptain := true }

def teamOne : Team :=
  { _id := "t1", name := "Team one", captain := "u1"
    members := [⟨"alice", none, some "u1"⟩, ⟨"bob", none, none⟩]
    score := some 7, wins := none, eventsParticipated := [⟨some "e0", 7, 2, 50⟩] }

def sampleStore : Store := ⟨[quizEvent, offlineEvent], [captain], [teamOne]⟩

def sampleClock : Clock := ⟨150, fun k => 151 + k, 160⟩

/-- Scenario A of the specification: `{q1: "Paris", q2: "0"}`. -/
def scenarioA : SubmitRequest := ⟨"e1", "e1", "u1", some [some ⟨"q1", "Paris"⟩, some ⟨"q2", "0"⟩]⟩

/-- Scenario B of the specification: `{q1: "Paris", q2: "42"}`. -/
def scenarioB : SubmitRequest := ⟨"e1", "e1", "u1", some [some ⟨"q1", "Paris"⟩, some ⟨"q2", "42"⟩]⟩

/-- A submission that answers the first question twice and the second not at all. -/
def duplicateSubmission : SubmitRequest :=
  ⟨"e1", "e1", "u1", some [some ⟨"q1", "Paris"⟩, some ⟨"q1", "Paris"⟩]⟩

/-- A submission with an empty list of answers. -/
def emptySubmission : SubmitRequest := ⟨"e1", "e1", "u1", some []⟩

/-- A submission whose second answer refers to a question that the event lacks. -/
def unknownQuestionSubmission : SubmitRequest :=
  ⟨"e1", "e1", "u1", some [some ⟨"q1", "Paris"⟩, some ⟨"q9", "x"⟩]⟩

/-- A submission whose list of answers holds `null` after a complete entry. -/
def nullEntrySubmission : SubmitRequest := ⟨"e1", "e1", "u1", some [some ⟨"q1", "Paris"⟩, none]⟩

/-- A submission whose payload is not a list. -/
def malformedSubmission : SubmitRequest := ⟨"e1", "e1", "u1", none⟩

/-- The number of distinct questions that a submission answers correctly. -/
def distinctCorrect (questions : List Question) (answers : List AnswerEntry) : Nat :=
  ((answers.filter (isCorrectAnswer questions)).map AnswerEntry.questionId).dedup.length

/-- The answers payload is a list in which every entry has a question
reference and a non-empty answer text. -/
def wellFormedPayload (answers : Option (List (Option AnswerEntry))) : Prop :=
  ∃ l : List AnswerEntry, answers = some (l.map some) ∧ ∀ a ∈ l, a.questionId ≠ "" ∧ a.answer ≠ ""

/-- The record of the sample player after scenario A. -/
def finishedPlayer : Participant :=
  { quizPlayer with
    score := 10, hasCompleted := true
    answers := [⟨"q1", "Paris", true, 151⟩, ⟨"q2", "0", false, 152⟩] }

/-- The sample quiz once its player has completed it. -/
def finishedQuiz : Event := { quizEvent with participants := [finishedPlayer] }

def finishedStore : Store := ⟨[finishedQuiz, offlineEvent], [captain], [teamOne]⟩

/-- A clock that reads an instant after the end of the sample quiz. -/
def lateClock : Clock := ⟨999, fun k => 999 + k, 999⟩

/-- The test of line 313 as a plain predicate: the snapshot is that of the event. -/
def snapshotOf (eventId : ObjectId) (ep : EventParticipation) : Bool :=
  ep.event == some eventId

/-- Writes in which `event.save` throws, after the team was saved in the session. -/
def eventSaveFault : Faults := ⟨false, true, false⟩

/-- The sample store without the user document of the requester. -/
def orphanStore : Store := ⟨[quizEvent, offlineEvent], [], [teamOne]⟩

/-- A second user, of type individual, and the team that this user leads. -/
def secondUser : User :=
  { _id := "u2", username := "bob", email := "bob@example.org", score := none
    wins := none, role := .user, participationType := .individual, teamId := some "t2"
    isCaptain := true }

def teamTwo : Team :=
  { _id := "t2", name := "Team two", captain := "u2"
    members := [⟨"bob", none, some "u2"⟩, ⟨"carol", none, none⟩, ⟨"dave", none, none⟩]
    score := none, wins := none, eventsParticipated := [] }

/-- An offline event of ten seats, with teams of five. -/
def roomyEvent : Event :=
  { _id := "e3", name := "Open day", type := .offline, description := "An open day"
    location := some "Campus", startDate := 100, endDate := 200, questions := []
    maxParticipants := some 10, status := .upcoming, participants := []
    currentParticipants := 0, teamSize := 5 }

/-- Scenario C of the specification is the event `e2` of this store: five
seats, teams of five, nobody registered. -/
def clubStore : Store :=
  ⟨[quizEvent, offlineEvent, roomyEvent], [captain, secondUser], [teamOne, teamTwo]⟩

/-- The first team registers for the event `e2`, by its captain. -/
def teamOneJoins : SubscribeRequest := ⟨"e2", "u1", "team", "t1"⟩

/-- The second user registers for the event `e2` alone. -/
def bobJoins : SubscribeRequest := ⟨"e2", "u2", "individual", ""⟩

/-- The second team registers for the event `e2`, by its captain. -/
def teamTwoJoins : SubscribeRequest := ⟨"e2", "u2", "team", "t2"⟩

/-- The store of scenario C after the registration of the first team. -/
def fullStore : Store := (subscribeToEvent clubStore teamOneJoins noFaults).2

/-- The event `e2` once the first team holds its five seats. -/
def fullEvent : Event :=
  { offlineEvent with
    participants := [newParticipant none (some "t1") "u1" .team], currentParticipants := 5 }

/-- The captain registers alone. -/
def captainJoinsAlone (eventId : ObjectId) : SubscribeRequest := ⟨eventId, "u1", "individual", ""⟩

/-- The store after the first team registered for the event `e3`. -/
def afterTeamOne : Store := (subscribeToEvent clubStore ⟨"e3", "u1", "team", "t1"⟩ noFaults).2

/-- The first team asks for seats in the event `e3` once more, with its
identifier spelled in upper case. -/
def teamOneRespelled : SubscribeRequest := ⟨"e3", "u1", "team", "T1"⟩

/-- The event `e3` with two records of the first team, which hold its ten
seats. -/
def doubleBookedEvent : Event :=
  { roomyEvent with
    participants :=
      [newParticipant none (some "t1") "u1" .team, newParticipant none (some "t1") "u1" .team]
    currentParticipants := 10 }

/-- The store after the captain of the first team then registered alone for the
event `e3`. -/
def afterCaptainAlone : Store := (subscribeToEvent afterTeamOne (captainJoinsAlone "e3") noFaults).2

/-- The second user asks to take part in the sample quiz. -/
def bobParticipates : ParticipateRequest := ⟨"e1", "u2"⟩

/-- The sample quiz with other recorded answers and else the same. -/
def otherKeyQuiz : Event :=
  { quizEvent with
    questions := [{ quizQ1 with answer := "Rome" }, { quizQ2 with answer := "0" }] }

def otherKeyStore : Store := ⟨[otherKeyQuiz, offlineEvent], [captain], [teamOne]⟩

/-- Rows of the two leaderboards: a team without score, and users of scores 10,
0 and 10. -/
def sampleTeamRows : List TeamRow :=
  [⟨"t1", "Team one", some 7, none, none⟩, ⟨"t2", "Team two", none, none, some []⟩]

def sampleUserRows : List UserRow :=
  [⟨"u1", "alice", "alice@example.org", some 10, none⟩,
   ⟨"u2", "bob", "bob@example.org", some 0, none⟩,
   ⟨"u3", "carol", "carol@example.org", some 10, none⟩]

/-- The reply of `participateInEvent` for the sample quiz. -/
def quizReply : ParticipateResult :=
  { _id := "e1", name := "Quiz", type := .online, description := "A quiz"
    startDate := 100, endDate := 200
    questions := [⟨"q1", "Capital of France?", ["Paris", "Rome"], 10⟩,
                  ⟨"q2", "Six times seven?", ["42", "0"], 10⟩] }

/-- The store after the second user asked to take part in the sample quiz. -/
def afterBobParticipates : Store := (participateInEvent clubStore bobParticipates 150 noFaults).2

/-- The store after the two teams registered for the event `e3`. -/
def twoTeamsStore : Store := (subscribeToEvent afterTeamOne ⟨"e3", "u2", "team", "t2"⟩ noFaults).2

/-- An event whose roster holds two records of the first team (scores 30 and 5),
a record of the second user alone (score 50) and a record of the second team
(score 40). -/
def leagueEvent : Event :=
  { _id := "e4", name := "League", type := .offline, description := "A league"
    location := some "Arena", startDate := 100, endDate := 200, questions := []
    maxParticipants := some 20, status := .completed
    participants :=
      [{ newParticipant none (some "t1") "u1" .team with score := 30, perfectRun := true },
       { newParticipant (some "u2") none "u2" .individual with score := 50 },
       { newParticipant none (some "t2") "u2" .team with score := 40 },
       { newParticipant none (some "t1") "u1" .team with score := 5 }]
    currentParticipants := 16, teamSize := 5 }

def leagueStore : Store := ⟨[leagueEvent], [captain, secondUser], [teamOne, teamTwo]⟩

/-- Identifiers for a new event and its questions. -/
def sampleIds : FreshIds := ⟨"e9", fun k => String.mk (List.replicate (k + 1) 'q')⟩

/-- A request for an online event of one question, which supplies 50 points for
it, sent at instant 400. -/
def onlineRequest : CreateEventRequest :=
  { name := "Quiz two", type := "online", description := "One more quiz", location := ""
    startDate := some (dateValue 500), endDate := some (dateValue 600)
    questions := some [⟨"Capital of France?", "Paris", .list ["Paris", "Rome"], some 50⟩]
    maxParticipants := none }

/-- The request with its dates exchanged. -/
def badDatesRequest : CreateEventRequest :=
  { onlineRequest with startDate := some (dateValue 600), endDate := some (dateValue 500) }

/-- The request with an answer that is none of the options. -/
def wrongAnswerRequest : CreateEventRequest :=
  { onlineRequest with
    questions := some [⟨"Capital of France?", "Berlin", .list ["Paris", "Rome"], none⟩] }

/-- The request with a repeated option. -/
def repeatedOptionRequest : CreateEventRequest :=
  { onlineRequest with
    questions := some [⟨"Capital of France?", "Paris", .list ["Paris", "Paris"], none⟩] }

/-- The request with a question that has no option. -/
def noOptionRequest : CreateEventRequest :=
  { onlineRequest with questions := some [⟨"Capital of France?", "Paris", .list [], none⟩] }

/-- A user of type team without team reference, as `register` leaves one when
the save of the team fails. -/
def loneCaptain : User :=
  { _id := "u3", username := "carol", email := "carol@example.org", score := none
    wins := none, role := .user, participationType := .team, teamId := none
    isCaptain := true }

/-- The sample quiz with the record of that user, and the store that holds it. -/
def loneQuiz : Event :=
  { quizEvent with participants := [newParticipant (some "u3") none "u3" .individual] }

def loneStore : Store := ⟨[loneQuiz], [loneCaptain], [teamOne]⟩

/-- A submission that answers the first question correctly three times. -/
def tripleSubmission : SubmitRequest :=
  ⟨"e1", "e1", "u1", some [some ⟨"q1", "Paris"⟩, some ⟨"q1", "Paris"⟩, some ⟨"q1", "Paris"⟩]⟩

/-- The two teams and then the captain of the first ask for seats in the event
`e3`. -/
def openDayCalls : List (SubscribeRequest × Faults) :=
  [(⟨"e3", "u1", "team", "t1"⟩, noFaults), (⟨"e3", "u2", "team", "t2"⟩, noFaults),
   (captainJoinsAlone "e3", noFaults)]

/-- The request with its dates given as strings of digits, the start after the
end. -/
def digitsDatesRequest : CreateEventRequest :=
  { onlineRequest with
    startDate := some (digitsValue 1700000000000), endDate := some (digitsValue 1600000000000) }

/-- The request with the same instants given as numbers. -/
def numberDatesRequest : CreateEventRequest :=
  { onlineRequest with
    startDate := some (dateValue 1700000000000), endDate := some (dateValue 1600000000000) }

/-- The request whose question has the string `"Paris"` for its options and the
answer `"Par"`. -/
def textOptionsRequest : CreateEventRequest :=
  { onlineRequest with
    questions := some [⟨"Capital of France?", "Par", .text "Paris", none⟩] }

/-- The request with the same answer and the options `["Paris"]`. -/
def shortAnswerRequest : CreateEventRequest :=
  { onlineRequest with
    questions := some [⟨"Capital of France?", "Par", .list ["Paris"], none⟩] }

/-- A second member of the first team, registered for the sample quiz next to
the captain. -/
def teammate : User :=
  { _id := "u4", username := "dora", email := "dora@example.org", score := none
    wins := none, role := .user, participationType := .team, teamId := some "t1"
    isCaptain := false }

def relayQuiz : Event :=
  { quizEvent with
    participants := [quizPlayer, newParticipant (some "u4") none "u4" .individual] }

def relayStore : Store := ⟨[relayQuiz], [captain, teammate], [teamOne]⟩

/-- The teammate submits scenario B, with the event id spelled as it is stored. -/
def teammateSubmits : SubmitRequest := ⟨"e1", "e1", "u4", scenarioB.answers⟩

/-- The store after the submission of the teammate. -/
def afterTeammate : Store := (submitAnswers relayStore teammateSubmits sampleClock noFaults).2

/-- The captain submits scenario A under a path that spells the event id in
upper case. -/
def captainRespelled : SubmitRequest := ⟨"e1", "E1", "u1", scenarioA.answers⟩

/-! ## Lemmas on the store -/

theorem findById_key {α : Type} (key : α → ObjectId) (docs : List α) (id : ObjectId) (d : α)
    (h : findById key docs id = some d) : key d = id := by
  unfold findById at h
  have := List.find?_some h
  simpa using this

theorem findById_saveDoc_self {α : Type} (key : α → ObjectId) (doc : α) (docs : List α) (d : α)
    (h : findById key docs (key doc) = some d) :
    findById key (saveDoc key doc docs) (key doc) = some doc := by
  induction docs with
  | nil => simp [findById] at h
  | cons x xs ih =>
    unfold findById at h ih ⊢
    by_cases hx : key x = key doc
    · simp [saveDoc, hx]
    · simp [saveDoc, hx, List.find?_cons] at h ⊢
      exact ih h

theorem findById_saveDoc_other {α : Type} (key : α → ObjectId) (doc : α) (docs : List α)
    (id : ObjectId) (hne : id ≠ key doc) :
    findById key (saveDoc key doc docs) id = findById key docs id := by
  induction docs with
  | nil => simp [findById, saveDoc]
  | cons x xs ih =>
    unfold findById at ih ⊢
    have hd : (key doc == id) = false := by
      simpa using fun h : key doc = id => hne h.symm
    by_cases hx : key x = key doc
    · have hx2 : (key x == id) = false := by rw [hx]; exact hd
      simp [saveDoc, hx, List.find?_cons, hx2, hd]
    · have hx1 : (key x == key doc) = false := by simpa using hx
      simp only [saveDoc, hx1, Bool.false_eq_true, if_false, List.find?_cons, ih]

theorem subscribeToEvent_cases (db : Store) (req : SubscribeRequest) (faults : Faults) :
    (∃ status error, subscribeToEvent db req faults = (.error status error, db)) ∨
    (∃ event participantData participantsToAdd,
      findById Event._id db.events req.eventId = some event ∧
      event.type = .offline ∧
      isUserRegistered db.users event req.userId = false ∧
      registrationData (startTransaction db) event req = .ok (participantData, participantsToAdd) ∧
      event.currentParticipants + participantsToAdd ≤ event.maxParticipants.getD 0 ∧
      faults.eventSave = false ∧
      subscribeToEvent db req faults =
        (.json { message := if req.type == "team"
                   then "Successfully registered team for the event"
                   else "Successfully registered participant for the event"
                 currentParticipants := event.currentParticipants + participantsToAdd
                 maxParticipants := event.maxParticipants },
         { db with
           events := saveDoc Event._id (subscribedEvent event participantData participantsToAdd) db.events })) := by
  unfold subscribeToEvent subscribeToEventBody
  simp only [startTransaction, Session.abortTransaction, Session.commitTransaction]
  cases hfind : findById Event._id db.events req.eventId with
  | none => exact Or.inl ⟨_, _, rfl⟩
  | some event =>
    simp only []
    by_cases htype : event.type = .offline
    · rw [if_neg (not_not.mpr htype)]
      cases hreg : isUserRegistered db.users event req.userId with
      | true => exact Or.inl ⟨_, _, rfl⟩
      | false =>
        simp only [Bool.false_eq_true, if_false]
        cases hdata : registrationData ⟨db, db⟩ event req with
        | error e => cases e <;> exact Or.inl ⟨_, _, rfl⟩
        | ok pn =>
          obtain ⟨pd, n⟩ := pn
          simp only []
          by_cases hcap : event.currentParticipants + n > event.maxParticipants.getD 0
          · simp only [hcap, if_true]
            exact Or.inl ⟨_, _, rfl⟩
          · have hle : event.currentParticipants + n ≤ event.maxParticipants.getD 0 := by omega
            have hok : capacityOk (subscribedEvent event pd n) = true := by
              simp [capacityOk, subscribedEvent, hle]
            simp only [hcap, if_false, hok, Bool.not_true, Bool.false_eq_true]
            cases hf : faults.eventSave with
            | true =>
              refine Or.inl ⟨500, "Failed to register for the event", ?_⟩
              simp only [Session.saveEvent, if_true]
            | false =>
              refine Or.inr ⟨event, pd, n, rfl, htype, hreg, ?_, hle, rfl, ?_⟩
              · exact hdata
              · simp [Session.saveEvent, subscribedEvent]
    · rw [if_pos htype]
      exact Or.inl ⟨_, _, rfl⟩

/-! ## Lemmas on `submitAnswers` -/

theorem updateTeamOf_ok (s s1 : Session) (user : User) (eventId : ObjectId)
    (eventIdText : String) (totalScore : Int)
    (perfectRun : Bool) (completedAt : Instant) (fails : Bool)
    (h : updateTeamOf s user eventId eventIdText totalScore perfectRun completedAt fails
      = .ok s1) :
    s1.snapshot = s.snapshot ∧ s1.staged.events = s.staged.events ∧
    s1.staged.users = s.staged.users ∧
    ((∃ teamId team team1, user.participationType = .team ∧ user.teamId = some teamId ∧
        findById Team._id s.staged.teams teamId = some team ∧
        recordTeamResult team eventId eventIdText totalScore perfectRun completedAt
          = .ok team1 ∧
        s1.staged.teams = saveDoc Team._id team1 s.staged.teams) ∨
     ((∀ teamId, user.participationType = .team → user.teamId = some teamId →
        findById Team._id s.staged.teams teamId = none) ∧
      s1.staged.teams = s.staged.teams)) := by
  unfold updateTeamOf at h
  split at h
  · next teamId hpt htid =>
    split at h
    · next hnone =>
      cases h
      refine ⟨rfl, rfl, rfl, Or.inr ⟨?_, rfl⟩⟩
      intro t _ ht
      rw [htid] at ht
      cases ht
      exact hnone
    · next team hteam =>
      split at h
      · cases h
      · next team1 hrec =>
        unfold Session.saveTeam at h
        split at h
        · cases h
        · cases h
          exact ⟨rfl, rfl, rfl, Or.inl ⟨teamId, team, team1, hpt, htid, hteam, hrec, rfl⟩⟩
  · next hno =>
    cases h
    refine ⟨rfl, rfl, rfl, Or.inr ⟨?_, rfl⟩⟩
    intro t hpt ht
    exact absurd ht (by intro ht; exact hno t hpt ht)

theorem submitAnswers_error_store (db : Store) (req : SubmitRequest) (clock : Clock)
    (faults : Faults) (status : Nat) (error : String)
    (h : (submitAnswers db req clock faults).1 = .error status error) :
    (submitAnswers db req clock faults).2 = db := by
  unfold submitAnswers at h ⊢
  simp only [] at h ⊢
  split
  · next result s heq => rw [heq] at h; simp at h
  · rfl
  · rfl

theorem all_validEntry_iff (l : List AnswerEntry) :
    l.all validEntry = true ↔ ∀ a ∈ l, a.questionId ≠ "" ∧ a.answer ≠ "" := by
  simp [List.all_eq_true, validEntry]

/-- The test of line 247 on a list without `null` is `all`. -/
theorem everyValid_map_some (l : List AnswerEntry) :
    everyValid (l.map some) = .ok (l.all validEntry) := by
  induction l with
  | nil => rfl
  | cons a rest ih =>
    simp only [List.map, everyValid, List.all_cons]
    cases h : validEntry a with
    | true => simpa using ih
    | false => simp

/-- The test of line 247 passes on the lists without `null` of which every
entry has both fields. -/
theorem everyValid_true (items : List (Option AnswerEntry)) (h : everyValid items = .ok true) :
    ∃ answers : List AnswerEntry, items = answers.map some ∧ answers.all validEntry = true := by
  induction items with
  | nil => exact ⟨[], rfl, rfl⟩
  | cons x rest ih =>
    cases x with
    | none => simp [everyValid] at h
    | some a =>
      simp only [everyValid] at h
      split at h
      · next hv =>
        obtain ⟨answers, hrest, hall⟩ := ih h
        exact ⟨a :: answers, by simp [hrest], by simp [hv, hall]⟩
      · cases h

/-- The test of line 247 fails by a thrown exception only. -/
theorem everyValid_error (items : List (Option AnswerEntry)) (e : Abrupt)
    (h : everyValid items = .error e) : ∃ m, e = .thrown m := by
  induction items with
  | nil => simp [everyValid] at h
  | cons x rest ih =>
    cases x with
    | none =>
      simp only [everyValid, Except.error.injEq] at h
      exact ⟨_, h.symm⟩
    | some a =>
      simp only [everyValid] at h
      split at h
      · exact ih h
      · cases h

theorem submitAnswers_ok_inv (db db1 : Store) (req : SubmitRequest) (clock : Clock)
    (faults : Faults) (r : SubmitResult)
    (h : submitAnswers db req clock faults = (.json r, db1)) :
    ∃ event i participant, ∃ answers : List AnswerEntry, ∃ g user s1,
      findById Event._id db.events req.eventId = some event ∧
      jsFind (userMatches req.userId) event.participants = .ok (some (i, participant)) ∧
      participant.hasCompleted = false ∧
      ¬ (clock.now < event.startDate ∨ clock.now > event.endDate) ∧
      req.answers = some (answers.map some) ∧
      answers.all validEntry = true ∧
      gradeAnswers event.questions clock 0 ⟨0, [], participant.answers⟩ (answers.map some)
        = .ok g ∧
      findById User._id db.users req.userId = some user ∧
      updateTeamOf (startTransaction db) user req.eventId req.eventIdText g.totalScore
        (isPerfectRun g event) clock.completedAt faults.teamSave = .ok s1 ∧
      r = { score := g.totalScore, correctAnswers := g.correctAnswers
            perfectRun := isPerfectRun g event
            teamUpdated := decide (user.participationType = .team) } ∧
      db1 = ⟨saveDoc Event._id (submittedEvent event i participant g) db.events,
             saveDoc User._id (creditedUser user g.totalScore (isPerfectRun g event)) db.users,
             s1.staged.teams⟩ := by
  unfold submitAnswers at h
  simp only [] at h
  split at h
  · next result s hbody =>
    simp only [Prod.mk.injEq, Reply.json.injEq] at h
    obtain ⟨hr, hs⟩ := h
    subst hr
    unfold submitAnswersBody at hbody
    simp only [startTransaction] at hbody
    split at hbody
    · cases hbody
    · next event hevent =>
      split at hbody
      · cases hbody
      · cases hbody
      · next i participant hpart =>
        split at hbody
        · cases hbody
        · next hcompleted =>
          split at hbody
          · cases hbody
          · next hwindow =>
            split at hbody
            · cases hbody
            · next items hanswers =>
              split at hbody
              · cases hbody
              · cases hbody
              · next hvalid =>
                obtain ⟨answers, rfl, hall⟩ := everyValid_true items hvalid
                split at hbody
                · cases hbody
                · next g hgrade =>
                  unfold applyGrading at hbody
                  simp only [] at hbody
                  split at hbody
                  · cases hbody
                  · next user huser =>
                    split at hbody
                    · cases hbody
                    · next s1 hteam =>
                      have hs1 := updateTeamOf_ok _ _ _ _ _ _ _ _ _ hteam
                      unfold Session.saveEvent at hbody
                      split at hbody
                      · cases hbody
                      · next s2 hs2 =>
                        unfold Session.saveUser at hbody
                        split at hbody
                        · cases hbody
                        · next s3 hs3 =>
                          simp only [Except.ok.injEq, Prod.mk.injEq] at hbody
                          obtain ⟨hres, hs3eq⟩ := hbody
                          refine ⟨event, i, participant, answers, g, user, s1, hevent, hpart,
                            by simpa using hcompleted, hwindow, hanswers, hall,
                            hgrade, huser, hteam, hres.symm, ?_⟩
                          subst hs3eq
                          rw [← hs]
                          split at hs3
                          · cases hs3
                          · split at hs2
                            · cases hs2
                            · cases hs3
                              cases hs2
                              simp [Session.commitTransaction, hs1.2.1, hs1.2.2.1]
  · cases h
  · cases h

theorem gradeAnswers_ok (questions : List Question) (clock : Clock) (answers : List AnswerEntry) :
    ∀ (k : Nat) (g0 g : Grading),
      gradeAnswers questions clock k g0 (answers.map some) = .ok g →
      g.totalScore = g0.totalScore +
        ((answers.filter (isCorrectAnswer questions)).map (pointsOf questions)).sum ∧
      g.correctAnswers = g0.correctAnswers ++
        (answers.filter (isCorrectAnswer questions)).map AnswerEntry.questionId ∧
      g.answers = g0.answers ++ answerRecords questions clock k answers ∧
      ∀ a ∈ answers, (referencedQuestion questions a).isSome = true := by
  induction answers with
  | nil =>
    intro k g0 g h
    simp only [List.map, gradeAnswers, Except.ok.injEq] at h
    subst h
    simp [answerRecords]
  | cons a rest ih =>
    intro k g0 g h
    simp only [List.map, gradeAnswers] at h
    split at h
    · cases h
    · next g1 hstep =>
      obtain ⟨h1, h2, h3, h4⟩ := ih (k + 1) g1 g h
      unfold gradeAnswer at hstep
      split at hstep
      · cases hstep
      · next question hq =>
        simp only [Except.ok.injEq] at hstep
        subst hstep
        have hrq : referencedQuestion questions a = some question := hq
        by_cases hc : question.answer = a.answer
        · have hca : isCorrectAnswer questions a = true := by
            simp [isCorrectAnswer, hrq, hc]
          have hpa : pointsOf questions a = question.points := by
            simp [pointsOf, hrq]
          simp only [hc, beq_self_eq_true, if_true] at h1 h2 h3
          refine ⟨?_, ?_, ?_, ?_⟩
          · rw [h1]; simp [List.filter_cons, hca, hpa]; ring
          · rw [h2]; simp [List.filter_cons, hca]
          · rw [h3]; simp [answerRecords, hca, hc]
          · intro x hx
            rcases List.mem_cons.mp hx with rfl | hx
            · simp [hrq]
            · exact h4 x hx
        · have hca : isCorrectAnswer questions a = false := by
            simp [isCorrectAnswer, hrq, hc]
          have hb : (question.answer == a.answer) = false := by simpa using hc
          simp only [hb, Bool.false_eq_true, if_false] at h1 h2 h3
          refine ⟨?_, ?_, ?_, ?_⟩
          · rw [h1]; simp [List.filter_cons, hca]
          · rw [h2]; simp [List.filter_cons, hca]
          · rw [h3]; simp [answerRecords, hca]
          · intro x hx
            rcases List.mem_cons.mp hx with rfl | hx
            · simp [hrq]
            · exact h4 x hx

theorem jsFind_some {α : Type} (pred : α → Except Abrupt Bool) (l : List α) :
    ∀ (i : Nat) (x : α), jsFind pred l = .ok (some (i, x)) →
      ∃ l1 l2, l = l1 ++ x :: l2 ∧ l1.length = i ∧ pred x = .ok true ∧
        ∀ y ∈ l1, pred y = .ok false := by
  induction l with
  | nil => intro i x h; simp [jsFind] at h
  | cons a rest ih =>
    intro i x h
    simp only [jsFind] at h
    split at h
    · cases h
    · next hp =>
      simp only [Except.ok.injEq, Option.some.injEq, Prod.mk.injEq] at h
      obtain ⟨rfl, rfl⟩ := h
      exact ⟨[], rest, rfl, rfl, hp, by simp⟩
    · next hp =>
      split at h
      · cases h
      · cases h
      · next j y hrest =>
        simp only [Except.ok.injEq, Option.some.injEq, Prod.mk.injEq] at h
        obtain ⟨rfl, rfl⟩ := h
        obtain ⟨l1, l2, hl, hlen, hpx, hall⟩ := ih j y hrest
        refine ⟨a :: l1, l2, by simp [hl], by simp [hlen], hpx, ?_⟩
        intro z hz
        rcases List.mem_cons.mp hz with rfl | hz
        · exact hp
        · exact hall z hz

theorem jsFind_none {α : Type} (pred : α → Except Abrupt Bool) (l : List α)
    (h : jsFind pred l = .ok none) : ∀ y ∈ l, pred y = .ok false := by
  induction l with
  | nil => simp
  | cons a rest ih =>
    simp only [jsFind] at h
    split at h
    · cases h
    · cases h
    · next hp =>
      split at h
      · cases h
      · next hrest =>
        intro y hy
        rcases List.mem_cons.mp hy with rfl | hy
        · exact hp
        · exact ih hrest y hy
      · cases h

theorem jsFind_append {α : Type} (pred : α → Except Abrupt Bool) (l1 l2 : List α) (x : α)
    (hpx : pred x = .ok true) (hall : ∀ y ∈ l1, pred y = .ok false) :
    jsFind pred (l1 ++ x :: l2) = .ok (some (l1.length, x)) := by
  induction l1 with
  | nil => simp [jsFind, hpx]
  | cons a rest ih =>
    have ha : pred a = .ok false := hall a (by simp)
    have := ih (fun y hy => hall y (by simp [hy]))
    simp [jsFind, ha, this]

theorem jsFind_set {α : Type} (pred : α → Except Abrupt Bool) (l : List α) (i : Nat) (x v : α)
    (h : jsFind pred l = .ok (some (i, x))) (hv : pred v = .ok true) :
    jsFind pred (l.set i v) = .ok (some (i, v)) := by
  obtain ⟨l1, l2, hl, hlen, -, hall⟩ := jsFind_some pred l i x h
  subst hl
  subst hlen
  have : (l1 ++ x :: l2).set l1.length v = l1 ++ v :: l2 := by
    simp [List.set_append]
  rw [this]
  exact jsFind_append pred l1 l2 v hv hall

theorem recordTeamResult_ok (team team1 : Team) (eventId : ObjectId) (eventIdText : String)
    (totalScore : Int) (perfectRun : Bool) (completedAt : Instant)
    (h : recordTeamResult team eventId eventIdText totalScore perfectRun completedAt
      = .ok team1) :
    team1._id = team._id ∧
    team1.score = some (team.score.getD 0 + totalScore) ∧
    team1.wins = (if perfectRun then some (team.wins.getD 0 + 1) else team.wins) ∧
    team1.members = team.members ∧
    ((∃ i old, jsFind (eventMatches eventIdText) team.eventsParticipated
          = .ok (some (i, old)) ∧
        team1.eventsParticipated = team.eventsParticipated.set i
          ⟨some eventId, totalScore, team.members.length, completedAt⟩) ∨
     (jsFind (eventMatches eventIdText) team.eventsParticipated = .ok none ∧
        team1.eventsParticipated = team.eventsParticipated ++
          [⟨some eventId, totalScore, team.members.length, completedAt⟩])) := by
  unfold recordTeamResult at h
  simp only [] at h
  split at h
  · cases h
  · next i old hfind =>
    cases h
    exact ⟨rfl, rfl, rfl, rfl, Or.inl ⟨i, old, hfind, rfl⟩⟩
  · next hfind =>
    cases h
    exact ⟨rfl, rfl, rfl, rfl, Or.inr ⟨hfind, rfl⟩⟩

theorem submitAnswers_completed (db : Store) (req : SubmitRequest) (clock : Clock)
    (faults : Faults) (event : Event) (i : Nat) (participant : Participant)
    (hevent : findById Event._id db.events req.eventId = some event)
    (hpart : jsFind (userMatches req.userId) event.participants = .ok (some (i, participant)))
    (hcompleted : participant.hasCompleted = true) :
    submitAnswers db req clock faults =
      (.error 400 "You have already completed this event", db) := by
  unfold submitAnswers submitAnswersBody
  simp only [startTransaction, hevent, hpart, hcompleted, if_true, Session.abortTransaction]

theorem submitAnswers_ok_post (db db1 : Store) (req : SubmitRequest) (clock : Clock)
    (faults : Faults) (r : SubmitResult)
    (h : submitAnswers db req clock faults = (.json r, db1)) :
    ∃ event i participant, ∃ answers : List AnswerEntry, ∃ g user,
      findById Event._id db.events req.eventId = some event ∧
      jsFind (userMatches req.userId) event.participants = .ok (some (i, participant)) ∧
      participant.hasCompleted = false ∧
      req.answers = some (answers.map some) ∧
      gradeAnswers event.questions clock 0 ⟨0, [], participant.answers⟩ (answers.map some)
        = .ok g ∧
      findById User._id db.users req.userId = some user ∧
      r = { score := g.totalScore, correctAnswers := g.correctAnswers
            perfectRun := isPerfectRun g event
            teamUpdated := decide (user.participationType = .team) } ∧
      findById Event._id db1.events req.eventId = some (submittedEvent event i participant g) ∧
      jsFind (userMatches req.userId) (submittedEvent event i participant g).participants =
        .ok (some (i, completedParticipant participant g (isPerfectRun g event))) ∧
      findById User._id db1.users req.userId =
        some (creditedUser user g.totalScore (isPerfectRun g event)) ∧
      ((∃ teamId team team1, user.participationType = .team ∧ user.teamId = some teamId ∧
          findById Team._id db.teams teamId = some team ∧
          recordTeamResult team req.eventId req.eventIdText g.totalScore (isPerfectRun g event)
            clock.completedAt = .ok team1 ∧
          db1.teams = saveDoc Team._id team1 db.teams ∧
          findById Team._id db1.teams teamId = some team1) ∨
       ((∀ teamId, user.participationType = .team → user.teamId = some teamId →
          findById Team._id db.teams teamId = none) ∧
        db1.teams = db.teams)) := by
  obtain ⟨event, i, participant, answers, g, user, s1, hevent, hpart, hcompleted, -, hanswers, -,
    hgrade, huser, hteam, hr, hdb⟩ := submitAnswers_ok_inv db db1 req clock faults r h
  have heid : event._id = req.eventId := findById_key _ _ _ _ hevent
  have huid : user._id = req.userId := findById_key _ _ _ _ huser
  obtain ⟨_, _, -, -, hpred, -⟩ := jsFind_some _ _ _ _ hpart
  refine ⟨event, i, participant, answers, g, user, hevent, hpart, hcompleted, hanswers, hgrade,
    huser, hr, ?_, ?_, ?_, ?_⟩
  · subst hdb
    have := findById_saveDoc_self Event._id (submittedEvent event i participant g) db.events event
      (by simpa [submittedEvent, heid] using hevent)
    simpa [submittedEvent, heid] using this
  · exact jsFind_set _ _ _ _ _ hpart (by simpa [userMatches, completedParticipant] using hpred)
  · subst hdb
    have := findById_saveDoc_self User._id (creditedUser user g.totalScore (isPerfectRun g event))
      db.users user (by simpa [creditedUser, huid] using huser)
    simpa [creditedUser, huid] using this
  · obtain ⟨-, -, -, hcase⟩ := updateTeamOf_ok _ _ _ _ _ _ _ _ _ hteam
    simp only [startTransaction] at hcase
    rcases hcase with ⟨teamId, team, team1, hpt, htid, hfind, hrec, hteams⟩ | ⟨hnone, hteams⟩
    · refine Or.inl ⟨teamId, team, team1, hpt, htid, hfind, hrec, ?_, ?_⟩
      · subst hdb; exact hteams
      · subst hdb
        have h1 : team1._id = team._id := (recordTeamResult_ok _ _ _ _ _ _ _ hrec).1
        have h2 : team._id = teamId := findById_key _ _ _ _ hfind
        simp only [hteams]
        have := findById_saveDoc_self Team._id team1 db.teams team
          (by rw [h1, h2]; exact hfind)
        rw [h1, h2] at this
        exact this
    · exact Or.inr ⟨hnone, by subst hdb; exact hteams⟩

theorem eventMatches_true (eventId : ObjectId) (ep : EventParticipation)
    (h : eventMatches eventId ep = .ok true) : snapshotOf eventId ep = true := by
  unfold eventMatches at h
  split at h
  · cases h
  · next e he =>
    simp only [Except.ok.injEq, beq_iff_eq] at h
    simp [snapshotOf, he, h]

theorem eventMatches_false (eventId : ObjectId) (ep : EventParticipation)
    (h : eventMatches eventId ep = .ok false) : snapshotOf eventId ep = false := by
  unfold eventMatches at h
  split at h
  · cases h
  · next e he =>
    simp only [Except.ok.injEq, beq_eq_false_iff_ne, ne_eq] at h
    simp [snapshotOf, he, h]

theorem filter_eq_nil_of_false {α : Type} (p : α → Bool) (l : List α)
    (h : ∀ y ∈ l, p y = false) : l.filter p = [] := by
  simp only [List.filter_eq_nil_iff]
  intro y hy
  simp [h y hy]

/-- The upsert of lines 312-320, when the path spells the event id as it is
stored, leaves exactly one snapshot of the event when there was at most one,
and keeps the snapshots of the other events. -/
theorem recordTeamResult_snapshots (team team1 : Team) (eventId : ObjectId) (totalScore : Int)
    (perfectRun : Bool) (completedAt : Instant)
    (h : recordTeamResult team eventId eventId totalScore perfectRun completedAt = .ok team1)
    (hone : (team.eventsParticipated.filter (snapshotOf eventId)).length ≤ 1) :
    team1.eventsParticipated.filter (snapshotOf eventId) =
      [⟨some eventId, totalScore, team.members.length, completedAt⟩] ∧
    team1.eventsParticipated.filter (fun ep => !snapshotOf eventId ep) =
      team.eventsParticipated.filter (fun ep => !snapshotOf eventId ep) := by
  have hnew : snapshotOf eventId ⟨some eventId, totalScore, team.members.length, completedAt⟩
      = true := by simp [snapshotOf]
  obtain ⟨-, -, -, -, hcase⟩ := recordTeamResult_ok _ _ _ _ _ _ _ h
  rcases hcase with ⟨i, old, hfind, hset⟩ | ⟨hfind, happ⟩
  · obtain ⟨l1, l2, hl, hlen, hold, hbefore⟩ := jsFind_some _ _ _ _ hfind
    have hl1 : ∀ y ∈ l1, snapshotOf eventId y = false :=
      fun y hy => eventMatches_false _ _ (hbefore y hy)
    have hold1 : snapshotOf eventId old = true := eventMatches_true _ _ hold
    have hset1 : team1.eventsParticipated =
        l1 ++ ⟨some eventId, totalScore, team.members.length, completedAt⟩ :: l2 := by
      rw [hset, hl, ← hlen]
      simp [List.set_append]
    rw [hl] at hone ⊢
    rw [hset1]
    simp only [List.filter_append, List.filter_cons, hold1, hnew, if_true, List.length_append,
      List.length_cons, filter_eq_nil_of_false _ _ hl1, List.length_nil, Bool.not_true,
      Bool.false_eq_true, if_false] at hone ⊢
    have hl2 : l2.filter (snapshotOf eventId) = [] := by
      apply List.eq_nil_of_length_eq_zero
      omega
    simp [hl2]
  · have hall : ∀ y ∈ team.eventsParticipated, snapshotOf eventId y = false :=
      fun y hy => eventMatches_false _ _ (jsFind_none _ _ hfind y hy)
    rw [happ]
    simp [List.filter_append, filter_eq_nil_of_false _ _ hall, hnew]

theorem jsFind_error {α : Type} (pred : α → Except Abrupt Bool)
    (hpred : ∀ x e, pred x = .error e → ∃ m, e = .thrown m) (l : List α) :
    ∀ e, jsFind pred l = .error e → ∃ m, e = .thrown m := by
  induction l with
  | nil => intro e h; simp [jsFind] at h
  | cons a rest ih =>
    intro e h
    simp only [jsFind] at h
    split at h
    · next e1 hp =>
      cases h
      exact hpred a _ hp
    · cases h
    · split at h
      · next e1 hrest =>
        cases h
        exact ih _ hrest
      · cases h
      · cases h

theorem gradeAnswers_error (questions : List Question) (clock : Clock)
    (answers : List (Option AnswerEntry)) :
    ∀ (k : Nat) (g0 : Grading) (e : Abrupt),
      gradeAnswers questions clock k g0 answers = .error e → ∃ m, e = .thrown m := by
  induction answers with
  | nil => intro k g0 e h; simp [gradeAnswers] at h
  | cons x rest ih =>
    intro k g0 e h
    cases x with
    | none =>
      simp only [gradeAnswers, Except.error.injEq] at h
      exact ⟨_, h.symm⟩
    | some a =>
      simp only [gradeAnswers] at h
      split at h
      · next e1 hstep =>
        cases h
        unfold gradeAnswer at hstep
        split at hstep
        · cases hstep
          exact ⟨_, rfl⟩
        · cases hstep
      · next g1 _ => exact ih _ _ _ h

theorem updateTeamOf_error (s : Session) (user : User) (eventId : ObjectId)
    (eventIdText : String) (totalScore : Int)
    (perfectRun : Bool) (completedAt : Instant) (fails : Bool) (e : Abrupt)
    (h : updateTeamOf s user eventId eventIdText totalScore perfectRun completedAt fails
      = .error e) :
    ∃ m, e = .thrown m := by
  unfold updateTeamOf at h
  split at h
  · split at h
    · cases h
    · split at h
      · next e1 hrec =>
        cases h
        unfold recordTeamResult at hrec
        simp only [] at hrec
        split at hrec
        · next e2 hfind =>
          cases hrec
          refine jsFind_error (eventMatches eventIdText) ?_ _ _ hfind
          intro x e3 hx
          unfold eventMatches at hx
          split at hx
          · cases hx
            exact ⟨_, rfl⟩
          · cases hx
        · cases hrec
        · cases hrec
      · unfold Session.saveTeam at h
        split at h
        · cases h
          exact ⟨_, rfl⟩
        · cases h
  · cases h

theorem applyGrading_error (s : Session) (req : SubmitRequest) (clock : Clock) (faults : Faults)
    (event : Event) (i : Nat) (participant : Participant) (g : Grading) (e : Abrupt)
    (h : applyGrading s req clock faults event i participant g = .error e) :
    e = .reply 404 "User not found" ∨ ∃ m, e = .thrown m := by
  unfold applyGrading at h
  simp only [] at h
  split at h
  · cases h
    exact Or.inl rfl
  · split at h
    · next e1 hteam =>
      cases h
      exact Or.inr (updateTeamOf_error _ _ _ _ _ _ _ _ _ hteam)
    · unfold Session.saveEvent at h
      split at h
      · next e1 hsave =>
        cases h
        split at hsave
        · cases hsave
          exact Or.inr ⟨_, rfl⟩
        · cases hsave
      · unfold Session.saveUser at h
        split at h
        · next e1 hsave =>
          cases h
          split at hsave
          · cases hsave
            exact Or.inr ⟨_, rfl⟩
          · cases hsave
        · cases h

/-- The replies of `submitAnswers` once the event and an uncompleted record of
the requester are found. -/
theorem submitAnswers_after_lookup (db : Store) (req : SubmitRequest) (clock : Clock)
    (faults : Faults) (event : Event) (i : Nat) (participant : Participant)
    (hevent : findById Event._id db.events req.eventId = some event)
    (hpart : jsFind (userMatches req.userId) event.participants = .ok (some (i, participant)))
    (hcompleted : participant.hasCompleted = false) :
    ((clock.now < event.startDate ∨ clock.now > event.endDate) ∧
      submitAnswers db req clock faults =
        (.error 403 "Event is not active for submissions", db)) ∨
    (¬ (clock.now < event.startDate ∨ clock.now > event.endDate) ∧
      ¬ wellFormedPayload req.answers ∧
      (submitAnswers db req clock faults = (.error 400 "Invalid answers format", db) ∨
       submitAnswers db req clock faults = (.error 500 "Failed to submit answers", db))) ∨
    (¬ (clock.now < event.startDate ∨ clock.now > event.endDate) ∧
      wellFormedPayload req.answers ∧
      ((∃ r, (submitAnswers db req clock faults).1 = .json r) ∨
       (submitAnswers db req clock faults).1 = .error 500 "Failed to submit answers" ∨
       (submitAnswers db req clock faults).1 = .error 404 "User not found")) := by
  by_cases hw : clock.now < event.startDate ∨ clock.now > event.endDate
  · refine Or.inl ⟨hw, ?_⟩
    unfold submitAnswers submitAnswersBody
    simp only [startTransaction, hevent, hpart, hcompleted, hw, if_true, Bool.false_eq_true,
      if_false, Session.abortTransaction]
  · refine Or.inr ?_
    cases hanswers : req.answers with
    | none =>
      refine Or.inl ⟨hw, ?_, Or.inl ?_⟩
      · rintro ⟨l, hl, -⟩
        cases hl
      · unfold submitAnswers submitAnswersBody
        simp only [startTransaction, hevent, hpart, hcompleted, hw, hanswers, Bool.false_eq_true,
          if_false, Session.abortTransaction]
    | some items =>
      cases hvalid : everyValid items with
      | error e =>
        obtain ⟨m, rfl⟩ := everyValid_error _ _ hvalid
        refine Or.inl ⟨hw, ?_, Or.inr ?_⟩
        · rintro ⟨l, hl, hall⟩
          cases hl
          rw [everyValid_map_some] at hvalid
          cases hvalid
        · unfold submitAnswers submitAnswersBody
          simp only [startTransaction, hevent, hpart, hcompleted, hw, hanswers, hvalid,
            Bool.false_eq_true, if_false, Session.abortTransaction]
      | ok valid =>
      cases valid with
      | false =>
        refine Or.inl ⟨hw, ?_, Or.inl ?_⟩
        · rintro ⟨l, hl, hall⟩
          cases hl
          rw [everyValid_map_some, (all_validEntry_iff l).mpr hall] at hvalid
          cases hvalid
        · unfold submitAnswers submitAnswersBody
          simp only [startTransaction, hevent, hpart, hcompleted, hw, hanswers, hvalid,
            Bool.false_eq_true, if_false, Session.abortTransaction]
      | true =>
        obtain ⟨answers, rfl, hall⟩ := everyValid_true items hvalid
        refine Or.inr ⟨hw, ⟨answers, rfl, (all_validEntry_iff answers).mp hall⟩, ?_⟩
        unfold submitAnswers submitAnswersBody
        simp only [startTransaction, hevent, hpart, hcompleted, hw, hanswers, hvalid,
          Bool.false_eq_true, if_false, Session.abortTransaction]
        cases hgrade : gradeAnswers event.questions clock 0 ⟨0, [], participant.answers⟩
            (answers.map some) with
        | error e =>
          obtain ⟨m, rfl⟩ := gradeAnswers_error _ _ _ _ _ _ hgrade
          exact Or.inr (Or.inl rfl)
        | ok g =>
          simp only []
          cases happly : applyGrading ⟨db, db⟩ req clock faults event i participant g with
          | error e =>
            rcases applyGrading_error _ _ _ _ _ _ _ _ _ happly with rfl | ⟨m, rfl⟩
            · exact Or.inr (Or.inr rfl)
            · exact Or.inr (Or.inl rfl)
          | ok res => exact Or.inl ⟨res.1, rfl⟩

theorem userMatches_error (userId : ObjectId) (p : Participant) (e : Abrupt)
    (h : userMatches userId p = .error e) : ∃ m, e = .thrown m := by
  unfold userMatches at h
  split at h
  · cases h
    exact ⟨_, rfl⟩
  · cases h

/-- A payload that is not a list of well-formed entries is rejected on every
path, and nothing is written. -/
theorem submitAnswers_malformed (db : Store) (req : SubmitRequest) (clock : Clock)
    (faults : Faults) (hbad : ¬ wellFormedPayload req.answers) :
    ∃ status error, submitAnswers db req clock faults = (.error status error, db) := by
  cases hevent : findById Event._id db.events req.eventId with
  | none =>
    refine ⟨404, "Event not found", ?_⟩
    unfold submitAnswers submitAnswersBody
    simp only [startTransaction, hevent, Session.abortTransaction]
  | some event =>
    cases hpart : jsFind (userMatches req.userId) event.participants with
    | error e =>
      obtain ⟨m, rfl⟩ := jsFind_error _ (userMatches_error req.userId) _ _ hpart
      refine ⟨500, "Failed to submit answers", ?_⟩
      unfold submitAnswers submitAnswersBody
      simp only [startTransaction, hevent, hpart, Session.abortTransaction]
    | ok found =>
      cases found with
      | none =>
        refine ⟨404, "Participant not found", ?_⟩
        unfold submitAnswers submitAnswersBody
        simp only [startTransaction, hevent, hpart, Session.abortTransaction]
      | some ip =>
        obtain ⟨i, participant⟩ := ip
        cases hcompleted : participant.hasCompleted with
        | true => exact ⟨_, _, submitAnswers_completed db req clock faults event i participant
            hevent hpart hcompleted⟩
        | false =>
          rcases submitAnswers_after_lookup db req clock faults event i participant hevent hpart
            hcompleted with ⟨-, h⟩ | ⟨-, -, h | h⟩ | ⟨-, hgood, -⟩
          · exact ⟨_, _, h⟩
          · exact ⟨_, _, h⟩
          · exact ⟨_, _, h⟩
          · exact absurd hgood hbad

/-! ## Lemmas on `subscribeToEvent` -/

theorem registrationData_ok (s : Session) (event : Event) (req : SubscribeRequest)
    (pd : Participant) (n : Nat) (h : registrationData s event req = .ok (pd, n)) :
    (isTeamRequest req = true ∧
      ∃ teamId team, castObjectId req.teamId = some teamId ∧
        findById Team._id s.staged.teams teamId = some team ∧
        isTeamRegistered s.staged.teams event req.teamId = false ∧
        pd = newParticipant none (some teamId) req.userId .team ∧
        n = seatsRequested event (some team)) ∨
    (isTeamRequest req = false ∧
        pd = newParticipant (some req.userId) none req.userId .individual ∧
        n = seatsRequested event none) := by
  unfold registrationData at h
  split at h
  · next hteam =>
    have hreq : isTeamRequest req = true := hteam
    split at h
    · cases h
    · next teamId hcast =>
      split at h
      · cases h
      · next team hfind =>
        split at h
        · cases h
        · next hnot =>
          simp only [Except.ok.injEq, Prod.mk.injEq] at h
          refine Or.inl ⟨hreq, teamId, team, hcast, hfind, by simpa using hnot, h.1.symm, ?_⟩
          rw [← h.2]
          unfold seatsRequested jsOr
          by_cases h1 : event.teamSize = 0
          · by_cases h2 : team.members.length = 0 <;> simp [h1, h2]
          · simp [h1]
  · next hteam =>
    have hreq : isTeamRequest req = false := by
      simpa [isTeamRequest] using hteam
    simp only [Except.ok.injEq, Prod.mk.injEq] at h
    exact Or.inr ⟨hreq, h.1.symm, by rw [← h.2]; rfl⟩

theorem seatsRequested_pos (event : Event) (team : Option Team) :
    0 < seatsRequested event team := by
  cases team with
  | none => simp [seatsRequested]
  | some t =>
    simp only [seatsRequested]
    by_cases h1 : event.teamSize = 0
    · by_cases h2 : t.members.length = 0
      · simp [h1, h2]
      · simp [h1, h2]; omega
    · simp [h1]; omega

/-- The replies of `subscribeToEvent` once the existence, event-type and
duplicate checks are passed. -/
theorem subscribeToEvent_after_checks (db : Store) (req : SubscribeRequest) (faults : Faults)
    (event : Event) (pd : Participant) (n : Nat)
    (hevent : findById Event._id db.events req.eventId = some event)
    (hoffline : event.type = .offline)
    (hnotreg : isUserRegistered db.users event req.userId = false)
    (hdata : registrationData (startTransaction db) event req = .ok (pd, n)) :
    (event.currentParticipants + n > event.maxParticipants.getD 0 ∧
      subscribeToEvent db req faults =
        (.error 400 (if req.type == "team"
            then "Not enough spots available for the entire team"
            else "No spots available for registration"), db)) ∨
    (event.currentParticipants + n ≤ event.maxParticipants.getD 0 ∧
      faults.eventSave = true ∧
      subscribeToEvent db req faults = (.error 500 "Failed to register for the event", db)) ∨
    (event.currentParticipants + n ≤ event.maxParticipants.getD 0 ∧
      faults.eventSave = false ∧
      subscribeToEvent db req faults =
        (.json { message := if req.type == "team"
                   then "Successfully registered team for the event"
                   else "Successfully registered participant for the event"
                 currentParticipants := event.currentParticipants + n
                 maxParticipants := event.maxParticipants },
         { db with events := saveDoc Event._id (subscribedEvent event pd n) db.events })) := by
  simp only [startTransaction] at hdata
  unfold subscribeToEvent subscribeToEventBody
  simp only [startTransaction, Session.abortTransaction, Session.commitTransaction, hevent]
  rw [if_neg (not_not.mpr hoffline)]
  simp only [hnotreg, Bool.false_eq_true, if_false, hdata]
  by_cases hcap : event.currentParticipants + n > event.maxParticipants.getD 0
  · rw [if_pos hcap]
    exact Or.inl ⟨hcap, rfl⟩
  · have hle : event.currentParticipants + n ≤ event.maxParticipants.getD 0 := by omega
    have hok : capacityOk (subscribedEvent event pd n) = true := by
      simp [capacityOk, subscribedEvent, hle]
    rw [if_neg hcap]
    simp only [hok, Bool.not_true, Bool.false_eq_true, if_false]
    cases hf : faults.eventSave with
    | true =>
      refine Or.inr (Or.inl ⟨hle, rfl, ?_⟩)
      simp only [Session.saveEvent, if_true]
    | false =>
      refine Or.inr (Or.inr ⟨hle, rfl, ?_⟩)
      simp [Session.saveEvent, subscribedEvent]

/-- A `subscribeToEvent` call keeps every stored event, with its type, and can
only append to its roster; it writes no user and no team. -/
theorem subscribeToEvent_step (db : Store) (req : SubscribeRequest) (faults : Faults)
    (eventId : ObjectId) (e : Event) (h : findById Event._id db.events eventId = some e) :
    ∃ e1, findById Event._id (subscribeToEvent db req faults).2.events eventId = some e1 ∧
      e1.type = e.type ∧ (∃ extra, e1.participants = e.participants ++ extra) ∧
      (subscribeToEvent db req faults).2.users = db.users ∧
      (subscribeToEvent db req faults).2.teams = db.teams := by
  rcases subscribeToEvent_cases db req faults with
    ⟨status, error, he⟩ | ⟨event, pd, n, hevent, -, -, -, -, -, hs⟩
  · rw [he]
    exact ⟨e, h, rfl, ⟨[], by simp⟩, rfl, rfl⟩
  · rw [hs]
    have hid : event._id = req.eventId := findById_key _ _ _ _ hevent
    by_cases hsame : eventId = req.eventId
    · subst hsame
      rw [h] at hevent
      cases hevent
      have := findById_saveDoc_self Event._id (subscribedEvent e pd n) db.events e
        (by simpa [subscribedEvent, hid] using h)
      refine ⟨subscribedEvent e pd n, by simpa [subscribedEvent, hid] using this, rfl,
        ⟨[pd], rfl⟩, rfl, rfl⟩
    · have := findById_saveDoc_other Event._id (subscribedEvent event pd n) db.events eventId
        (by simpa [subscribedEvent, hid] using hsame)
      exact ⟨e, by simpa [this] using h, rfl, ⟨[], by simp⟩, rfl, rfl⟩

theorem subscribeAll_step (calls : List (SubscribeRequest × Faults)) :
    ∀ (db : Store) (eventId : ObjectId) (e : Event),
      findById Event._id db.events eventId = some e →
      ∃ e1, findById Event._id (subscribeAll db calls).events eventId = some e1 ∧
        e1.type = e.type ∧ (∃ extra, e1.participants = e.participants ++ extra) ∧
        (subscribeAll db calls).users = db.users ∧
        (subscribeAll db calls).teams = db.teams := by
  induction calls with
  | nil =>
    intro db eventId e h
    exact ⟨e, h, rfl, ⟨[], by simp⟩, rfl, rfl⟩
  | cons call rest ih =>
    intro db eventId e h
    obtain ⟨e1, h1, ht1, ⟨x1, hx1⟩, hu1, hm1⟩ := subscribeToEvent_step db call.1 call.2 eventId e h
    obtain ⟨e2, h2, ht2, ⟨x2, hx2⟩, hu2, hm2⟩ := ih _ eventId e1 h1
    refine ⟨e2, h2, ht2.trans ht1, ⟨x1 ++ x2, ?_⟩, hu2.trans hu1, hm2.trans hm1⟩
    rw [hx2, hx1, List.append_assoc]

theorem isUserRegistered_of_mem (users : List User) (event : Event) (userId : ObjectId)
    (user : User) (p : Participant) (hp : p ∈ event.participants)
    (hkind : p.registrationType = .individual) (hu : p.user = some userId)
    (hstored : findById User._id users userId = some user) :
    isUserRegistered users event userId = true := by
  unfold isUserRegistered
  rw [List.any_eq_true]
  refine ⟨p, hp, ?_⟩
  have hid : user._id = userId := findById_key _ _ _ _ hstored
  simp [hkind, hu, populateRef, hstored, hid]

theorem isTeamRegistered_of_mem (teams : List Team) (event : Event) (teamId : ObjectId)
    (team : Team) (p : Participant) (hp : p ∈ event.participants)
    (ht : p.team = some teamId) (hstored : findById Team._id teams teamId = some team) :
    isTeamRegistered teams event teamId = true := by
  unfold isTeamRegistered
  rw [List.any_eq_true]
  refine ⟨p, hp, ?_⟩
  have hid : team._id = teamId := findById_key _ _ _ _ hstored
  simp [ht, populateRef, hstored, hid]

theorem subscribeToEvent_registered (db : Store) (req : SubscribeRequest) (faults : Faults)
    (event : Event) (hevent : findById Event._id db.events req.eventId = some event)
    (hoffline : event.type = .offline)
    (hreg : isUserRegistered db.users event req.userId = true) :
    subscribeToEvent db req faults =
      (.error 400 "You are already registered for this event", db) := by
  unfold subscribeToEvent subscribeToEventBody
  simp only [startTransaction, Session.abortTransaction, hevent]
  rw [if_neg (not_not.mpr hoffline)]
  simp only [hreg, if_true]

theorem subscribeToEvent_team_registered (db : Store) (req : SubscribeRequest)
    (faults : Faults) (event : Event) (teamId : ObjectId) (team : Team)
    (hevent : findById Event._id db.events req.eventId = some event)
    (hoffline : event.type = .offline)
    (hnotreg : isUserRegistered db.users event req.userId = false)
    (hreq : isTeamRequest req = true)
    (hcast : castObjectId req.teamId = some teamId)
    (hteam : findById Team._id db.teams teamId = some team)
    (hreg : isTeamRegistered db.teams event req.teamId = true) :
    subscribeToEvent db req faults =
      (.error 400 "Your team is already registered for this event", db) := by
  have hreq1 : (req.type == "team" && req.teamId != "") = true := hreq
  unfold subscribeToEvent subscribeToEventBody
  simp only [startTransaction, Session.abortTransaction, hevent]
  rw [if_neg (not_not.mpr hoffline)]
  simp only [hnotreg, Bool.false_eq_true, if_false, registrationData, hreq1, if_true, hcast,
    hteam, hreg]

theorem subscribeToEvent_ok_post (db db1 : Store) (req : SubscribeRequest) (faults : Faults)
    (r : SubscribeResult) (h : subscribeToEvent db req faults = (.json r, db1)) :
    ∃ event pd n,
      findById Event._id db.events req.eventId = some event ∧
      event.type = .offline ∧
      isUserRegistered db.users event req.userId = false ∧
      registrationData (startTransaction db) event req = .ok (pd, n) ∧
      event.currentParticipants + n ≤ event.maxParticipants.getD 0 ∧
      findById Event._id db1.events req.eventId = some (subscribedEvent event pd n) ∧
      db1.users = db.users ∧ db1.teams = db.teams := by
  rcases subscribeToEvent_cases db req faults with
    ⟨status, error, he⟩ | ⟨event, pd, n, hevent, hoffline, hnotreg, hdata, hle, -, hs⟩
  · rw [he] at h
    cases h
  · rw [hs] at h
    simp only [Prod.mk.injEq, Reply.json.injEq] at h
    obtain ⟨-, hdb⟩ := h
    subst hdb
    have hid : event._id = req.eventId := findById_key _ _ _ _ hevent
    have := findById_saveDoc_self Event._id (subscribedEvent event pd n) db.events event
      (by simpa [subscribedEvent, hid] using hevent)
    exact ⟨event, pd, n, hevent, hoffline, hnotreg, hdata, hle,
      by simpa [subscribedEvent, hid] using this, rfl, rfl⟩

/-- The outcomes of `participateInEvent`: an error that writes nothing, the
reply for a requester whose uncompleted record exists, or the reply after the
record of the requester was pushed and saved. -/
theorem participateInEvent_cases (db : Store) (req : ParticipateRequest) (now : Instant)
    (faults : Faults) :
    (∃ status error, participateInEvent db req now faults = (.error status error, db)) ∨
    (∃ event i p,
      findById Event._id db.events req.eventId = some event ∧
      event.type = .online ∧
      ¬ (now < event.startDate ∨ now > event.endDate) ∧
      jsFind (userMatches req.userId) event.participants = .ok (some (i, p)) ∧
      p.hasCompleted = false ∧
      participateInEvent db req now faults = (.json (participateReply event), db)) ∨
    (∃ event,
      findById Event._id db.events req.eventId = some event ∧
      event.type = .online ∧
      ¬ (now < event.startDate ∨ now > event.endDate) ∧
      jsFind (userMatches req.userId) event.participants = .ok none ∧
      faults.eventSave = false ∧
      participateInEvent db req now faults =
        (.json (participateReply (joinedEvent event req.userId)),
         { db with events := saveDoc Event._id (joinedEvent event req.userId) db.events })) := by
  unfold participateInEvent participateInEventBody
  cases hevent : findById Event._id db.events req.eventId with
  | none => exact Or.inl ⟨_, _, rfl⟩
  | some event =>
    simp only []
    by_cases htype : event.type = .online
    · rw [if_neg (not_not.mpr htype)]
      by_cases hw : now < event.startDate ∨ now > event.endDate
      · rw [if_pos hw]
        exact Or.inl ⟨_, _, rfl⟩
      · rw [if_neg hw]
        cases hfind : jsFind (userMatches req.userId) event.participants with
        | error e =>
          obtain ⟨m, rfl⟩ := jsFind_error _ (userMatches_error req.userId) _ _ hfind
          exact Or.inl ⟨_, _, rfl⟩
        | ok found =>
          cases found with
          | none =>
            simp only []
            cases hf : faults.eventSave with
            | true => exact Or.inl ⟨500, "Internal server error", by simp⟩
            | false => exact Or.inr (Or.inr ⟨event, rfl, htype, hw, hfind, rfl, by simp⟩)
          | some ip =>
            obtain ⟨i, p⟩ := ip
            simp only []
            cases hc : p.hasCompleted with
            | true => exact Or.inl ⟨400, "You Can't Submit Twice Bro 😑", by simp⟩
            | false => exact Or.inr (Or.inl ⟨event, i, p, rfl, htype, hw, hfind, hc, by simp⟩)
    · rw [if_pos htype]
      exact Or.inl ⟨_, _, rfl⟩

/-! ## Lemmas on the uniqueness of the roster -/

theorem not_mem_individualUsers (users : List User) (event : Event) (userId : ObjectId)
    (user : User) (hstored : findById User._id users userId = some user)
    (hnotreg : isUserRegistered users event userId = false) :
    userId ∉ individualUsers event.participants := by
  intro hmem
  unfold individualUsers at hmem
  rw [List.mem_filterMap] at hmem
  obtain ⟨p, hp, hf⟩ := hmem
  have hkind : p.registrationType = .individual := by
    cases hk : p.registrationType with
    | individual => rfl
    | team => simp [hk] at hf
  simp only [hkind] at hf
  rw [isUserRegistered_of_mem users event userId user p hp hkind hf hstored] at hnotreg
  cases hnotreg

theorem not_mem_registeredTeams (teams : List Team) (event : Event) (teamId : ObjectId)
    (team : Team) (hstored : findById Team._id teams teamId = some team)
    (hnotreg : isTeamRegistered teams event teamId = false) :
    teamId ∉ registeredTeams event.participants := by
  intro hmem
  unfold registeredTeams at hmem
  rw [List.mem_filterMap] at hmem
  obtain ⟨p, hp, hf⟩ := hmem
  have ht : p.team = some teamId := by
    cases hk : p.registrationType with
    | individual => simp [hk] at hf
    | team => simpa [hk] using hf
  rw [isTeamRegistered_of_mem teams event teamId team p hp ht hstored] at hnotreg
  cases hnotreg

theorem userMatches_false (userId : ObjectId) (p : Participant)
    (h : userMatches userId p = .ok false) : (p.user == some userId) = false := by
  unfold userMatches at h
  split at h
  · cases h
  · next u hu =>
    simp only [Except.ok.injEq, beq_eq_false_iff_ne, ne_eq] at h
    simp [hu, h]

theorem userMatches_true (userId : ObjectId) (p : Participant)
    (h : userMatches userId p = .ok true) : p.user = some userId := by
  unfold userMatches at h
  split at h
  · cases h
  · next u hu =>
    simp only [Except.ok.injEq, beq_iff_eq] at h
    rw [hu, h]

theorem not_mem_individualUsers_of_jsFind (userId : ObjectId) (roster : List Participant)
    (h : jsFind (userMatches userId) roster = .ok none) :
    userId ∉ individualUsers roster := by
  intro hmem
  unfold individualUsers at hmem
  rw [List.mem_filterMap] at hmem
  obtain ⟨p, hp, hf⟩ := hmem
  have hno := userMatches_false _ _ (jsFind_none _ _ h p hp)
  cases hk : p.registrationType with
  | individual =>
    simp only [hk] at hf
    simp [hf] at hno
  | team => simp [hk] at hf

theorem rosterUnique_append_individual (roster : List Participant) (userId by_ : ObjectId)
    (h : rosterUnique roster) (hnew : userId ∉ individualUsers roster) :
    rosterUnique (roster ++ [newParticipant (some userId) none by_ .individual]) := by
  obtain ⟨h1, h2⟩ := h
  unfold rosterUnique individualUsers registeredTeams at *
  simp only [List.filterMap_append, List.filterMap_cons, List.filterMap_nil, newParticipant,
    List.append_nil]
  refine ⟨?_, h2⟩
  rw [List.nodup_append]
  refine ⟨h1, by simp, ?_⟩
  intro a ha hb
  simp only [List.mem_singleton] at hb
  subst hb
  exact hnew ha

theorem rosterUnique_append_team (roster : List Participant) (teamId by_ : ObjectId)
    (h : rosterUnique roster) (hnew : teamId ∉ registeredTeams roster) :
    rosterUnique (roster ++ [newParticipant none (some teamId) by_ .team]) := by
  obtain ⟨h1, h2⟩ := h
  unfold rosterUnique individualUsers registeredTeams at *
  simp only [List.filterMap_append, List.filterMap_cons, List.filterMap_nil, newParticipant,
    List.append_nil]
  refine ⟨h1, ?_⟩
  rw [List.nodup_append]
  refine ⟨h2, by simp, ?_⟩
  intro a ha hb
  simp only [List.mem_singleton] at hb
  subst hb
  exact hnew ha

/-! ## Lemmas on the combined leaderboard -/

theorem insertByScore_perm (a : LeaderboardEntry) (l : List LeaderboardEntry) :
    (insertByScore a l).Perm (a :: l) := by
  induction l with
  | nil => exact List.Perm.refl _
  | cons b rest ih =>
    simp only [insertByScore]
    split
    · exact List.Perm.refl _
    · exact (List.Perm.cons b ih).trans (List.Perm.swap a b rest)

theorem sortByScore_perm (l : List LeaderboardEntry) : (sortByScore l).Perm l := by
  induction l with
  | nil => exact List.Perm.refl _
  | cons a rest ih =>
    simp only [sortByScore]
    exact (insertByScore_perm a _).trans (List.Perm.cons a ih)

theorem insertByScore_sorted (a : LeaderboardEntry) (l : List LeaderboardEntry)
    (h : l.Pairwise fun x y => scoreKey y ≤ scoreKey x) :
    (insertByScore a l).Pairwise fun x y => scoreKey y ≤ scoreKey x := by
  induction l with
  | nil => simp [insertByScore]
  | cons b rest ih =>
    simp only [insertByScore]
    rw [List.pairwise_cons] at h
    split
    · next hle =>
      rw [List.pairwise_cons]
      refine ⟨?_, List.pairwise_cons.mpr h⟩
      intro y hy
      rcases List.mem_cons.mp hy with rfl | hy
      · exact hle
      · exact le_trans (h.1 y hy) hle
    · next hlt =>
      rw [List.pairwise_cons]
      refine ⟨?_, ih h.2⟩
      intro y hy
      rcases List.mem_cons.mp ((insertByScore_perm a rest).subset hy) with rfl | hy
      · omega
      · exact h.1 y hy

theorem sortByScore_sorted (l : List LeaderboardEntry) :
    (sortByScore l).Pairwise fun x y => scoreKey y ≤ scoreKey x := by
  induction l with
  | nil => simp [sortByScore]
  | cons a rest ih => exact insertByScore_sorted a _ ih

theorem insertByScore_filter (a : LeaderboardEntry) (s : Int) (l : List LeaderboardEntry) :
    (insertByScore a l).filter (fun e => scoreKey e == s) =
      (a :: l).filter (fun e => scoreKey e == s) := by
  induction l with
  | nil => rfl
  | cons b rest ih =>
    simp only [insertByScore]
    split
    · rfl
    · next hlt =>
      by_cases ha : scoreKey a = s
      · have hb : (scoreKey b == s) = false := by
          simp only [beq_eq_false_iff_ne, ne_eq]
          omega
        simp only [List.filter_cons, hb, Bool.false_eq_true, if_false, ih]
      · have ha1 : (scoreKey a == s) = false := by simpa using ha
        simp only [List.filter_cons, ha1, Bool.false_eq_true, if_false] at ih ⊢
        rw [ih]

theorem sortByScore_filter (s : Int) (l : List LeaderboardEntry) :
    (sortByScore l).filter (fun e => scoreKey e == s) = l.filter (fun e => scoreKey e == s) := by
  induction l with
  | nil => rfl
  | cons a rest ih =>
    simp only [sortByScore]
    rw [insertByScore_filter]
    simp only [List.filter_cons, ih]

theorem assignRanks_entries (l : List LeaderboardEntry) :
    ∀ k, (assignRanks k l).map RankedEntry.entry = l := by
  induction l with
  | nil => intro k; rfl
  | cons a rest ih => intro k; simp [assignRanks, ih]

theorem assignRanks_ranks (l : List LeaderboardEntry) :
    ∀ k, (assignRanks k l).map RankedEntry.rank = (List.range l.length).map (fun i => k + i + 1) := by
  induction l with
  | nil => intro k; rfl
  | cons a rest ih =>
    intro k
    simp only [assignRanks, List.map_cons, List.length_cons, List.range_succ_eq_map, ih,
      List.map_map]
    refine congrArg₂ _ (by simp) (List.map_congr_left ?_)
    intro i _
    simp only [Function.comp]
    omega

/-- The reply of `participateInEvent` is the same for two stored events that
differ at most in the `answer` fields of their questions. -/
theorem participateInEvent_reply_congr (db1 db2 : Store) (req : ParticipateRequest)
    (now : Instant) (faults : Faults) (e1 e2 : Event)
    (h1 : findById Event._id db1.events req.eventId = some e1)
    (h2 : findById Event._id db2.events req.eventId = some e2)
    (hsame : sameUpToAnswers e1 e2) :
    (participateInEvent db1 req now faults).1 = (participateInEvent db2 req now faults).1 := by
  obtain ⟨hrest, hq⟩ := hsame
  have htype : e2.type = e1.type := (congrArg Event.type hrest).symm
  have hstart : e2.startDate = e1.startDate := (congrArg Event.startDate hrest).symm
  have hend : e2.endDate = e1.endDate := (congrArg Event.endDate hrest).symm
  have hroster : e2.participants = e1.participants := (congrArg Event.participants hrest).symm
  have hreply : participateReply e2 = participateReply e1 := by
    have hid := congrArg Event._id hrest
    have hname := congrArg Event.name hrest
    have hdesc := congrArg Event.description hrest
    simp only [] at hid hname hdesc
    simp only [participateReply, hq, hid, hname, hdesc, htype, hstart, hend]
  have hreply1 : participateReply (joinedEvent e2 req.userId) =
      participateReply (joinedEvent e1 req.userId) := by
    simpa [participateReply, joinedEvent] using hreply
  unfold participateInEvent participateInEventBody
  simp only [h1, h2, htype, hstart, hend, hroster, hreply, hreply1]
  by_cases ht : e1.type = .online
  · rw [if_neg (not_not.mpr ht), if_neg (not_not.mpr ht)]
    by_cases hw : now < e1.startDate ∨ now > e1.endDate
    · rw [if_pos hw, if_pos hw]
    · rw [if_neg hw, if_neg hw]
      cases jsFind (userMatches req.userId) e1.participants with
      | error e => cases e <;> rfl
      | ok found =>
        cases found with
        | none =>
          simp only []
          cases faults.eventSave <;> simp
        | some ip =>
          simp only []
          cases ip.2.hasCompleted <;> simp
  · rw [if_pos ht, if_pos ht]

/-! ## Lemmas on sorting from high to low -/

theorem insertDescBy_perm {α : Type} (key : α → Int) (a : α) (l : List α) :
    (insertDescBy key a l).Perm (a :: l) := by
  induction l with
  | nil => exact List.Perm.refl _
  | cons b rest ih =>
    simp only [insertDescBy]
    split
    · exact List.Perm.refl _
    · exact (List.Perm.cons b ih).trans (List.Perm.swap a b rest)

theorem sortDescBy_perm {α : Type} (key : α → Int) (l : List α) :
    (sortDescBy key l).Perm l := by
  induction l with
  | nil => exact List.Perm.refl _
  | cons a rest ih =>
    simp only [sortDescBy]
    exact (insertDescBy_perm key a _).trans (List.Perm.cons a ih)

theorem insertDescBy_sorted {α : Type} (key : α → Int) (a : α) (l : List α)
    (h : l.Pairwise fun x y => key y ≤ key x) :
    (insertDescBy key a l).Pairwise fun x y => key y ≤ key x := by
  induction l with
  | nil => simp [insertDescBy]
  | cons b rest ih =>
    simp only [insertDescBy]
    rw [List.pairwise_cons] at h
    split
    · next hle =>
      rw [List.pairwise_cons]
      refine ⟨?_, List.pairwise_cons.mpr h⟩
      intro y hy
      rcases List.mem_cons.mp hy with rfl | hy
      · exact hle
      · exact le_trans (h.1 y hy) hle
    · next hlt =>
      rw [List.pairwise_cons]
      refine ⟨?_, ih h.2⟩
      intro y hy
      rcases List.mem_cons.mp ((insertDescBy_perm key a rest).subset hy) with rfl | hy
      · omega
      · exact h.1 y hy

theorem sortDescBy_sorted {α : Type} (key : α → Int) (l : List α) :
    (sortDescBy key l).Pairwise fun x y => key y ≤ key x := by
  induction l with
  | nil => simp [sortDescBy]
  | cons a rest ih => exact insertDescBy_sorted key a _ ih

/-! ## Lemmas on the team standings -/

theorem recordsOfTeam_append (teams : List Team) (t : ObjectId) (pre : List Participant)
    (p : Participant) :
    recordsOfTeam teams t (pre ++ [p]) =
      recordsOfTeam teams t pre ++ (if teamIdOf teams p == some t then [p] else []) := by
  unfold recordsOfTeam
  rw [List.filter_append]
  by_cases h : (teamIdOf teams p == some t) = true
  · simp [List.filter_cons, h]
  · simp [List.filter_cons, h]

theorem accurateFor_other (teams : List Team) (pre : List Participant) (p : Participant)
    (s : TeamScore) (hne : teamIdOf teams p ≠ some s.teamId) (h : accurateFor teams pre s) :
    accurateFor teams (pre ++ [p]) s := by
  have hb : (teamIdOf teams p == some s.teamId) = false := by simpa using hne
  unfold accurateFor at *
  rw [recordsOfTeam_append]
  simpa [hb] using h

theorem accurateFor_credit (teams : List Team) (pre : List Participant) (p : Participant)
    (s : TeamScore) (heq : teamIdOf teams p = some s.teamId) (h : accurateFor teams pre s) :
    accurateFor teams (pre ++ [p]) (creditRecord s p) := by
  have hb : (teamIdOf teams p == some s.teamId) = true := by simp [heq]
  obtain ⟨h1, h2, h3⟩ := h
  unfold accurateFor
  simp only [creditRecord]
  rw [recordsOfTeam_append]
  simp only [hb, if_true, List.map_append, List.sum_append, List.map_cons, List.map_nil,
    List.sum_cons, List.sum_nil, List.filter_append, List.length_append, List.length_cons,
    List.length_nil]
  refine ⟨by rw [h1]; ring, ?_, by rw [h3]⟩
  cases hp : p.perfectRun with
  | true => simp [List.filter_cons, hp, h2]
  | false => simp [List.filter_cons, hp, h2]

theorem accurateFor_new (teams : List Team) (pre : List Participant) (p : Participant)
    (t : ObjectId) (name : String) (heq : teamIdOf teams p = some t)
    (hnone : t ∉ pre.filterMap (teamIdOf teams)) :
    accurateFor teams (pre ++ [p]) (creditRecord ⟨t, name, 0, 0, 0⟩ p) := by
  apply accurateFor_credit teams pre p ⟨t, name, 0, 0, 0⟩ heq
  have hempty : recordsOfTeam teams t pre = [] := by
    unfold recordsOfTeam
    apply filter_eq_nil_of_false
    intro y hy
    by_contra hc
    apply hnone
    rw [List.mem_filterMap]
    exact ⟨y, hy, by simpa using hc⟩
  unfold accurateFor
  simp [hempty]

/-- The step of lines 515-527 on a table without repeated team: the credited
table has the ids of the earlier one, with the new team at the end when it was
missing, and every entry agrees with the roster extended by the record. -/
theorem creditTeam_spec (teams : List Team) (pre : List Participant) (p : Participant)
    (team : Team) (heq : teamIdOf teams p = some team._id) (scores : List TeamScore) :
    (scores.map TeamScore.teamId).Nodup →
    (∀ s ∈ scores, accurateFor teams pre s) →
    (team._id ∉ scores.map TeamScore.teamId → team._id ∉ pre.filterMap (teamIdOf teams)) →
    (∀ s ∈ creditTeam team p scores, accurateFor teams (pre ++ [p]) s) ∧
    (creditTeam team p scores).map TeamScore.teamId =
      (if team._id ∈ scores.map TeamScore.teamId then scores.map TeamScore.teamId
       else scores.map TeamScore.teamId ++ [team._id]) := by
  induction scores with
  | nil =>
    intro _ _ hmiss
    refine ⟨?_, by simp [creditTeam, creditRecord]⟩
    intro s hs
    simp only [creditTeam, List.mem_singleton] at hs
    subst hs
    exact accurateFor_new teams pre p team._id team.name heq (hmiss (by simp))
  | cons s rest ih =>
    intro hnodup hacc hmiss
    rw [List.map_cons, List.nodup_cons] at hnodup
    by_cases hs : s.teamId = team._id
    · have hb : (s.teamId == team._id) = true := by simp [hs]
      simp only [creditTeam, hb, if_true]
      refine ⟨?_, by simp [creditRecord, hs]⟩
      intro s1 hs1
      rcases List.mem_cons.mp hs1 with rfl | hs1
      · exact accurateFor_credit teams pre p s (by rw [heq, hs]) (hacc s (by simp))
      · apply accurateFor_other teams pre p s1 ?_ (hacc s1 (by simp [hs1]))
        intro hc
        rw [heq] at hc
        apply hnodup.1
        rw [hs, Option.some.inj hc]
        exact List.mem_map_of_mem _ hs1
    · have hb : (s.teamId == team._id) = false := by simpa using hs
      simp only [creditTeam, hb, Bool.false_eq_true, if_false]
      obtain ⟨ih1, ih2⟩ := ih hnodup.2 (fun x hx => hacc x (by simp [hx]))
        (fun hx => hmiss (by
          simp only [List.map_cons, List.mem_cons, not_or]
          exact ⟨fun h => hs h.symm, hx⟩))
      refine ⟨?_, ?_⟩
      · intro s1 hs1
        rcases List.mem_cons.mp hs1 with rfl | hs1
        · apply accurateFor_other teams pre p s1 ?_ (hacc s1 (by simp))
          intro hc
          rw [heq] at hc
          exact hs (Option.some.inj hc).symm
        · exact ih1 s1 hs1
      · simp only [List.map_cons, ih2, List.mem_cons]
        have hne : ¬ team._id = s.teamId := fun h => hs h.symm
        by_cases hin : team._id ∈ rest.map TeamScore.teamId
        · simp [hin]
        · simp [hin, hne]

/-- The table `teamScores` after the loop of lines 513-529 over a roster, started
from a table that agrees with the records seen before. -/
theorem teamScores_fold (teams : List Team) (l : List Participant) :
    ∀ (pre : List Participant) (scores : List TeamScore),
      (scores.map TeamScore.teamId).Nodup →
      (∀ s ∈ scores, accurateFor teams pre s) →
      (∀ t, t ∈ scores.map TeamScore.teamId ↔ t ∈ pre.filterMap (teamIdOf teams)) →
      ((l.foldl (addToTeamScores teams) scores).map TeamScore.teamId).Nodup ∧
      (∀ s ∈ l.foldl (addToTeamScores teams) scores, accurateFor teams (pre ++ l) s) ∧
      (∀ t, t ∈ (l.foldl (addToTeamScores teams) scores).map TeamScore.teamId ↔
        t ∈ (pre ++ l).filterMap (teamIdOf teams)) := by
  induction l with
  | nil =>
    intro pre scores h1 h2 h3
    simp only [List.foldl_nil, List.append_nil]
    exact ⟨h1, h2, h3⟩
  | cons p rest ih =>
    intro pre scores h1 h2 h3
    have happ : pre ++ p :: rest = (pre ++ [p]) ++ rest := by simp
    rw [List.foldl_cons, happ]
    apply ih (pre ++ [p]) (addToTeamScores teams scores p)
    · unfold addToTeamScores
      cases hpop : populateRef Team._id teams p.team with
      | none => exact h1
      | some team =>
        have heq : teamIdOf teams p = some team._id := by simp [teamIdOf, hpop]
        have hspec := creditTeam_spec teams pre p team heq scores h1 h2
          (fun hx hc => hx ((h3 _).mpr hc))
        simp only []
        rw [hspec.2]
        by_cases hin : team._id ∈ scores.map TeamScore.teamId
        · simpa [hin] using h1
        · rw [if_neg hin, List.nodup_append]
          refine ⟨h1, by simp, ?_⟩
          intro a ha hb
          simp only [List.mem_singleton] at hb
          subst hb
          exact hin ha
    · unfold addToTeamScores
      cases hpop : populateRef Team._id teams p.team with
      | none =>
        have hnone : teamIdOf teams p = none := by simp [teamIdOf, hpop]
        intro s hs
        exact accurateFor_other teams pre p s (by rw [hnone]; simp) (h2 s hs)
      | some team =>
        have heq : teamIdOf teams p = some team._id := by simp [teamIdOf, hpop]
        exact (creditTeam_spec teams pre p team heq scores h1 h2
          (fun hx hc => hx ((h3 _).mpr hc))).1
    · intro t
      unfold addToTeamScores
      cases hpop : populateRef Team._id teams p.team with
      | none =>
        have hnone : teamIdOf teams p = none := by simp [teamIdOf, hpop]
        simp only [List.filterMap_append, List.filterMap_cons, hnone, List.filterMap_nil,
          List.append_nil]
        exact h3 t
      | some team =>
        have heq : teamIdOf teams p = some team._id := by simp [teamIdOf, hpop]
        have hspec := creditTeam_spec teams pre p team heq scores h1 h2
          (fun hx hc => hx ((h3 _).mpr hc))
        simp only []
        rw [hspec.2]
        simp only [List.filterMap_append, List.filterMap_cons, heq, List.filterMap_nil,
          List.mem_append, List.mem_singleton]
        by_cases hin : team._id ∈ scores.map TeamScore.teamId
        · rw [if_pos hin, h3 t]
          constructor
          · exact Or.inl
          · rintro (h | h)
            · exact h
            · rw [h]
              exact (h3 _).mp hin
        · rw [if_neg hin, List.mem_append, List.mem_singleton, h3 t]

theorem rankStandings_teamIds (l : List TeamScore) :
    ∀ k, (rankStandings k l).map TeamStanding.teamId = l.map TeamScore.teamId := by
  induction l with
  | nil => intro k; rfl
  | cons a rest ih => intro k; simp [rankStandings, ih]

theorem rankStandings_totals (l : List TeamScore) :
    ∀ k, (rankStandings k l).map TeamStanding.totalScore = l.map TeamScore.totalScore := by
  induction l with
  | nil => intro k; rfl
  | cons a rest ih => intro k; simp [rankStandings, ih]

theorem rankStandings_ranks (l : List TeamScore) :
    ∀ k, (rankStandings k l).map TeamStanding.rank =
      (List.range l.length).map (fun i => k + i + 1) := by
  induction l with
  | nil => intro k; rfl
  | cons a rest ih =>
    intro k
    simp only [rankStandings, List.map_cons, List.length_cons, List.range_succ_eq_map, ih,
      List.map_map]
    refine congrArg₂ _ (by simp) (List.map_congr_left ?_)
    intro i _
    simp only [Function.comp]
    omega

theorem rankStandings_mem (l : List TeamScore) :
    ∀ k (st : TeamStanding), st ∈ rankStandings k l →
      ∃ s ∈ l, st.teamId = s.teamId ∧ st.totalScore = s.totalScore ∧
        st.perfectRuns = s.perfectRuns ∧ st.participantCount = s.participantCount ∧
        st.averageScore = (s.totalScore : Rat) / (s.participantCount : Rat) := by
  induction l with
  | nil => intro k st h; simp [rankStandings] at h
  | cons a rest ih =>
    intro k st h
    simp only [rankStandings, List.mem_cons] at h
    rcases h with rfl | h
    · exact ⟨a, by simp, rfl, rfl, rfl, rfl, rfl⟩
    · obtain ⟨s, hs, hrest⟩ := ih _ st h
      exact ⟨s, by simp [hs], hrest⟩

theorem pairwise_of_map_eq {α β : Type} (f : α → Int) (g : β → Int) (l1 : List α)
    (l2 : List β) (h : l1.map f = l2.map g) (hs : l2.Pairwise fun x y => g y ≤ g x) :
    l1.Pairwise fun x y => f y ≤ f x := by
  have h2 : (l2.map g).Pairwise (fun x y => y ≤ x) := by
    rw [List.pairwise_map]
    exact hs
  rw [← h, List.pairwise_map] at h2
  exact h2

/-- The standings of a stored event: the reply with its entries characterised
against the roster. -/
theorem teamStandings_spec (teams : List Team) (event : Event) :
    ((teamStandings teams event).map TeamStanding.teamId).Nodup ∧
    (∀ t, t ∈ (teamStandings teams event).map TeamStanding.teamId ↔
      t ∈ event.participants.filterMap (teamIdOf teams)) ∧
    (∀ st ∈ teamStandings teams event,
      accurateFor teams event.participants
        ⟨st.teamId, st.teamName, st.totalScore, st.perfectRuns, st.participantCount⟩ ∧
      1 ≤ st.participantCount ∧
      st.averageScore = (st.totalScore : Rat) / (st.participantCount : Rat)) ∧
    (teamStandings teams event).Pairwise (fun a b => b.totalScore ≤ a.totalScore) ∧
    (teamStandings teams event).map TeamStanding.rank =
      (List.range (teamStandings teams event).length).map (fun i => i + 1) := by
  obtain ⟨h1, h2, h3⟩ := teamScores_fold teams event.participants [] [] (by simp)
    (by simp) (by simp)
  simp only [List.nil_append] at h2 h3
  have hperm := sortDescBy_perm TeamScore.totalScore
    (event.participants.foldl (addToTeamScores teams) [])
  unfold teamStandings
  refine ⟨?_, ?_, ?_, ?_, ?_⟩
  · rw [rankStandings_teamIds]
    exact (hperm.map _).nodup_iff.mpr h1
  · intro t
    rw [rankStandings_teamIds, (hperm.map _).mem_iff]
    exact h3 t
  · intro st hst
    obtain ⟨s, hs, hid, htot, hperf, hcount, havg⟩ := rankStandings_mem _ _ _ hst
    have hs1 := hperm.subset hs
    have hacc := h2 s hs1
    have hmem : s.teamId ∈ event.participants.filterMap (teamIdOf teams) :=
      (h3 _).mp (List.mem_map_of_mem _ hs1)
    refine ⟨?_, ?_, ?_⟩
    · unfold accurateFor at hacc ⊢
      simp only [hid, htot, hperf, hcount]
      exact hacc
    · rw [hcount, hacc.2.2]
      rw [List.mem_filterMap] at hmem
      obtain ⟨p, hp, hpt⟩ := hmem
      have : p ∈ recordsOfTeam teams s.teamId event.participants := by
        unfold recordsOfTeam
        rw [List.mem_filter]
        exact ⟨hp, by simp [hpt]⟩
      exact List.length_pos_of_mem this
    · rw [havg, htot, hcount]
  · exact pairwise_of_map_eq _ _ _ _ (rankStandings_totals _ 0) (sortDescBy_sorted _ _)
  · rw [rankStandings_ranks]
    simp [← List.length_map (rankStandings 0 _) TeamStanding.rank, rankStandings_ranks]

theorem rankStandings_increasing (l : List TeamScore) :
    ∀ k, (∀ st ∈ rankStandings k l, k + 1 ≤ st.rank) ∧
      (rankStandings k l).Pairwise (fun a b => a.rank < b.rank) := by
  induction l with
  | nil => intro k; simp [rankStandings]
  | cons a rest ih =>
    intro k
    obtain ⟨h1, h2⟩ := ih (k + 1)
    simp only [rankStandings, List.mem_cons, List.pairwise_cons]
    refine ⟨?_, ?_, h2⟩
    · rintro st (rfl | hst)
      · exact le_refl _
      · have := h1 st hst
        omega
    · intro st hst
      have := h1 st hst
      omega

theorem teamStandings_increasing (teams : List Team) (event : Event) :
    (teamStandings teams event).Pairwise (fun a b => a.rank < b.rank) :=
  (rankStandings_increasing _ 0).2

/-! ## Lemmas on `createEvent` -/

/-- The outcomes of `createEvent`: an error that writes nothing, or the insertion
of the new event after every check is passed. -/
theorem createEvent_cases (db : Store) (req : CreateEventRequest) (now : Instant)
    (ids : FreshIds) (faults : Faults) :
    (∃ status error, createEvent db req now ids faults = (.error status error, db)) ∨
    (∃ startDate endDate start end_ type,
      req.startDate = some startDate ∧ req.endDate = some endDate ∧
      startDate.cast = some start ∧ endDate.cast = some end_ ∧
      dateGe startDate.parsed endDate.parsed = false ∧
      dateLt startDate.parsed (some now) = false ∧
      eventTypeOf req.type = some type ∧
      (req.type = "online" →
        req.questions.getD [] ≠ [] ∧ checkQuestions (req.questions.getD []) = .ok ()) ∧
      createEvent db req now ids faults =
        (.json (createdEvent req ids start end_ type),
         { db with events := db.events ++ [createdEvent req ids start end_ type] })) := by
  unfold createEvent createEventBody
  cases hs : req.startDate with
  | none => exact Or.inl ⟨_, _, rfl⟩
  | some startDate =>
    cases he : req.endDate with
    | none => exact Or.inl ⟨_, _, rfl⟩
    | some endDate =>
      simp only []
      by_cases h1 : (req.name == "" || req.type == "" || req.description == "") = true
      · rw [if_pos h1]
        exact Or.inl ⟨_, _, rfl⟩
      · rw [if_neg h1]
        by_cases h2 : dateGe startDate.parsed endDate.parsed = true
        · rw [if_pos h2]
          exact Or.inl ⟨_, _, rfl⟩
        · rw [if_neg h2]
          by_cases h3 : dateLt startDate.parsed (some now) = true
          · rw [if_pos h3]
            exact Or.inl ⟨_, _, rfl⟩
          · rw [if_neg h3]
            cases hq : (if (req.type == "online") = true then
                (if ((req.questions.getD []).length == 0) = true then
                  (Except.error (Abrupt.reply 400 "Online events require questions") :
                    Except Abrupt Unit)
                 else checkQuestions (req.questions.getD []))
                else Except.ok ()) with
            | error e => cases e <;> exact Or.inl ⟨_, _, rfl⟩
            | ok u =>
              simp only []
              by_cases h4 : (req.type == "offline" && req.location == "") = true
              · rw [if_pos h4]
                exact Or.inl ⟨_, _, rfl⟩
              · rw [if_neg h4]
                by_cases h5 : (req.type == "offline" && req.maxParticipants.getD 0 == 0) = true
                · rw [if_pos h5]
                  exact Or.inl ⟨_, _, rfl⟩
                · rw [if_neg h5]
                  cases htype : eventTypeOf req.type with
                  | none => exact Or.inl ⟨_, _, rfl⟩
                  | some type =>
                    cases hsc : startDate.cast with
                    | none => exact Or.inl ⟨_, _, rfl⟩
                    | some start =>
                      cases hec : endDate.cast with
                      | none => exact Or.inl ⟨_, _, rfl⟩
                      | some end_ =>
                        simp only []
                        cases hf : faults.eventSave with
                        | true => exact Or.inl ⟨400, "event.save failed", by simp⟩
                        | false =>
                          refine Or.inr ⟨startDate, endDate, start, end_, type, rfl, rfl, hsc, hec,
                            by simpa using h2, by simpa using h3, rfl, ?_, by simp [createdEvent]⟩
                          intro honline
                          simp only [honline, beq_self_eq_true, if_true] at hq
                          split at hq
                          · cases hq
                          · next hlen =>
                            refine ⟨?_, hq⟩
                            intro hnil
                            apply hlen
                            simp [hnil]

theorem checkQuestions_ok (qs : List QuestionInput) (h : checkQuestions qs = .ok ()) :
    ∀ q ∈ qs, q.question ≠ "" ∧ q.answer ≠ "" ∧ q.options.length ≠ 0 ∧
      q.options.includes q.answer = true := by
  induction qs with
  | nil => simp
  | cons a rest ih =>
    simp only [checkQuestions] at h
    split at h
    · cases h
    · next h1 =>
      split at h
      · cases h
      · next h2 =>
        intro q hq
        rcases List.mem_cons.mp hq with rfl | hq
        · simp only [Bool.or_eq_true, beq_iff_eq, not_or] at h1
          exact ⟨h1.1.1, h1.1.2, h1.2, by simpa using h2⟩
        · exact ih h q hq

theorem storedQuestions_mem (ids : FreshIds) (qs : List QuestionInput) :
    ∀ k (q1 : Question), q1 ∈ storedQuestions ids k qs →
      ∃ q ∈ qs, q1.question = q.question ∧ q1.answer = q.answer ∧
        q1.options = q.options.stored ∧ q1.points = 10 := by
  induction qs with
  | nil => intro k q1 h; simp [storedQuestions] at h
  | cons a rest ih =>
    intro k q1 h
    simp only [storedQuestions, List.mem_cons] at h
    rcases h with rfl | h
    · exact ⟨a, by simp, rfl, rfl, rfl, rfl⟩
    · obtain ⟨q, hq, hrest⟩ := ih _ q1 h
      exact ⟨q, by simp [hq], hrest⟩

/-- Options that are not empty are stored as a list that is not empty. -/
theorem OptionsInput.stored_ne_nil (o : OptionsInput) (h : o.length ≠ 0) : o.stored ≠ [] := by
  cases o with
  | absent => exact absurd rfl h
  | list l =>
    intro hnil
    apply h
    simp only [OptionsInput.stored] at hnil
    simp [OptionsInput.length, hnil]
  | text t => simp [OptionsInput.stored]

theorem eventTypeOf_online (type : String) (h : eventTypeOf type = some .online) :
    type = "online" := by
  unfold eventTypeOf at h
  split at h
  · next h1 => simpa using h1
  · split at h
    · cases h
    · cases h

theorem createEvent_error_of_not_json (db : Store) (req : CreateEventRequest) (now : Instant)
    (ids : FreshIds) (faults : Faults)
    (h : ∀ event db1, createEvent db req now ids faults ≠ (.json event, db1)) :
    ∃ status error, createEvent db req now ids faults = (.error status error, db) := by
  rcases createEvent_cases db req now ids faults with
    herr | ⟨sd, ed, s, e, t, -, -, -, -, -, -, -, -, hok⟩
  · exact herr
  · exact absurd hok (h _ _)

/-! ## Lemmas on the seat counts -/

theorem computedParticipants_append (teams : List Team) (event : Event) (p : Participant)
    (n : Nat) :
    computedParticipants teams (subscribedEvent event p n) =
      computedParticipants teams event +
        (match populateRef Team._id teams p.team with
          | some _ => jsOr event.teamSize 1
          | none => 1) := by
  simp [computedParticipants, subscribedEvent, List.foldl_append]

/-- A `subscribeToEvent` call keeps the agreement of the stored counter of an
event with the count that `getEvents` derives from its roster. -/
theorem subscribeToEvent_seat_invariant (db : Store) (req : SubscribeRequest) (faults : Faults)
    (eventId : ObjectId) (e : Event) (h : findById Event._id db.events eventId = some e)
    (hsize : 0 < e.teamSize)
    (hinv : e.currentParticipants = computedParticipants db.teams e) :
    ∃ e1, findById Event._id (subscribeToEvent db req faults).2.events eventId = some e1 ∧
      e1.teamSize = e.teamSize ∧
      e1.currentParticipants = computedParticipants (subscribeToEvent db req faults).2.teams e1 := by
  rcases subscribeToEvent_cases db req faults with
    ⟨status, error, he⟩ | ⟨event, pd, n, hevent, -, -, hdata, -, -, hs⟩
  · rw [he]
    exact ⟨e, h, rfl, hinv⟩
  · rw [hs]
    have hid : event._id = req.eventId := findById_key _ _ _ _ hevent
    by_cases hsame : eventId = req.eventId
    · subst hsame
      rw [h] at hevent
      cases hevent
      have hfound := findById_saveDoc_self Event._id (subscribedEvent e pd n) db.events e
        (by simpa [subscribedEvent, hid] using h)
      refine ⟨subscribedEvent e pd n, by simpa [subscribedEvent, hid] using hfound, rfl, ?_⟩
      rw [computedParticipants_append]
      simp only [startTransaction] at hdata
      rcases registrationData_ok _ _ _ _ _ hdata with
        ⟨-, teamId, team, -, hteam, -, hpd, hn⟩ | ⟨-, hpd, hn⟩
      · have hne : e.teamSize ≠ 0 := by omega
        have hpop : populateRef Team._id db.teams pd.team = some team := by
          rw [hpd]
          simpa [populateRef, newParticipant] using hteam
        rw [hpop, hn]
        simp [subscribedEvent, hinv, seatsRequested, jsOr, hne]
      · have hpop : populateRef Team._id db.teams pd.team = none := by
          rw [hpd]
          simp [populateRef, newParticipant]
        rw [hpop, hn]
        simp [subscribedEvent, hinv, seatsRequested]
    · have := findById_saveDoc_other Event._id (subscribedEvent event pd n) db.events eventId
        (by simpa [subscribedEvent, hid] using hsame)
      exact ⟨e, by simpa [this] using h, rfl, hinv⟩

theorem subscribeAll_seat_invariant (calls : List (SubscribeRequest × Faults)) :
    ∀ (db : Store) (eventId : ObjectId) (e : Event),
      findById Event._id db.events eventId = some e →
      0 < e.teamSize →
      e.currentParticipants = computedParticipants db.teams e →
      ∃ e1, findById Event._id (subscribeAll db calls).events eventId = some e1 ∧
        e1.teamSize = e.teamSize ∧
        e1.currentParticipants = computedParticipants (subscribeAll db calls).teams e1 := by
  induction calls with
  | nil =>
    intro db eventId e h _ hinv
    exact ⟨e, h, rfl, hinv⟩
  | cons call rest ih =>
    intro db eventId e h hsize hinv
    obtain ⟨e1, h1, hs1, hinv1⟩ :=
      subscribeToEvent_seat_invariant db call.1 call.2 eventId e h hsize hinv
    obtain ⟨e2, h2, hs2, hinv2⟩ := ih _ eventId e1 h1 (by rw [hs1]; exact hsize) hinv1
    exact ⟨e2, h2, hs2.trans hs1, hinv2⟩

theorem foldl_add_eq_sum {α : Type} (f : α → Nat) (l : List α) :
    ∀ init, l.foldl (fun total x => total + f x) init = init + (l.map f).sum := by
  induction l with
  | nil => intro init; simp
  | cons a rest ih =>
    intro init
    simp only [List.foldl_cons, ih, List.map_cons, List.sum_cons]
    omega

theorem computedParticipants_eq_sum (teams : List Team) (event : Event)
    (hsize : 0 < event.teamSize) :
    computedParticipants teams event =
      (event.participants.map fun p =>
        if (populateRef Team._id teams p.team).isSome then event.teamSize else 1).sum := by
  have hne : event.teamSize ≠ 0 := by omega
  unfold computedParticipants
  rw [foldl_add_eq_sum, Nat.zero_add]
  congr 1
  apply List.map_congr_left
  intro p _
  cases populateRef Team._id teams p.team with
  | none => simp
  | some t => simp [jsOr, hne]

/-! ## Lemmas on the event leaderboard -/

/-- On a roster whose records all have a stored user, the rows of the
leaderboard are those of the records, one by one. -/
theorem leaderboardRows_ok (users : List User) (l : List Participant)
    (hall : ∀ p ∈ l, ∃ user, populateRef User._id users p.user = some user) :
    ∃ rows, leaderboardRows users l = .ok rows ∧
      List.Forall₂
        (fun (row : LeaderboardRow) (p : Participant) =>
          row.score = p.score ∧ row.perfectRun = p.perfectRun ∧
          row.completedAt = p.answers.getLast?.map AnswerRecord.submittedAt ∧
          ∃ user, populateRef User._id users p.user = some user ∧
            row.username = user.username)
        rows l := by
  induction l with
  | nil => exact ⟨[], rfl, List.Forall₂.nil⟩
  | cons p rest ih =>
    obtain ⟨rows, hrows, hrel⟩ := ih (fun q hq => hall q (by simp [hq]))
    obtain ⟨user, huser⟩ := hall p (by simp)
    cases hu : p.user with
    | none => simp [populateRef, hu] at huser
    | some userId =>
      have hfind : findById User._id users userId = some user := by
        simpa [populateRef, hu] using huser
      refine ⟨⟨user.username, p.score, p.perfectRun,
          p.answers.getLast?.map AnswerRecord.submittedAt⟩ :: rows, ?_,
        List.Forall₂.cons ⟨rfl, rfl, rfl, user, huser, rfl⟩ hrel⟩
      simp [leaderboardRows, leaderboardRow, hu, hfind, hrows]

/-- The event leaderboard of an event whose records all have a stored user: one
row per record, in the order of the roster sorted by score from high to low. -/
theorem getEventLeaderboard_user_records (db : Store) (eventId : ObjectId) (event : Event)
    (hevent : findById Event._id db.events eventId = some event)
    (hall : ∀ p ∈ event.participants, ∃ user, populateRef User._id db.users p.user = some user) :
    ∃ r sorted, getEventLeaderboard db eventId = .json r ∧
      sorted.Perm event.participants ∧
      sorted.Pairwise (fun a b => b.score ≤ a.score) ∧
      List.Forall₂
        (fun (row : LeaderboardRow) (p : Participant) =>
          row.score = p.score ∧ row.perfectRun = p.perfectRun ∧
          row.completedAt = p.answers.getLast?.map AnswerRecord.submittedAt ∧
          ∃ user, populateRef User._id db.users p.user = some user ∧
            row.username = user.username)
        r.leaderboard sorted := by
  have hperm := sortDescBy_perm Participant.score event.participants
  obtain ⟨rows, hrows, hrel⟩ := leaderboardRows_ok db.users
    (sortDescBy Participant.score event.participants)
    (fun p hp => hall p (hperm.subset hp))
  refine ⟨⟨event.name, rows⟩, _, ?_, hperm, sortDescBy_sorted _ _, hrel⟩
  unfold getEventLeaderboard
  simp only [hevent, hrows]

/-- Whenever `getEventById` sends the event, a role other than admin gets every
question with its id, text, options and points and without `answer`, and an
admin gets every question with its recorded answer. -/
theorem getEventById_questions_of_json (db : Store) (eventId : ObjectId) (role : Role)
    (event : Event) (view : EventView)
    (hevent : findById Event._id db.events eventId = some event)
    (hview : getEventById db eventId role = .json view) :
    (role ≠ .admin → view.questions = event.questions.map
      (fun q => ⟨q._id, q.question, q.options, none, q.points⟩)) ∧
    (role = .admin → view.questions = event.questions.map
      (fun q => ⟨q._id, q.question, q.options, some q.answer, q.points⟩)) := by
  unfold getEventById at hview
  simp only [hevent] at hview
  by_cases hthrow : serialisationThrows db event = true
  · rw [if_pos hthrow] at hview
    cases hview
  · rw [if_neg hthrow] at hview
    injection hview with hview
    subst hview
    refine ⟨?_, ?_⟩
    · intro hrole
      simp only [hrole, ne_eq, not_false_eq_true, if_true]
      rfl
    · intro hrole
      simp only [hrole, ne_eq, not_true_eq_false, if_false]
      rfl

/-- With no stored team on the roster, `getEventById` sends the event. -/
theorem getEventById_json_of_no_team (db : Store) (eventId : ObjectId) (role : Role)
    (event : Event) (hevent : findById Event._id db.events eventId = some event)
    (hteam : serialisationThrows db event = false) :
    ∃ view, getEventById db eventId role = .json view := by
  unfold getEventById
  simp only [hevent, hteam]
  exact ⟨_, rfl⟩

/-- The dates of an event that `createEvent` creates are the instants that
mongoose casts the request values to, and the dates that `new Date` reads from
those values, when both are valid, are in order and not before the instant of
the request; a request whose values `new Date` reads as a start not strictly
before the end, or before the current instant, is rejected and creates
nothing. -/
theorem createEvent_parsed_dates :
    (∀ (db db1 : Store) (req : CreateEventRequest) (now : Instant) (ids : FreshIds)
        (faults : Faults) (event : Event),
      createEvent db req now ids faults = (.json event, db1) →
      ∃ startDate endDate, req.startDate = some startDate ∧ req.endDate = some endDate ∧
        startDate.cast = some event.startDate ∧ endDate.cast = some event.endDate ∧
        ∀ start end_, startDate.parsed = some start → endDate.parsed = some end_ →
          start < end_ ∧ now ≤ start) ∧
    (∀ (db : Store) (req : CreateEventRequest) (now : Instant) (ids : FreshIds)
        (faults : Faults) (startDate endDate : DateInput) (start end_ : Instant),
      req.startDate = some startDate → req.endDate = some endDate →
      startDate.parsed = some start → endDate.parsed = some end_ →
      (¬ start < end_ ∨ start < now) →
      ∃ status error, createEvent db req now ids faults = (.error status error, db)) := by
  constructor
  · intro db db1 req now ids faults event h
    rcases createEvent_cases db req now ids faults with
      ⟨st, msg, herr⟩ | ⟨sd, ed, s, e, t, hs, he, hsc, hec, hge, hlt, -, -, hok⟩
    · rw [herr] at h
      cases h
    · rw [hok] at h
      simp only [Prod.mk.injEq, Reply.json.injEq] at h
      rw [← h.1]
      refine ⟨sd, ed, hs, he, hsc, hec, ?_⟩
      intro start end_ hps hpe
      rw [hps, hpe] at hge
      rw [hps] at hlt
      simp only [dateGe, dateLt, decide_eq_false_iff_not] at hge hlt
      exact ⟨lt_of_not_ge hge, le_of_not_lt hlt⟩
  · intro db req now ids faults startDate endDate start end_ hs he hps hpe hbad
    apply createEvent_error_of_not_json
    intro event db1 h
    rcases createEvent_cases db req now ids faults with
      ⟨st, msg, herr⟩ | ⟨sd, ed, s, e, t, hs1, he1, -, -, hge, hlt, -, -, -⟩
    · rw [herr] at h
      cases h
    · rw [hs] at hs1
      rw [he] at he1
      cases hs1
      cases he1
      rw [hps, hpe] at hge
      rw [hps] at hlt
      simp only [dateGe, dateLt, decide_eq_false_iff_not] at hge hlt
      rcases hbad with hbad | hbad
      · exact hbad (lt_of_not_ge hge)
      · exact hlt hbad

/-- Every question of an online event that `createEvent` creates has 10 points,
whatever points the request supplied, and its answer is among its options when
the request gave the options as an array; an online request that holds a
question whose options are an array without its answer is rejected and creates
nothing. -/
theorem createEvent_questions_of_arrays :
    (∀ (db db1 : Store) (req : CreateEventRequest) (now : Instant) (ids : FreshIds)
        (faults : Faults) (event : Event),
      createEvent db req now ids faults = (.json event, db1) →
      event.type = .online →
      (∀ q ∈ event.questions, q.points = 10) ∧
      ((∀ q ∈ req.questions.getD [], ∃ l, q.options = .list l) →
        ∀ q ∈ event.questions, q.answer ∈ q.options)) ∧
    (∀ (db : Store) (req : CreateEventRequest) (now : Instant) (ids : FreshIds)
        (faults : Faults) (qs : List QuestionInput) (q : QuestionInput) (l : List String),
      req.type = "online" → req.questions = some qs → q ∈ qs →
      q.options = .list l → q.answer ∉ l →
      ∃ status error, createEvent db req now ids faults = (.error status error, db)) := by
  constructor
  · intro db db1 req now ids faults event h honline
    rcases createEvent_cases db req now ids faults with
      ⟨st, msg, herr⟩ | ⟨sd, ed, s, e, t, -, -, -, -, -, -, htype, hcheck, hok⟩
    · rw [herr] at h
      cases h
    · rw [hok] at h
      simp only [Prod.mk.injEq, Reply.json.injEq] at h
      rw [← h.1] at honline
      rw [← h.1]
      have ht : t = .online := honline
      rw [ht] at htype
      have hreq : req.type = "online" := eventTypeOf_online _ htype
      refine ⟨?_, ?_⟩
      · intro q hq
        simp only [createdEvent, hreq, beq_self_eq_true, if_true] at hq
        obtain ⟨q0, -, -, -, -, hpts⟩ := storedQuestions_mem _ _ _ _ hq
        exact hpts
      · intro harr q hq
        simp only [createdEvent, hreq, beq_self_eq_true, if_true] at hq
        obtain ⟨q0, hq0, -, hans, hopt, -⟩ := storedQuestions_mem _ _ _ _ hq
        have hc := checkQuestions_ok _ (hcheck hreq).2 q0 hq0
        obtain ⟨l, hl⟩ := harr q0 hq0
        rw [hans, hopt, hl]
        have := hc.2.2.2
        rw [hl] at this
        simpa [OptionsInput.includes, OptionsInput.stored] using this
  · intro db req now ids faults qs q l htype hqs hq hl hbad
    apply createEvent_error_of_not_json
    intro event db1 h
    rcases createEvent_cases db req now ids faults with
      ⟨st, msg, herr⟩ | ⟨sd, ed, s, e, t, -, -, -, -, -, -, -, hcheck, -⟩
    · rw [herr] at h
      cases h
    · have := (checkQuestions_ok _ (hcheck htype).2 q (by simpa [hqs] using hq)).2.2.2
      rw [hl] at this
      exact hbad (by simpa [OptionsInput.includes] using this)

/-! ## Registrations that spell the team as it is stored -/

/-- After a successful individual `subscribeToEvent` by a stored user, and after
any further `subscribeToEvent` calls, every request of that user for the same
event fails with the already-registered error; after a successful team
`subscribeToEvent` that spells the identifier of the team as it is stored, and
after any further calls, every team request with the same string for that event
fails, with the already-registered error when the requester holds an
individual record and with the team-already-registered error otherwise; the
failed call leaves the store unchanged. -/
theorem subscribeToEvent_no_double_booking_same_spelling :
    (∀ (db db1 : Store) (req : SubscribeRequest) (faults : Faults) (r : SubscribeResult)
        (user : User) (calls : List (SubscribeRequest × Faults)) (req2 : SubscribeRequest)
        (faults2 : Faults),
      subscribeToEvent db req faults = (.json r, db1) →
      isTeamRequest req = false →
      findById User._id db.users req.userId = some user →
      req2.eventId = req.eventId → req2.userId = req.userId →
      subscribeToEvent (subscribeAll db1 calls) req2 faults2 =
        (.error 400 "You are already registered for this event", subscribeAll db1 calls)) ∧
    (∀ (db db1 : Store) (req : SubscribeRequest) (faults : Faults) (r : SubscribeResult)
        (calls : List (SubscribeRequest × Faults)) (req2 : SubscribeRequest) (faults2 : Faults),
      subscribeToEvent db req faults = (.json r, db1) →
      isTeamRequest req = true →
      castObjectId req.teamId = some req.teamId →
      req2.eventId = req.eventId → req2.type = "team" → req2.teamId = req.teamId →
      ∃ event2,
        findById Event._id (subscribeAll db1 calls).events req.eventId = some event2 ∧
        subscribeToEvent (subscribeAll db1 calls) req2 faults2 =
          (.error 400
            (if isUserRegistered (subscribeAll db1 calls).users event2 req2.userId
             then "You are already registered for this event"
             else "Your team is already registered for this event"),
           subscribeAll db1 calls)) := by
  constructor
  · intro db db1 req faults r user calls req2 faults2 h hkind hstored heid huid
    obtain ⟨event, pd, n, -, hoffline, -, hdata, -, hfound, husers, -⟩ :=
      subscribeToEvent_ok_post db db1 req faults r h
    obtain ⟨e2, hfound2, htype2, ⟨extra, hroster⟩, husers2, -⟩ :=
      subscribeAll_step calls db1 req.eventId _ hfound
    have hpd : pd = newParticipant (some req.userId) none req.userId .individual := by
      rcases registrationData_ok _ _ _ _ _ hdata with ⟨hteam, -⟩ | ⟨-, hpd, -⟩
      · rw [hkind] at hteam
        cases hteam
      · exact hpd
    have hmem : pd ∈ e2.participants := by
      rw [hroster]
      simp [subscribedEvent]
    apply subscribeToEvent_registered _ _ _ e2 (by rw [heid]; exact hfound2)
      (by rw [htype2]; exact hoffline)
    rw [huid, husers2, husers]
    exact isUserRegistered_of_mem db.users e2 req.userId user pd hmem (by rw [hpd]; rfl)
      (by rw [hpd]; rfl) hstored
  · intro db db1 req faults r calls req2 faults2 h hkind hcanon heid htype hteamId
    obtain ⟨event, pd, n, -, hoffline, -, hdata, -, hfound, -, hteams⟩ :=
      subscribeToEvent_ok_post db db1 req faults r h
    obtain ⟨e2, hfound2, htype2, ⟨extra, hroster⟩, -, hteams2⟩ :=
      subscribeAll_step calls db1 req.eventId _ hfound
    obtain ⟨team, hteam, hpd, hne⟩ :
        ∃ team, findById Team._id db.teams req.teamId = some team ∧
          pd = newParticipant none (some req.teamId) req.userId .team ∧ req.teamId ≠ "" := by
      rcases registrationData_ok _ _ _ _ _ hdata with
        ⟨hreq, teamId, team, hcast, hteam, -, hpd, -⟩ | ⟨hno, -⟩
      · rw [hcanon] at hcast
        cases hcast
        refine ⟨team, hteam, hpd, ?_⟩
        simp only [isTeamRequest, Bool.and_eq_true, bne_iff_ne, ne_eq] at hreq
        exact hreq.2
      · rw [hkind] at hno
        cases hno
    have hmem : pd ∈ e2.participants := by
      rw [hroster]
      simp [subscribedEvent]
    have hevent2 : findById Event._id (subscribeAll db1 calls).events req2.eventId = some e2 := by
      rw [heid]; exact hfound2
    have hoff2 : e2.type = .offline := by rw [htype2]; exact hoffline
    have hteam2 : findById Team._id (subscribeAll db1 calls).teams req.teamId = some team := by
      rw [hteams2, hteams]; exact hteam
    refine ⟨e2, hfound2, ?_⟩
    cases hreg : isUserRegistered (subscribeAll db1 calls).users e2 req2.userId with
    | true => exact subscribeToEvent_registered _ _ _ e2 hevent2 hoff2 hreg
    | false =>
      refine subscribeToEvent_team_registered _ _ _ e2 req.teamId team hevent2 hoff2 hreg ?_
        (by rw [hteamId]; exact hcanon) hteam2 ?_
      · simp [isTeamRequest, htype, hteamId, hne]
      · rw [hteamId]
        exact isTeamRegistered_of_mem _ e2 req.teamId team pd hmem (by rw [hpd]; rfl)
          (by rw [hteams2, hteams]; exact hteam)

/-- When the roster of an event holds no two individual records with the same
user and no two team records with the same team, the roster of the stored event
still does after any `participateInEvent` call, and after any
`subscribeToEvent` call by a stored user that, when it names a team, spells the
identifier of the team as it is stored. -/
theorem roster_uniqueness_same_spelling :
    (∀ (db : Store) (req : SubscribeRequest) (faults : Faults) (event : Event) (user : User),
      findById Event._id db.events req.eventId = some event →
      findById User._id db.users req.userId = some user →
      (isTeamRequest req = true → castObjectId req.teamId = some req.teamId) →
      rosterUnique event.participants →
      ∃ event1,
        findById Event._id (subscribeToEvent db req faults).2.events req.eventId = some event1 ∧
        rosterUnique event1.participants) ∧
    (∀ (db : Store) (req : ParticipateRequest) (now : Instant) (faults : Faults) (event : Event),
      findById Event._id db.events req.eventId = some event →
      rosterUnique event.participants →
      ∃ event1,
        findById Event._id (participateInEvent db req now faults).2.events req.eventId =
          some event1 ∧
        rosterUnique event1.participants) := by
  constructor
  · intro db req faults event user hevent hstored hcanon huniq
    rcases subscribeToEvent_cases db req faults with
      ⟨status, error, he⟩ | ⟨e, pd, n, he, -, hnotreg, hdata, -, -, hs⟩
    · rw [he]
      exact ⟨event, hevent, huniq⟩
    · rw [hevent] at he
      cases he
      have hid : event._id = req.eventId := findById_key _ _ _ _ hevent
      have hfound := findById_saveDoc_self Event._id (subscribedEvent event pd n) db.events event
        (by simpa [subscribedEvent, hid] using hevent)
      rw [hs]
      refine ⟨subscribedEvent event pd n, by simpa [subscribedEvent, hid] using hfound, ?_⟩
      rcases registrationData_ok _ _ _ _ _ hdata with
        ⟨hreq, teamId, team, hcast, hteam, hnoteam, hpd, -⟩ | ⟨-, hpd, -⟩
      · rw [hcanon hreq] at hcast
        cases hcast
        rw [hpd]
        exact rosterUnique_append_team _ _ _ huniq
          (not_mem_registeredTeams _ event _ team hteam hnoteam)
      · rw [hpd]
        exact rosterUnique_append_individual _ _ _ huniq
          (not_mem_individualUsers _ event _ user hstored hnotreg)
  · intro db req now faults event hevent huniq
    rcases participateInEvent_cases db req now faults with
      ⟨status, error, he⟩ | ⟨e, i, p, -, -, -, -, -, hs⟩ | ⟨e, he, -, -, hfind, -, hs⟩
    · rw [he]
      exact ⟨event, hevent, huniq⟩
    · rw [hs]
      exact ⟨event, hevent, huniq⟩
    · rw [hevent] at he
      cases he
      have hid : event._id = req.eventId := findById_key _ _ _ _ hevent
      have hfound := findById_saveDoc_self Event._id (joinedEvent event req.userId) db.events
        event (by simpa [joinedEvent, hid] using hevent)
      rw [hs]
      refine ⟨joinedEvent event req.userId, by simpa [joinedEvent, hid] using hfound, ?_⟩
      exact rosterUnique_append_individual _ _ _ huniq
        (not_mem_individualUsers_of_jsFind _ _ hfind)

/-! ## The claims -/

/-- C1: for an event with `currentParticipants ≤ maxParticipants` (an offline
event in particular), the stored event after any `subscribeToEvent` call,
accepted or rejected, has the same `maxParticipants` and still satisfies
`currentParticipants ≤ maxParticipants`. -/
theorem subscribeToEvent_preserves_capacity (db : Store) (req : SubscribeRequest)
    (faults : Faults) (event : Event)
    (hfind : findById Event._id db.events req.eventId = some event)
    (hcap : event.currentParticipants ≤ event.maxParticipants.getD 0) :
    ∃ event1,
      findById Event._id (subscribeToEvent db req faults).2.events req.eventId = some event1 ∧
      event1.maxParticipants = event.maxParticipants ∧
      event1.currentParticipants ≤ event1.maxParticipants.getD 0 := by
  rcases subscribeToEvent_cases db req faults with
    ⟨status, error, h⟩ | ⟨e, pd, n, he, -, -, -, hle, -, h⟩
  · exact ⟨event, by rw [h]; exact hfind, rfl, hcap⟩
  · rw [hfind] at he
    cases he
    have hid : event._id = req.eventId := findById_key Event._id db.events req.eventId event hfind
    refine ⟨subscribedEvent event pd n, ?_, rfl, hle⟩
    rw [h]
    have := findById_saveDoc_self Event._id (subscribedEvent event pd n) db.events event
      (by simpa [subscribedEvent, hid] using hfind)
    simpa [subscribedEvent, hid] using this

/-- Witness of C1: a team of the sample store takes the five seats of the
offline event. -/
theorem subscribeToEvent_preserves_capacity_witness :
    findById Event._id sampleStore.events "e2" = some offlineEvent ∧
    offlineEvent.type = .offline ∧
    offlineEvent.currentParticipants ≤ offlineEvent.maxParticipants.getD 0 ∧
    (subscribeToEvent sampleStore ⟨"e2", "u1", "team", "t1"⟩ noFaults).1 =
      .json ⟨"Successfully registered team for the event", 5, some 5⟩ ∧
    ∃ event1,
      findById Event._id
        (subscribeToEvent sampleStore ⟨"e2", "u1", "team", "t1"⟩ noFaults).2.events "e2" =
          some event1 ∧
      event1.maxParticipants = offlineEvent.maxParticipants ∧
      event1.currentParticipants ≤ event1.maxParticipants.getD 0 :=
  ⟨by decide, by decide, by decide, by decide,
    subscribeToEvent_preserves_capacity sampleStore ⟨"e2", "u1", "team", "t1"⟩ noFaults
      offlineEvent (by decide) (by decide)⟩

/-- C2 (the code at the failing input): on the two-question quiz, the submission
that answers the first question correctly twice is accepted with
`perfectRun = true`, although it answers one distinct question correctly and
the event defines two. -/
theorem submitAnswers_duplicate_perfectRun :
    (submitAnswers sampleStore duplicateSubmission sampleClock noFaults).1 =
      .json ⟨20, ["q1", "q1"], true, true⟩ ∧
    distinctCorrect quizEvent.questions [⟨"q1", "Paris"⟩, ⟨"q1", "Paris"⟩] = 1 ∧
    quizEvent.questions.length = 2 := by
  refine ⟨by decide, by decide, by decide⟩

/-- C3: when the record that `submitAnswers` finds for the requester has
`hasCompleted = true`, the call fails with the already-completed error and the
store (event, user and team documents) is unchanged, for any payload and at any
instant; hence after a successful submit every further submit of the same
request fails with that error and changes nothing. -/
theorem submitAnswers_no_resubmission :
    (∀ (db : Store) (req : SubmitRequest) (clock : Clock) (faults : Faults) (event : Event)
        (i : Nat) (participant : Participant),
      findById Event._id db.events req.eventId = some event →
      jsFind (userMatches req.userId) event.participants = .ok (some (i, participant)) →
      participant.hasCompleted = true →
      submitAnswers db req clock faults =
        (.error 400 "You have already completed this event", db)) ∧
    (∀ (db db1 : Store) (req : SubmitRequest) (clock : Clock) (faults : Faults)
        (r : SubmitResult),
      submitAnswers db req clock faults = (.json r, db1) →
      ∀ (clock2 : Clock) (faults2 : Faults),
        submitAnswers db1 req clock2 faults2 =
          (.error 400 "You have already completed this event", db1)) := by
  refine ⟨fun db req clock faults event i participant hevent hpart hcompleted =>
    submitAnswers_completed db req clock faults event i participant hevent hpart hcompleted, ?_⟩
  intro db db1 req clock faults r h clock2 faults2
  obtain ⟨event, i, participant, answers, g, user, -, -, -, -, -, -, -, hevent1, hpart1, -, -⟩ :=
    submitAnswers_ok_post db db1 req clock faults r h
  exact submitAnswers_completed db1 req clock2 faults2 _ _ _ hevent1 hpart1 rfl

/-- Witness of C3: a malformed payload sent after the end of the completed
quiz, and scenario D, the submission of scenario A sent twice. -/
theorem submitAnswers_no_resubmission_witness :
    submitAnswers finishedStore malformedSubmission lateClock noFaults =
      (.error 400 "You have already completed this event", finishedStore) ∧
    (submitAnswers sampleStore scenarioA sampleClock noFaults).1 =
      .json ⟨10, ["q1"], false, true⟩ ∧
    submitAnswers (submitAnswers sampleStore scenarioA sampleClock noFaults).2 scenarioA
        sampleClock noFaults =
      (.error 400 "You have already completed this event",
        (submitAnswers sampleStore scenarioA sampleClock noFaults).2) :=
  ⟨submitAnswers_no_resubmission.1 finishedStore malformedSubmission lateClock noFaults
      finishedQuiz 0 finishedPlayer (by decide) rfl (by decide),
    by decide,
    submitAnswers_no_resubmission.2 sampleStore
      (submitAnswers sampleStore scenarioA sampleClock noFaults).2 scenarioA sampleClock noFaults
      ⟨10, ["q1"], false, true⟩ (by decide) sampleClock noFaults⟩

/-- C4: a successful `submitAnswers` returns as score the sum of the points of
the referenced question over the submitted answers whose text is identical to
that question's recorded answer, and as `correctAnswers` the question ids of
exactly those answers, in submission order. -/
theorem submitAnswers_grading (db db1 : Store) (req : SubmitRequest) (clock : Clock)
    (faults : Faults) (r : SubmitResult)
    (h : submitAnswers db req clock faults = (.json r, db1)) :
    ∃ event, ∃ answers : List AnswerEntry,
      findById Event._id db.events req.eventId = some event ∧
      req.answers = some (answers.map some) ∧
      r.score =
        ((answers.filter (isCorrectAnswer event.questions)).map (pointsOf event.questions)).sum ∧
      r.correctAnswers =
        (answers.filter (isCorrectAnswer event.questions)).map AnswerEntry.questionId := by
  obtain ⟨event, i, participant, answers, g, user, hevent, -, -, hanswers, hgrade, -, hr, -⟩ :=
    submitAnswers_ok_post db db1 req clock faults r h
  obtain ⟨hscore, hcorrect, -, -⟩ := gradeAnswers_ok _ _ _ _ _ _ hgrade
  refine ⟨event, answers, hevent, hanswers, ?_, ?_⟩
  · rw [hr]; simpa using hscore
  · rw [hr]; simpa using hcorrect

/-- Witness of C4: scenario A, `{q1: "Paris", q2: "0"}` on the two-question
quiz, yields score 10, `correctAnswers = [q1]` and `perfectRun = false`. -/
theorem submitAnswers_grading_witness :
    submitAnswers sampleStore scenarioA sampleClock noFaults =
      (.json ⟨10, ["q1"], false, true⟩,
        (submitAnswers sampleStore scenarioA sampleClock noFaults).2) ∧
    ∃ event, ∃ answers : List AnswerEntry,
      findById Event._id sampleStore.events scenarioA.eventId = some event ∧
      scenarioA.answers = some (answers.map some) ∧
      (10 : Int) =
        ((answers.filter (isCorrectAnswer event.questions)).map (pointsOf event.questions)).sum ∧
      ["q1"] = (answers.filter (isCorrectAnswer event.questions)).map AnswerEntry.questionId :=
  ⟨by decide,
    submitAnswers_grading sampleStore
      (submitAnswers sampleStore scenarioA sampleClock noFaults).2 scenarioA sampleClock noFaults
      ⟨10, ["q1"], false, true⟩ (by decide)⟩

/-- C5: after a successful `submitAnswers` with total score `s`, the record of
the requester in the stored event has score `s`, the stored user has score
`(score before, 0 when missing) + s`, and when the user is of type team and
`teamId` references a stored team, that team has score
`(score before, 0 when missing) + s`. -/
theorem submitAnswers_score_consistency (db db1 : Store) (req : SubmitRequest) (clock : Clock)
    (faults : Faults) (r : SubmitResult)
    (h : submitAnswers db req clock faults = (.json r, db1)) :
    ∃ user user1 event1 i participant1,
      findById User._id db.users req.userId = some user ∧
      findById User._id db1.users req.userId = some user1 ∧
      user1.score = some (user.score.getD 0 + r.score) ∧
      findById Event._id db1.events req.eventId = some event1 ∧
      jsFind (userMatches req.userId) event1.participants = .ok (some (i, participant1)) ∧
      participant1.score = r.score ∧
      ∀ teamId team, user.participationType = .team → user.teamId = some teamId →
        findById Team._id db.teams teamId = some team →
        ∃ team1, findById Team._id db1.teams teamId = some team1 ∧
          team1.score = some (team.score.getD 0 + r.score) := by
  obtain ⟨event, i, participant, answers, g, user, -, -, -, -, -, huser, hr, hevent1, hpart1,
    huser1, hteam⟩ := submitAnswers_ok_post db db1 req clock faults r h
  subst hr
  refine ⟨user, _, _, i, _, huser, huser1, rfl, hevent1, hpart1, rfl, ?_⟩
  intro teamId team hpt htid hfind
  rcases hteam with ⟨teamId1, team0, team1, -, htid1, hfind1, hrec, -, hfound⟩ | ⟨hnone, -⟩
  · rw [htid] at htid1
    cases htid1
    rw [hfind] at hfind1
    cases hfind1
    exact ⟨team1, hfound, (recordTeamResult_ok _ _ _ _ _ _ _ hrec).2.1⟩
  · rw [hnone teamId hpt htid] at hfind
    cases hfind

/-- Witness of C5: scenario A in the sample store, where the user has score 5
and the team score 7 beforehand. -/
theorem submitAnswers_score_consistency_witness :
    submitAnswers sampleStore scenarioA sampleClock noFaults =
      (.json ⟨10, ["q1"], false, true⟩,
        (submitAnswers sampleStore scenarioA sampleClock noFaults).2) ∧
    ∃ user user1 event1 i participant1,
      findById User._id sampleStore.users scenarioA.userId = some user ∧
      findById User._id (submitAnswers sampleStore scenarioA sampleClock noFaults).2.users
        scenarioA.userId = some user1 ∧
      user1.score = some (user.score.getD 0 + 10) ∧
      findById Event._id (submitAnswers sampleStore scenarioA sampleClock noFaults).2.events
        scenarioA.eventId = some event1 ∧
      jsFind (userMatches scenarioA.userId) event1.participants = .ok (some (i, participant1)) ∧
      participant1.score = 10 ∧
      ∀ teamId team, user.participationType = .team → user.teamId = some teamId →
        findById Team._id sampleStore.teams teamId = some team →
        ∃ team1,
          findById Team._id (submitAnswers sampleStore scenarioA sampleClock noFaults).2.teams
            teamId = some team1 ∧
          team1.score = some (team.score.getD 0 + 10) :=
  ⟨by decide,
    submitAnswers_score_consistency sampleStore
      (submitAnswers sampleStore scenarioA sampleClock noFaults).2 scenarioA sampleClock noFaults
      ⟨10, ["q1"], false, true⟩ (by decide)⟩

/-- C6: after a successful `submitAnswers`, the stored user has
`(wins before, 0 when missing) + 1` wins when `perfectRun` is true and the same
wins as before otherwise; the same holds for the wins of the team that the
call updates. -/
theorem submitAnswers_wins (db db1 : Store) (req : SubmitRequest) (clock : Clock)
    (faults : Faults) (r : SubmitResult)
    (h : submitAnswers db req clock faults = (.json r, db1)) :
    ∃ user user1,
      findById User._id db.users req.userId = some user ∧
      findById User._id db1.users req.userId = some user1 ∧
      user1.wins = (if r.perfectRun then some (user.wins.getD 0 + 1) else user.wins) ∧
      ∀ teamId team, user.participationType = .team → user.teamId = some teamId →
        findById Team._id db.teams teamId = some team →
        ∃ team1, findById Team._id db1.teams teamId = some team1 ∧
          team1.wins = (if r.perfectRun then some (team.wins.getD 0 + 1) else team.wins) := by
  obtain ⟨event, i, participant, answers, g, user, -, -, -, -, -, huser, hr, -, -,
    huser1, hteam⟩ := submitAnswers_ok_post db db1 req clock faults r h
  subst hr
  refine ⟨user, _, huser, huser1, rfl, ?_⟩
  intro teamId team hpt htid hfind
  rcases hteam with ⟨teamId1, team0, team1, -, htid1, hfind1, hrec, -, hfound⟩ | ⟨hnone, -⟩
  · rw [htid] at htid1
    cases htid1
    rw [hfind] at hfind1
    cases hfind1
    exact ⟨team1, hfound, (recordTeamResult_ok _ _ _ _ _ _ _ hrec).2.2.1⟩
  · rw [hnone teamId hpt htid] at hfind
    cases hfind

/-- Witness of C6: scenario B, `{q1: "Paris", q2: "42"}` on the two-question
quiz, yields score 20 and `perfectRun = true`, and the wins of the user and of
the team go from none to 1. -/
theorem submitAnswers_wins_witness :
    submitAnswers sampleStore scenarioB sampleClock noFaults =
      (.json ⟨20, ["q1", "q2"], true, true⟩,
        (submitAnswers sampleStore scenarioB sampleClock noFaults).2) ∧
    ∃ user user1,
      findById User._id sampleStore.users scenarioB.userId = some user ∧
      findById User._id (submitAnswers sampleStore scenarioB sampleClock noFaults).2.users
        scenarioB.userId = some user1 ∧
      user1.wins = (if true then some (user.wins.getD 0 + 1) else user.wins) ∧
      ∀ teamId team, user.participationType = .team → user.teamId = some teamId →
        findById Team._id sampleStore.teams teamId = some team →
        ∃ team1,
          findById Team._id (submitAnswers sampleStore scenarioB sampleClock noFaults).2.teams
            teamId = some team1 ∧
          team1.wins = (if true then some (team.wins.getD 0 + 1) else team.wins) :=
  ⟨by decide,
    submitAnswers_wins sampleStore
      (submitAnswers sampleStore scenarioB sampleClock noFaults).2 scenarioB sampleClock noFaults
      ⟨20, ["q1", "q2"], true, true⟩ (by decide)⟩

/-- C7 (counterexample): a teammate of the captain finishes the sample quiz,
which leaves one snapshot of the quiz in the team; the captain then submits
under a path that spells the event id `E1`, and the team holds two snapshots of
the quiz. -/
theorem submitAnswers_snapshot_respelled :
    castObjectId captainRespelled.eventIdText = some captainRespelled.eventId ∧
    (findById Team._id afterTeammate.teams "t1").map
        (fun team => team.eventsParticipated.filter (snapshotOf "e1")) =
      some [⟨some "e1", 20, 2, 160⟩] ∧
    (submitAnswers afterTeammate captainRespelled sampleClock noFaults).1 =
      .json ⟨10, ["q1"], false, true⟩ ∧
    (findById Team._id
        (submitAnswers afterTeammate captainRespelled sampleClock noFaults).2.teams "t1").map
        (fun team => team.eventsParticipated.filter (snapshotOf "e1")) =
      some [⟨some "e1", 20, 2, 160⟩, ⟨some "e1", 10, 2, 160⟩] := by
  refine ⟨by decide, by decide, by decide, by decide⟩

/-- C7 (amended): after a successful `submitAnswers` whose path spells the event
id as it is stored, by a team-type user whose team is stored and held at most
one snapshot of the event in `eventsParticipated`, the stored team holds exactly
one snapshot of the event, with the total score of the submission and the
number of members of the team, and its snapshots of the other events are
unchanged. -/
theorem submitAnswers_team_snapshot (db db1 : Store) (req : SubmitRequest) (clock : Clock)
    (faults : Faults) (r : SubmitResult) (user : User) (teamId : ObjectId) (team : Team)
    (h : submitAnswers db req clock faults = (.json r, db1))
    (hspelled : req.eventIdText = req.eventId)
    (huser : findById User._id db.users req.userId = some user)
    (htype : user.participationType = .team)
    (hteamId : user.teamId = some teamId)
    (hteam : findById Team._id db.teams teamId = some team)
    (hone : (team.eventsParticipated.filter (snapshotOf req.eventId)).length ≤ 1) :
    ∃ team1,
      findById Team._id db1.teams teamId = some team1 ∧
      team1.eventsParticipated.filter (snapshotOf req.eventId) =
        [⟨some req.eventId, r.score, team.members.length, clock.completedAt⟩] ∧
      team1.eventsParticipated.filter (fun ep => !snapshotOf req.eventId ep) =
        team.eventsParticipated.filter (fun ep => !snapshotOf req.eventId ep) := by
  obtain ⟨event, i, participant, answers, g, user0, -, -, -, -, -, huser0, hr, -, -, -, hcase⟩ :=
    submitAnswers_ok_post db db1 req clock faults r h
  rw [huser] at huser0
  cases huser0
  subst hr
  rcases hcase with ⟨teamId1, team0, team1, -, htid1, hfind1, hrec, -, hfound⟩ | ⟨hnone, -⟩
  · rw [hteamId] at htid1
    cases htid1
    rw [hteam] at hfind1
    cases hfind1
    rw [hspelled] at hrec
    exact ⟨team1, hfound, recordTeamResult_snapshots _ _ _ _ _ _ hrec hone⟩
  · rw [hnone teamId htype hteamId] at hteam
    cases hteam

/-- Witness of C7 (amended): scenario A in the sample store, whose team of two
members holds a snapshot of another event. -/
theorem submitAnswers_team_snapshot_witness :
    ∃ team1,
      findById Team._id (submitAnswers sampleStore scenarioA sampleClock noFaults).2.teams "t1" =
        some team1 ∧
      team1.eventsParticipated.filter (snapshotOf "e1") = [⟨some "e1", 10, 2, 160⟩] ∧
      team1.eventsParticipated.filter (fun ep => !snapshotOf "e1" ep) =
        teamOne.eventsParticipated.filter (fun ep => !snapshotOf "e1" ep) :=
  submitAnswers_team_snapshot sampleStore
    (submitAnswers sampleStore scenarioA sampleClock noFaults).2 scenarioA sampleClock noFaults
    ⟨10, ["q1"], false, true⟩ captain "t1" teamOne (by decide) (by decide) (by decide)
    (by decide) (by decide) (by decide) (by decide)

/-- C8: a `submitAnswers` call that replies with an error, whatever the error
(a question that is not found after earlier answers were graded, a missing
user, a write that fails after the team was saved in the session), leaves the
store exactly as it was. -/
theorem submitAnswers_failure_atomic (db : Store) (req : SubmitRequest) (clock : Clock)
    (faults : Faults) (status : Nat) (error : String)
    (h : (submitAnswers db req clock faults).1 = .error status error) :
    (submitAnswers db req clock faults).2 = db :=
  submitAnswers_error_store db req clock faults status error h

/-- Witness of C8: the second answer refers to an unknown question after the
first was graded as correct; the event cannot be saved after the team was saved
in the session; the user document is missing. -/
theorem submitAnswers_failure_atomic_witness :
    ((submitAnswers sampleStore unknownQuestionSubmission sampleClock noFaults).1 =
        .error 500 "Failed to submit answers" ∧
      (submitAnswers sampleStore unknownQuestionSubmission sampleClock noFaults).2 =
        sampleStore) ∧
    ((submitAnswers sampleStore scenarioA sampleClock eventSaveFault).1 =
        .error 500 "Failed to submit answers" ∧
      (submitAnswers sampleStore scenarioA sampleClock eventSaveFault).2 = sampleStore) ∧
    ((submitAnswers orphanStore scenarioA sampleClock noFaults).1 =
        .error 404 "User not found" ∧
      (submitAnswers orphanStore scenarioA sampleClock noFaults).2 = orphanStore) :=
  ⟨⟨by decide,
      submitAnswers_failure_atomic sampleStore unknownQuestionSubmission sampleClock noFaults
        500 "Failed to submit answers" (by decide)⟩,
    ⟨by decide,
      submitAnswers_failure_atomic sampleStore scenarioA sampleClock eventSaveFault
        500 "Failed to submit answers" (by decide)⟩,
    ⟨by decide,
      submitAnswers_failure_atomic orphanStore scenarioA sampleClock noFaults
        404 "User not found" (by decide)⟩⟩

/-- C9 (the code departs from it): the empty list of answers is not rejected;
the call succeeds with score 0 and marks the participant as completed, after
which scenario A of the same player is refused.  A list that holds `null` is
rejected with status 500, not with the invalid-answers-format error. -/
theorem submitAnswers_empty_accepted :
    emptySubmission.answers = some [] ∧
    (submitAnswers sampleStore emptySubmission sampleClock noFaults).1 =
      .json ⟨0, [], false, true⟩ ∧
    findById Event._id (submitAnswers sampleStore emptySubmission sampleClock noFaults).2.events
      "e1" = some { quizEvent with participants := [{ quizPlayer with hasCompleted := true }] } ∧
    (submitAnswers (submitAnswers sampleStore emptySubmission sampleClock noFaults).2 scenarioA
      sampleClock noFaults).1 = .error 400 "You have already completed this event" ∧
    submitAnswers sampleStore nullEntrySubmission sampleClock noFaults =
      (.error 500 "Failed to submit answers", sampleStore) := by
  refine ⟨by decide, by decide, by decide, by decide, by decide⟩

/-- C10: when the event exists and the record found for the requester is not
completed, `submitAnswers` replies with the event-not-active error if and only
if the current instant is strictly before `startDate` or strictly after
`endDate`; at exactly `startDate` or `endDate` it is not rejected for timing. -/
theorem submitAnswers_window (db : Store) (req : SubmitRequest) (clock : Clock)
    (faults : Faults) (event : Event) (i : Nat) (participant : Participant)
    (hevent : findById Event._id db.events req.eventId = some event)
    (hpart : jsFind (userMatches req.userId) event.participants = .ok (some (i, participant)))
    (hcompleted : participant.hasCompleted = false) :
    (submitAnswers db req clock faults).1 = .error 403 "Event is not active for submissions" ↔
      (clock.now < event.startDate ∨ clock.now > event.endDate) := by
  rcases submitAnswers_after_lookup db req clock faults event i participant hevent hpart
    hcompleted with ⟨hw, h⟩ | ⟨hw, -, h | h⟩ | ⟨hw, -, ⟨r, h⟩ | h | h⟩
  · rw [h]
    exact ⟨fun _ => hw, fun _ => rfl⟩
  · rw [h]
    exact ⟨fun h1 => absurd h1 (by simp), fun h1 => absurd h1 hw⟩
  · rw [h]
    exact ⟨fun h1 => absurd h1 (by simp), fun h1 => absurd h1 hw⟩
  · rw [h]
    exact ⟨fun h1 => absurd h1 (by simp), fun h1 => absurd h1 hw⟩
  · rw [h]
    exact ⟨fun h1 => absurd h1 (by simp), fun h1 => absurd h1 hw⟩
  · rw [h]
    exact ⟨fun h1 => absurd h1 (by simp), fun h1 => absurd h1 hw⟩

/-- Witness of C10: scenario A is rejected after the end of the quiz, and is
accepted at exactly `startDate` and at exactly `endDate`. -/
theorem submitAnswers_window_witness :
    ((submitAnswers sampleStore scenarioA lateClock noFaults).1 =
        .error 403 "Event is not active for submissions" ↔
      (lateClock.now < quizEvent.startDate ∨ lateClock.now > quizEvent.endDate)) ∧
    (submitAnswers sampleStore scenarioA lateClock noFaults).1 =
      .error 403 "Event is not active for submissions" ∧
    (submitAnswers sampleStore scenarioA ⟨100, fun k => 100 + k, 100⟩ noFaults).1 =
      .json ⟨10, ["q1"], false, true⟩ ∧
    (submitAnswers sampleStore scenarioA ⟨200, fun k => 200 + k, 200⟩ noFaults).1 =
      .json ⟨10, ["q1"], false, true⟩ :=
  ⟨submitAnswers_window sampleStore scenarioA lateClock noFaults quizEvent 0 quizPlayer
      (by decide) rfl (by decide),
    by decide, by decide, by decide⟩

/-- C11: for a `subscribeToEvent` request that passes the existence,
event-type and duplicate checks, the seats asked for are 1 for an individual
request and, for a team request, `event.teamSize` when not zero, otherwise the
number of members of the team when not zero, otherwise 5; and the request is
rejected with the capacity error if and only if
`currentParticipants + seats > maxParticipants`. -/
theorem subscribeToEvent_seat_arithmetic (db : Store) (req : SubscribeRequest) (faults : Faults)
    (event : Event) (pd : Participant) (n : Nat)
    (hevent : findById Event._id db.events req.eventId = some event)
    (hoffline : event.type = .offline)
    (hnotreg : isUserRegistered db.users event req.userId = false)
    (hdata : registrationData (startTransaction db) event req = .ok (pd, n)) :
    (isTeamRequest req = false → n = 1) ∧
    (isTeamRequest req = true → ∃ teamId team, castObjectId req.teamId = some teamId ∧
      findById Team._id db.teams teamId = some team ∧ n = seatsRequested event (some team)) ∧
    (((subscribeToEvent db req faults).1 =
          .error 400 "Not enough spots available for the entire team" ∨
        (subscribeToEvent db req faults).1 =
          .error 400 "No spots available for registration") ↔
      event.currentParticipants + n > event.maxParticipants.getD 0) := by
  refine ⟨?_, ?_, ?_⟩
  · intro hreq
    rcases registrationData_ok _ _ _ _ _ hdata with ⟨hteam, -⟩ | ⟨-, -, hn⟩
    · rw [hreq] at hteam
      cases hteam
    · exact hn
  · intro hreq
    rcases registrationData_ok _ _ _ _ _ hdata with
      ⟨-, teamId, team, hcast, hfind, -, -, hn⟩ | ⟨hno, -⟩
    · exact ⟨teamId, team, hcast, hfind, hn⟩
    · rw [hreq] at hno
      cases hno
  · rcases subscribeToEvent_after_checks db req faults event pd n hevent hoffline hnotreg hdata
      with ⟨hcap, h⟩ | ⟨hle, -, h⟩ | ⟨hle, -, h⟩
    · rw [h]
      refine ⟨fun _ => hcap, fun _ => ?_⟩
      by_cases ht : req.type = "team"
      · exact Or.inl (by simp [ht])
      · exact Or.inr (by simp [ht])
    · rw [h]
      exact ⟨fun h1 => by rcases h1 with h1 | h1 <;> simp at h1, fun h1 => by omega⟩
    · rw [h]
      exact ⟨fun h1 => by rcases h1 with h1 | h1 <;> simp at h1, fun h1 => by omega⟩

/-- Witness of C11: the second team, of three members, asks for the five seats
of `event.teamSize` in the full event and is rejected with the capacity error. -/
theorem subscribeToEvent_seat_arithmetic_witness :
    (isTeamRequest teamTwoJoins = false → 5 = 1) ∧
    (isTeamRequest teamTwoJoins = true → ∃ teamId team,
      castObjectId teamTwoJoins.teamId = some teamId ∧
      findById Team._id fullStore.teams teamId = some team ∧
      5 = seatsRequested fullEvent (some team)) ∧
    (((subscribeToEvent fullStore teamTwoJoins noFaults).1 =
          .error 400 "Not enough spots available for the entire team" ∨
        (subscribeToEvent fullStore teamTwoJoins noFaults).1 =
          .error 400 "No spots available for registration") ↔
      fullEvent.currentParticipants + 5 > fullEvent.maxParticipants.getD 0) :=
  subscribeToEvent_seat_arithmetic fullStore teamTwoJoins noFaults fullEvent
    (newParticipant none (some "t2") "u2" .team) 5 (by decide) (by decide) (by decide) rfl

/-- C12: a successful `subscribeToEvent` appends exactly one record at the end
of the roster (individual with `user` the requester and no team, or team with
`team` the given team and no user; `registeredBy` the requester in both cases),
adds the seats asked for to `currentParticipants`, keeps the earlier records
and `maxParticipants`, and reports the new `currentParticipants` and
`maxParticipants`. -/
theorem subscribeToEvent_effect (db db1 : Store) (req : SubscribeRequest) (faults : Faults)
    (r : SubscribeResult) (h : subscribeToEvent db req faults = (.json r, db1)) :
    ∃ event event1 seats,
      findById Event._id db.events req.eventId = some event ∧
      findById Event._id db1.events req.eventId = some event1 ∧
      (∃ team, seats = seatsRequested event team ∧
        (team = none ↔ isTeamRequest req = false) ∧
        ∀ t, team = some t → ∃ teamId, castObjectId req.teamId = some teamId ∧
          findById Team._id db.teams teamId = some t) ∧
      event1.participants = event.participants ++
        [if isTeamRequest req then newParticipant none (castObjectId req.teamId) req.userId .team
         else newParticipant (some req.userId) none req.userId .individual] ∧
      event1.currentParticipants = event.currentParticipants + seats ∧
      event1.maxParticipants = event.maxParticipants ∧
      r.currentParticipants = event1.currentParticipants ∧
      r.maxParticipants = event1.maxParticipants := by
  rcases subscribeToEvent_cases db req faults with
    ⟨status, error, he⟩ | ⟨event, pd, n, hevent, -, -, hdata, -, -, hs⟩
  · rw [he] at h
    cases h
  · rw [hs] at h
    simp only [Prod.mk.injEq, Reply.json.injEq] at h
    obtain ⟨hr, hdb⟩ := h
    subst hr
    subst hdb
    have hid : event._id = req.eventId := findById_key _ _ _ _ hevent
    have hfound : findById Event._id (saveDoc Event._id (subscribedEvent event pd n) db.events)
        req.eventId = some (subscribedEvent event pd n) := by
      have := findById_saveDoc_self Event._id (subscribedEvent event pd n) db.events event
        (by simpa [subscribedEvent, hid] using hevent)
      simpa [subscribedEvent, hid] using this
    refine ⟨event, subscribedEvent event pd n, n, hevent, hfound, ?_, ?_, rfl, rfl, rfl, rfl⟩
    · rcases registrationData_ok _ _ _ _ _ hdata with
        ⟨hreq, teamId, team, hcast, hfind, -, -, hn⟩ | ⟨hno, -, hn⟩
      · refine ⟨some team, hn, ⟨fun h1 => (by cases h1), fun h1 => ?_⟩, ?_⟩
        · rw [hreq] at h1
          cases h1
        intro t ht
        cases ht
        exact ⟨teamId, hcast, hfind⟩
      · exact ⟨none, hn, ⟨fun _ => hno, fun _ => rfl⟩, fun t ht => by cases ht⟩
    · rcases registrationData_ok _ _ _ _ _ hdata with
        ⟨hreq, teamId, -, hcast, -, -, hpd, -⟩ | ⟨hno, hpd, -⟩
      · simp [subscribedEvent, hpd, hreq, hcast]
      · simp [subscribedEvent, hpd, hno]

/-- Witness of C12: the first team takes the five seats of scenario C. -/
theorem subscribeToEvent_effect_witness :
    subscribeToEvent clubStore teamOneJoins noFaults =
      (.json ⟨"Successfully registered team for the event", 5, some 5⟩, fullStore) ∧
    findById Event._id fullStore.events "e2" = some fullEvent ∧
    ∃ event event1 seats,
      findById Event._id clubStore.events teamOneJoins.eventId = some event ∧
      findById Event._id fullStore.events teamOneJoins.eventId = some event1 ∧
      (∃ team, seats = seatsRequested event team ∧
        (team = none ↔ isTeamRequest teamOneJoins = false) ∧
        ∀ t, team = some t → ∃ teamId, castObjectId teamOneJoins.teamId = some teamId ∧
          findById Team._id clubStore.teams teamId = some t) ∧
      event1.participants = event.participants ++
        [if isTeamRequest teamOneJoins
         then newParticipant none (castObjectId teamOneJoins.teamId) teamOneJoins.userId .team
         else newParticipant (some teamOneJoins.userId) none teamOneJoins.userId .individual] ∧
      event1.currentParticipants = event.currentParticipants + seats ∧
      event1.maxParticipants = event.maxParticipants ∧
      (5 : Nat) = event1.currentParticipants ∧
      some 5 = event1.maxParticipants :=
  ⟨by decide, by decide,
    subscribeToEvent_effect clubStore fullStore teamOneJoins noFaults
      ⟨"Successfully registered team for the event", 5, some 5⟩ (by decide)⟩

/-- C13 (the code departs from it): in the ten-seat event the first team
registers; the same request again is refused as a team already registered; the
request with the identifier of the team spelled `T1` is accepted, and the
roster then holds two records of the team, which holds all ten seats. -/
theorem subscribeToEvent_team_respelled :
    subscribeToEvent clubStore ⟨"e3", "u1", "team", "t1"⟩ noFaults =
      (.json ⟨"Successfully registered team for the event", 5, some 10⟩, afterTeamOne) ∧
    subscribeToEvent afterTeamOne ⟨"e3", "u1", "team", "t1"⟩ noFaults =
      (.error 400 "Your team is already registered for this event", afterTeamOne) ∧
    castObjectId "T1" = some "t1" ∧
    (subscribeToEvent afterTeamOne teamOneRespelled noFaults).1 =
      .json ⟨"Successfully registered team for the event", 10, some 10⟩ ∧
    findById Event._id (subscribeToEvent afterTeamOne teamOneRespelled noFaults).2.events "e3" =
      some doubleBookedEvent ∧
    doubleBookedEvent.participants =
      [newParticipant none (some "t1") "u1" .team, newParticipant none (some "t1") "u1" .team] ∧
    doubleBookedEvent.currentParticipants = 10 := by
  refine ⟨by decide, by decide, by decide, by decide, by decide, by decide, by decide⟩

/-- C14 (the code at the failing input): `subscribeToEvent` reads no clock.  The
offline event `e2` starts at instant 100, and the registration of the second
user is accepted and takes a seat whatever the current instant is, so also at
every instant later than 100. -/
theorem subscribeToEvent_after_start :
    findById Event._id clubStore.events bobJoins.eventId = some offlineEvent ∧
    offlineEvent.type = .offline ∧ offlineEvent.startDate = 100 ∧
    (subscribeToEvent clubStore bobJoins noFaults).1 =
      .json ⟨"Successfully registered participant for the event", 1, some 5⟩ ∧
    findById Event._id (subscribeToEvent clubStore bobJoins noFaults).2.events "e2" =
      some { offlineEvent with
             participants := [newParticipant (some "u2") none "u2" .individual]
             currentParticipants := 1 } := by
  refine ⟨by decide, by decide, by decide, by decide, by decide⟩

/-- C15: for an offline event with `currentParticipants = maxParticipants`,
every `subscribeToEvent` request of a user who is not registered, alone or for
a stored team that is not registered, is rejected with the capacity error and
leaves the store unchanged. -/
theorem subscribeToEvent_full_event (db : Store) (req : SubscribeRequest) (faults : Faults)
    (event : Event) (pd : Participant) (n : Nat)
    (hevent : findById Event._id db.events req.eventId = some event)
    (hoffline : event.type = .offline)
    (hfull : event.maxParticipants = some event.currentParticipants)
    (hnotreg : isUserRegistered db.users event req.userId = false)
    (hdata : registrationData (startTransaction db) event req = .ok (pd, n)) :
    subscribeToEvent db req faults =
      (.error 400 (if req.type == "team"
          then "Not enough spots available for the entire team"
          else "No spots available for registration"), db) := by
  have hn : 0 < n := by
    rcases registrationData_ok _ _ _ _ _ hdata with ⟨-, teamId, team, -, -, -, -, hn⟩ | ⟨-, -, hn⟩
    · rw [hn]; exact seatsRequested_pos _ _
    · rw [hn]; exact seatsRequested_pos _ _
  rcases subscribeToEvent_after_checks db req faults event pd n hevent hoffline hnotreg hdata
    with ⟨-, h⟩ | ⟨hle, -, -⟩ | ⟨hle, -, -⟩
  · exact h
  · rw [hfull] at hle
    simp only [Option.getD_some] at hle
    omega
  · rw [hfull] at hle
    simp only [Option.getD_some] at hle
    omega

/-- Witness of C15: scenario C.  The first team takes the five seats; the
second user alone and the second team are then rejected with the capacity
error. -/
theorem subscribeToEvent_full_event_witness :
    subscribeToEvent clubStore teamOneJoins noFaults =
      (.json ⟨"Successfully registered team for the event", 5, some 5⟩, fullStore) ∧
    findById Event._id fullStore.events "e2" = some fullEvent ∧
    fullEvent.currentParticipants = 5 ∧
    subscribeToEvent fullStore bobJoins noFaults =
      (.error 400 "No spots available for registration", fullStore) ∧
    subscribeToEvent fullStore teamTwoJoins noFaults =
      (.error 400 "Not enough spots available for the entire team", fullStore) :=
  ⟨by decide, by decide, by decide,
    subscribeToEvent_full_event fullStore bobJoins noFaults fullEvent
      (newParticipant (some "u2") none "u2" .individual) 1 (by decide) (by decide) (by decide)
      (by decide) rfl,
    subscribeToEvent_full_event fullStore teamTwoJoins noFaults fullEvent
      (newParticipant none (some "t2") "u2" .team) 5 (by decide) (by decide) (by decide)
      (by decide) rfl⟩

/-- C16 (the code departs from it): the roster of the ten-seat event holds one
record, of the first team, and so no two records of one team; after the
`subscribeToEvent` call that spells the identifier of that team `T1` it holds
two team records of the team `t1`. -/
theorem subscribeToEvent_duplicate_team_record :
    findById Event._id afterTeamOne.events "e3" =
      some { roomyEvent with
             participants := [newParticipant none (some "t1") "u1" .team]
             currentParticipants := 5 } ∧
    rosterUnique [newParticipant none (some "t1") "u1" .team] ∧
    (∃ event1,
      findById Event._id (subscribeToEvent afterTeamOne teamOneRespelled noFaults).2.events
        teamOneRespelled.eventId = some event1 ∧
      registeredTeams event1.participants = ["t1", "t1"] ∧
      ¬ rosterUnique event1.participants) := by
  refine ⟨by decide, ?_, ⟨doubleBookedEvent, by decide, by decide, ?_⟩⟩
  · simp [rosterUnique, individualUsers, registeredTeams, newParticipant]
  · simp [rosterUnique, individualUsers, registeredTeams, newParticipant, doubleBookedEvent]

/-- C17: the question list that a successful `participateInEvent` returns is
the list of the questions of the event, in their order, each reduced to its id,
text, options and points; and the reply is the same for two stored events that
differ only in the `answer` fields of their questions. -/
theorem participateInEvent_hides_answers :
    (∀ (db db1 : Store) (req : ParticipateRequest) (now : Instant) (faults : Faults)
        (r : ParticipateResult),
      participateInEvent db req now faults = (.json r, db1) →
      ∃ event, findById Event._id db.events req.eventId = some event ∧
        r.questions.length = event.questions.length ∧
        r.questions = event.questions.map
          (fun q => ⟨q._id, q.question, q.options, q.points⟩)) ∧
    (∀ (db1 db2 : Store) (req : ParticipateRequest) (now : Instant) (faults : Faults)
        (e1 e2 : Event),
      findById Event._id db1.events req.eventId = some e1 →
      findById Event._id db2.events req.eventId = some e2 →
      sameUpToAnswers e1 e2 →
      (participateInEvent db1 req now faults).1 = (participateInEvent db2 req now faults).1) := by
  refine ⟨?_, participateInEvent_reply_congr⟩
  intro db db1 req now faults r h
  rcases participateInEvent_cases db req now faults with
    ⟨status, error, he⟩ | ⟨e, i, p, hevent, -, -, -, -, hs⟩ | ⟨e, hevent, -, -, -, -, hs⟩
  · rw [he] at h
    cases h
  · rw [hs] at h
    simp only [Prod.mk.injEq, Reply.json.injEq] at h
    rw [← h.1]
    exact ⟨e, hevent, by simp [participateReply], rfl⟩
  · rw [hs] at h
    simp only [Prod.mk.injEq, Reply.json.injEq] at h
    rw [← h.1]
    exact ⟨e, hevent, by simp [participateReply, joinedEvent], rfl⟩

/-- Witness of C17: the first user takes part in the sample quiz and in the
quiz with the other answer key; the replies are the same and show no answer. -/
theorem participateInEvent_hides_answers_witness :
    (∃ event, findById Event._id sampleStore.events "e1" = some event ∧
        (2 : Nat) = event.questions.length ∧
        [(⟨"q1", "Capital of France?", ["Paris", "Rome"], 10⟩ : SanitizedQuestion),
         ⟨"q2", "Six times seven?", ["42", "0"], 10⟩] =
          event.questions.map (fun q => ⟨q._id, q.question, q.options, q.points⟩)) ∧
    sameUpToAnswers quizEvent otherKeyQuiz ∧
    (participateInEvent sampleStore ⟨"e1", "u1"⟩ 150 noFaults).1 =
      (participateInEvent otherKeyStore ⟨"e1", "u1"⟩ 150 noFaults).1 :=
  have hsame : sameUpToAnswers quizEvent otherKeyQuiz := ⟨by decide, by decide⟩
  ⟨participateInEvent_hides_answers.1 sampleStore sampleStore ⟨"e1", "u1"⟩ 150 noFaults
      quizReply (by decide),
    hsame,
    participateInEvent_hides_answers.2 sampleStore otherKeyStore ⟨"e1", "u1"⟩ 150 noFaults
      quizEvent otherKeyQuiz (by decide) (by decide) hsame⟩

/-- C18: a successful `participateInEvent`, on a roster that held at most one
record of the requester, leaves exactly one record of the requester: a new
record with score 0, `perfectRun` and `hasCompleted` false and no answers when
there was none, and otherwise the existing record with the whole store
untouched; and a second call at an instant inside the window gives the same
reply and the same store as the first. -/
theorem participateInEvent_idempotent (db db1 : Store) (req : ParticipateRequest)
    (now : Instant) (faults : Faults) (r : ParticipateResult) (event : Event)
    (h : participateInEvent db req now faults = (.json r, db1))
    (hevent : findById Event._id db.events req.eventId = some event)
    (hone : (recordsOf req.userId event.participants).length ≤ 1) :
    (∃ event1, findById Event._id db1.events req.eventId = some event1 ∧
      ((recordsOf req.userId event.participants = [] ∧
          recordsOf req.userId event1.participants =
            [{ user := some req.userId, team := none, registeredBy := req.userId
               registrationType := .individual, score := 0, perfectRun := false
               hasCompleted := false, answers := [] }]) ∨
       (∃ p, recordsOf req.userId event.participants = [p] ∧
          recordsOf req.userId event1.participants = [p] ∧ db1 = db))) ∧
    ∀ (now2 : Instant) (faults2 : Faults),
      ¬ (now2 < event.startDate ∨ now2 > event.endDate) →
      participateInEvent db1 req now2 faults2 = (.json r, db1) := by
  have hid : event._id = req.eventId := findById_key _ _ _ _ hevent
  rcases participateInEvent_cases db req now faults with
    ⟨status, error, he⟩ | ⟨e, i, p, he, htype, -, hfind, hc, hs⟩ |
    ⟨e, he, htype, -, hfind, -, hs⟩
  · rw [he] at h
    cases h
  · rw [hevent] at he
    cases he
    rw [hs] at h
    simp only [Prod.mk.injEq, Reply.json.injEq] at h
    obtain ⟨hr, hdb⟩ := h
    subst hr
    subst hdb
    obtain ⟨l1, l2, hl, -, hp, hbefore⟩ := jsFind_some _ _ _ _ hfind
    have hrec : recordsOf req.userId event.participants = [p] := by
      have hpu : (p.user == some req.userId) = true := by
        simp [userMatches_true _ _ hp]
      have hl1 : l1.filter (fun q => q.user == some req.userId) = [] :=
        filter_eq_nil_of_false _ _ (fun y hy => userMatches_false _ _ (hbefore y hy))
      unfold recordsOf at hone ⊢
      rw [hl] at hone ⊢
      simp only [List.filter_append, List.filter_cons, hpu, if_true, hl1, List.nil_append,
        List.length_cons] at hone ⊢
      have hl2 : l2.filter (fun q => q.user == some req.userId) = [] := by
        apply List.eq_nil_of_length_eq_zero
        omega
      rw [hl2]
    refine ⟨⟨event, hevent, Or.inr ⟨p, hrec, hrec, rfl⟩⟩, ?_⟩
    intro now2 faults2 hw
    unfold participateInEvent participateInEventBody
    simp only [hevent]
    rw [if_neg (not_not.mpr htype), if_neg hw]
    simp only [hfind, hc, Bool.false_eq_true, if_false]
  · rw [hevent] at he
    cases he
    rw [hs] at h
    simp only [Prod.mk.injEq, Reply.json.injEq] at h
    obtain ⟨hr, hdb⟩ := h
    subst hr
    subst hdb
    have hfound : findById Event._id (saveDoc Event._id (joinedEvent event req.userId) db.events)
        req.eventId = some (joinedEvent event req.userId) := by
      have := findById_saveDoc_self Event._id (joinedEvent event req.userId) db.events event
        (by simpa [joinedEvent, hid] using hevent)
      simpa [joinedEvent, hid] using this
    have hnone : recordsOf req.userId event.participants = [] :=
      filter_eq_nil_of_false _ _
        (fun y hy => userMatches_false _ _ (jsFind_none _ _ hfind y hy))
    have hnew : recordsOf req.userId (joinedEvent event req.userId).participants =
        [newParticipant (some req.userId) none req.userId .individual] := by
      unfold recordsOf at hnone ⊢
      simp [joinedEvent, List.filter_append, hnone, newParticipant]
    refine ⟨⟨joinedEvent event req.userId, hfound, Or.inl ⟨hnone, hnew⟩⟩, ?_⟩
    intro now2 faults2 hw
    have hfind2 : jsFind (userMatches req.userId) (joinedEvent event req.userId).participants =
        .ok (some (event.participants.length,
          newParticipant (some req.userId) none req.userId .individual)) :=
      jsFind_append _ _ _ _ (by simp [userMatches, newParticipant])
        (fun y hy => jsFind_none _ _ hfind y hy)
    unfold participateInEvent participateInEventBody
    simp only [hfound]
    rw [if_neg (not_not.mpr (show (joinedEvent event req.userId).type = .online from htype)),
      if_neg (show ¬ (now2 < (joinedEvent event req.userId).startDate ∨
        now2 > (joinedEvent event req.userId).endDate) from hw)]
    simp only [hfind2, newParticipant, Bool.false_eq_true, if_false]

/-- Witness of C18: the second user takes part in the sample quiz at instant
150 and again at instant 160. -/
theorem participateInEvent_idempotent_witness :
    participateInEvent clubStore bobParticipates 150 noFaults =
      (.json quizReply, afterBobParticipates) ∧
    (∃ event1, findById Event._id afterBobParticipates.events "e1" = some event1 ∧
      ((recordsOf "u2" quizEvent.participants = [] ∧
          recordsOf "u2" event1.participants =
            [{ user := some "u2", team := none, registeredBy := "u2"
               registrationType := .individual, score := 0, perfectRun := false
               hasCompleted := false, answers := [] }]) ∨
       (∃ p, recordsOf "u2" quizEvent.participants = [p] ∧
          recordsOf "u2" event1.participants = [p] ∧ afterBobParticipates = clubStore))) ∧
    participateInEvent afterBobParticipates bobParticipates 160 noFaults =
      (.json quizReply, afterBobParticipates) :=
  have h := participateInEvent_idempotent clubStore afterBobParticipates bobParticipates 150
    noFaults quizReply quizEvent (by decide) (by decide) (by decide)
  ⟨by decide, h.1, h.2 160 noFaults (by decide)⟩

/-- C19 (the code departs from it): in the sample club the event `e2` is sent to
a user while its roster is empty; once the first team has registered for it,
`getEventById` answers a user and an admin with status 500 instead of the
event. -/
theorem getEventById_team_record :
    (∃ view, getEventById clubStore "e2" .user = .json view ∧
      view.questions = offlineEvent.questions.map
        (fun q => ⟨q._id, q.question, q.options, none, q.points⟩)) ∧
    subscribeToEvent clubStore teamOneJoins noFaults =
      (.json ⟨"Successfully registered team for the event", 5, some 5⟩, fullStore) ∧
    findById Event._id fullStore.events "e2" = some fullEvent ∧
    getEventById fullStore "e2" .user =
      .error 500 "Cannot read properties of undefined (reading 'length')" ∧
    getEventById fullStore "e2" .admin =
      .error 500 "Cannot read properties of undefined (reading 'length')" := by
  refine ⟨⟨_, rfl, by decide⟩, by decide, by decide, by decide, by decide⟩

/-- C20: the combined leaderboard holds every team row and every user row
exactly once, is ordered by score (a missing score counting as 0) from high to
low, keeps the entries of equal score in the order of the concatenation of the
teams and the users, and gives rank `i` to its `i`-th entry, from 1. -/
theorem combinedLeaderboard_order (teams : List TeamRow) (users : List UserRow) :
    ((combinedLeaderboard teams users).map RankedEntry.entry).Perm
      (teams.map teamEntry ++ users.map userEntry) ∧
    ((combinedLeaderboard teams users).map RankedEntry.entry).Pairwise
      (fun a b => b.score.getD 0 ≤ a.score.getD 0) ∧
    (∀ s : Int,
      ((combinedLeaderboard teams users).map RankedEntry.entry).filter
          (fun e => e.score.getD 0 == s) =
        (teams.map teamEntry ++ users.map userEntry).filter (fun e => e.score.getD 0 == s)) ∧
    (combinedLeaderboard teams users).map RankedEntry.rank =
      (List.range (teams.length + users.length)).map (fun i => i + 1) := by
  unfold combinedLeaderboard
  rw [assignRanks_entries]
  refine ⟨sortByScore_perm _, sortByScore_sorted _, fun s => sortByScore_filter s _, ?_⟩
  rw [assignRanks_ranks, (sortByScore_perm _).length_eq]
  simp

/-- Witness of C20: two teams (scores 7 and none) and three users (scores 10, 0
and 10) give the order alice, carol, Team one, Team two, bob with ranks 1 to 5:
the team without score stays before the user of score 0. -/
theorem combinedLeaderboard_order_witness :
    (combinedLeaderboard sampleTeamRows sampleUserRows).map
        (fun e => (e.entry.displayName, e.rank)) =
      [("alice", 1), ("carol", 2), ("Team one", 3), ("Team two", 4), ("bob", 5)] ∧
    ((combinedLeaderboard sampleTeamRows sampleUserRows).map RankedEntry.entry).Perm
      (sampleTeamRows.map teamEntry ++ sampleUserRows.map userEntry) ∧
    ((combinedLeaderboard sampleTeamRows sampleUserRows).map RankedEntry.entry).Pairwise
      (fun a b => b.score.getD 0 ≤ a.score.getD 0) ∧
    (∀ s : Int,
      ((combinedLeaderboard sampleTeamRows sampleUserRows).map RankedEntry.entry).filter
          (fun e => e.score.getD 0 == s) =
        (sampleTeamRows.map teamEntry ++ sampleUserRows.map userEntry).filter
          (fun e => e.score.getD 0 == s)) ∧
    (combinedLeaderboard sampleTeamRows sampleUserRows).map RankedEntry.rank =
      (List.range (sampleTeamRows.length + sampleUserRows.length)).map (fun i => i + 1) :=
  ⟨by decide, combinedLeaderboard_order sampleTeamRows sampleUserRows⟩

/-- C21: for a stored event, `getTeamEventStandings` returns exactly one entry
per distinct stored team that a participant record references; the entry has as
`totalScore` the sum of the scores of the records of that team, as
`perfectRuns` the number of those records with `perfectRun` true, as
`participantCount` the number of those records, which is at least 1, and as
`averageScore` the quotient `totalScore / participantCount`; the entries are
ordered by `totalScore` from high to low, and a record without team counts for
no entry. -/
theorem getTeamEventStandings_aggregation (db : Store) (eventId : ObjectId) (event : Event)
    (hevent : findById Event._id db.events eventId = some event) :
    ∃ r, getTeamEventStandings db eventId = .json r ∧
      (r.teamStandings.map TeamStanding.teamId).Nodup ∧
      (∀ t, t ∈ r.teamStandings.map TeamStanding.teamId ↔
        t ∈ event.participants.filterMap (teamIdOf db.teams)) ∧
      (∀ st ∈ r.teamStandings,
        st.totalScore =
          ((recordsOfTeam db.teams st.teamId event.participants).map Participant.score).sum ∧
        st.perfectRuns =
          ((recordsOfTeam db.teams st.teamId event.participants).filter
            Participant.perfectRun).length ∧
        st.participantCount = (recordsOfTeam db.teams st.teamId event.participants).length ∧
        1 ≤ st.participantCount ∧
        st.averageScore = (st.totalScore : Rat) / (st.participantCount : Rat)) ∧
      r.teamStandings.Pairwise (fun a b => b.totalScore ≤ a.totalScore) := by
  obtain ⟨h1, h2, h3, h4, -⟩ := teamStandings_spec db.teams event
  refine ⟨⟨event.name, teamStandings db.teams event⟩, ?_, h1, h2, ?_, h4⟩
  · unfold getTeamEventStandings
    simp only [hevent]
  · intro st hst
    obtain ⟨hacc, hpos, havg⟩ := h3 st hst
    exact ⟨hacc.1, hacc.2.1, hacc.2.2, hpos, havg⟩

/-- Witness of C21: the league event, where the first team has two records
(scores 30 and 5, one perfect run), the second team one record (score 40) and
the second user a record of his own; the second team comes first. -/
theorem getTeamEventStandings_aggregation_witness :
    (standingsOf (getTeamEventStandings leagueStore "e4")).map
        (fun st => (st.teamId, st.totalScore, st.perfectRuns, st.participantCount)) =
      [("t2", 40, 0, 1), ("t1", 35, 1, 2)] ∧
    ∃ r, getTeamEventStandings leagueStore "e4" = .json r ∧
      (r.teamStandings.map TeamStanding.teamId).Nodup ∧
      (∀ t, t ∈ r.teamStandings.map TeamStanding.teamId ↔
        t ∈ leagueEvent.participants.filterMap (teamIdOf leagueStore.teams)) ∧
      (∀ st ∈ r.teamStandings,
        st.totalScore =
          ((recordsOfTeam leagueStore.teams st.teamId leagueEvent.participants).map
            Participant.score).sum ∧
        st.perfectRuns =
          ((recordsOfTeam leagueStore.teams st.teamId leagueEvent.participants).filter
            Participant.perfectRun).length ∧
        st.participantCount =
          (recordsOfTeam leagueStore.teams st.teamId leagueEvent.participants).length ∧
        1 ≤ st.participantCount ∧
        st.averageScore = (st.totalScore : Rat) / (st.participantCount : Rat)) ∧
      r.teamStandings.Pairwise (fun a b => b.totalScore ≤ a.totalScore) :=
  ⟨by decide, getTeamEventStandings_aggregation leagueStore "e4" leagueEvent (by decide)⟩

/-- C22 (counterexample): after the two teams registered for the event `e3`,
both have `totalScore` 0, and the standings give rank 1 to the first and rank 2
to the second: equal totals do not share a rank. -/
theorem getTeamEventStandings_ties_not_dense :
    (standingsOf (getTeamEventStandings twoTeamsStore "e3")).map
        (fun st => (st.teamId, st.totalScore, st.rank)) =
      [("t1", 0, 1), ("t2", 0, 2)] := by
  decide

/-- C22 (amended): the ranks of `getTeamEventStandings` are the positions in the
list ordered by `totalScore` from high to low: the first entry has rank 1 and
the `i`-th entry rank `i`, so that a team never ranks before a team of higher
`totalScore`. -/
theorem getTeamEventStandings_ranks (db : Store) (eventId : ObjectId) (event : Event)
    (hevent : findById Event._id db.events eventId = some event) :
    ∃ r, getTeamEventStandings db eventId = .json r ∧
      r.teamStandings.map TeamStanding.rank =
        (List.range r.teamStandings.length).map (fun i => i + 1) ∧
      r.teamStandings.Pairwise (fun a b => b.totalScore ≤ a.totalScore ∧ a.rank < b.rank) := by
  obtain ⟨-, -, -, h4, h5⟩ := teamStandings_spec db.teams event
  refine ⟨⟨event.name, teamStandings db.teams event⟩, ?_, h5, ?_⟩
  · unfold getTeamEventStandings
    simp only [hevent]
  · exact h4.and (teamStandings_increasing db.teams event)

/-- Witness of C22 (amended): the standings of the league event. -/
theorem getTeamEventStandings_ranks_witness :
    (standingsOf (getTeamEventStandings leagueStore "e4")).map
        (fun st => (st.teamId, st.totalScore, st.rank)) =
      [("t2", 40, 1), ("t1", 35, 2)] ∧
    ∃ r, getTeamEventStandings leagueStore "e4" = .json r ∧
      r.teamStandings.map TeamStanding.rank =
        (List.range r.teamStandings.length).map (fun i => i + 1) ∧
      r.teamStandings.Pairwise (fun a b => b.totalScore ≤ a.totalScore ∧ a.rank < b.rank) :=
  ⟨by decide, getTeamEventStandings_ranks leagueStore "e4" leagueEvent (by decide)⟩

/-- C23 (the code at the failing input): for the event `e2` of scenario C, whose
roster holds the record of the first team, `getEventLeaderboard` replies 500:
the record has no user, and reading its `username` throws. -/
theorem getEventLeaderboard_team_record :
    findById Event._id fullStore.events "e2" = some fullEvent ∧
    fullEvent.participants.map Participant.user = [none] ∧
    getEventLeaderboard fullStore "e2" =
      .error 500 "Cannot read properties of undefined (reading 'username')" := by
  refine ⟨by decide, by decide, by decide⟩

/-- C24 (the code departs from it): at instant 1800000000000 the request whose
dates are the strings of digits `"1700000000000"` and `"1600000000000"` creates
an event whose start is after its end and before the instant of creation; with
the same instants given as numbers the request is rejected. -/
theorem createEvent_digit_dates :
    createEvent sampleStore digitsDatesRequest 1800000000000 sampleIds noFaults =
      (.json (createdEvent digitsDatesRequest sampleIds 1700000000000 1600000000000 .online),
       { sampleStore with
         events := sampleStore.events ++
           [createdEvent digitsDatesRequest sampleIds 1700000000000 1600000000000 .online] }) ∧
    (createdEvent digitsDatesRequest sampleIds 1700000000000 1600000000000 .online).startDate
      = 1700000000000 ∧
    (createdEvent digitsDatesRequest sampleIds 1700000000000 1600000000000 .online).endDate
      = 1600000000000 ∧
    ¬ ((1700000000000 : Instant) < 1600000000000) ∧
    ¬ ((1800000000000 : Instant) ≤ 1700000000000) ∧
    createEvent sampleStore numberDatesRequest 1800000000000 sampleIds noFaults =
      (.error 400 "End date must be after start date", sampleStore) := by
  refine ⟨by decide, by decide, by decide, by decide, by decide, by decide⟩

/-- C25 (the code departs from it): the online request whose question has the
string `"Paris"` for its options and the answer `"Par"` is accepted, and the
question is stored with the options `["Paris"]` and the answer `"Par"`, which
is none of them; with the options `["Paris"]` in the request the same answer is
rejected. -/
theorem createEvent_text_options :
    createEvent sampleStore textOptionsRequest 400 sampleIds noFaults =
      (.json (createdEvent textOptionsRequest sampleIds 500 600 .online),
       { sampleStore with
         events := sampleStore.events ++
           [createdEvent textOptionsRequest sampleIds 500 600 .online] }) ∧
    (createdEvent textOptionsRequest sampleIds 500 600 .online).type = .online ∧
    (createdEvent textOptionsRequest sampleIds 500 600 .online).questions =
      [⟨"q", "Capital of France?", ["Paris"], "Par", 10⟩] ∧
    "Par" ∉ ["Paris"] ∧
    createEvent sampleStore shortAnswerRequest 400 sampleIds noFaults =
      (.error 400 "Answer must be one of the options provided", sampleStore) := by
  refine ⟨by decide, by decide, by decide, by decide, by decide⟩

/-- C26 (counterexample): the online request whose question has the options
`["Paris", "Paris"]` is accepted, and the question is stored with the repeated
option. -/
theorem createEvent_repeated_option_accepted :
    (createEvent sampleStore repeatedOptionRequest 400 sampleIds noFaults).1 =
      .json (createdEvent repeatedOptionRequest sampleIds 500 600 .online) ∧
    (createdEvent repeatedOptionRequest sampleIds 500 600 .online).questions.map
      Question.options = [["Paris", "Paris"]] ∧
    ¬ (["Paris", "Paris"] : List String).Nodup := by
  refine ⟨by decide, by decide, by decide⟩

/-- C26 (amended): every question of an online event that `createEvent` creates
has an options sequence that is not empty; an online request that holds a
question without options is rejected and creates nothing.  Options need not
be distinct. -/
theorem createEvent_options :
    (∀ (db db1 : Store) (req : CreateEventRequest) (now : Instant) (ids : FreshIds)
        (faults : Faults) (event : Event),
      createEvent db req now ids faults = (.json event, db1) →
      event.type = .online →
      ∀ q ∈ event.questions, q.options ≠ []) ∧
    (∀ (db : Store) (req : CreateEventRequest) (now : Instant) (ids : FreshIds)
        (faults : Faults) (qs : List QuestionInput) (q : QuestionInput),
      req.type = "online" → req.questions = some qs → q ∈ qs →
      q.options.length = 0 →
      ∃ status error, createEvent db req now ids faults = (.error status error, db)) := by
  constructor
  · intro db db1 req now ids faults event h honline q hq
    rcases createEvent_cases db req now ids faults with
      ⟨st, msg, herr⟩ | ⟨sd, ed, s, e, t, -, -, -, -, -, -, htype, hcheck, hok⟩
    · rw [herr] at h
      cases h
    · rw [hok] at h
      simp only [Prod.mk.injEq, Reply.json.injEq] at h
      rw [← h.1] at honline hq
      have ht : t = .online := honline
      rw [ht] at htype
      have hreq : req.type = "online" := eventTypeOf_online _ htype
      simp only [createdEvent, hreq, beq_self_eq_true, if_true] at hq
      obtain ⟨q0, hq0, -, -, hopt, -⟩ := storedQuestions_mem _ _ _ _ hq
      have := checkQuestions_ok _ (hcheck hreq).2 q0 hq0
      rw [hopt]
      exact OptionsInput.stored_ne_nil _ this.2.2.1
  · intro db req now ids faults qs q htype hqs hq hbad
    apply createEvent_error_of_not_json
    intro event db1 h
    rcases createEvent_cases db req now ids faults with
      ⟨st, msg, herr⟩ | ⟨sd, ed, s, e, t, -, -, -, -, -, -, -, hcheck, -⟩
    · rw [herr] at h
      cases h
    · have := checkQuestions_ok _ (hcheck htype).2 q (by simpa [hqs] using hq)
      exact this.2.2.1 hbad

/-- Witness of C26 (amended): the question of the accepted request has two
options, and the request whose question has none is rejected. -/
theorem createEvent_options_witness :
    (∀ q ∈ (createdEvent onlineRequest sampleIds 500 600 .online).questions, q.options ≠ []) ∧
    createEvent sampleStore noOptionRequest 400 sampleIds noFaults =
      (.error 400
        "Invalid question format. Each question must have question text, answer, and options",
        sampleStore) ∧
    (∃ status error, createEvent sampleStore noOptionRequest 400 sampleIds noFaults =
      (.error status error, sampleStore)) :=
  ⟨createEvent_options.1 sampleStore
      (createEvent sampleStore onlineRequest 400 sampleIds noFaults).2 onlineRequest 400
      sampleIds noFaults (createdEvent onlineRequest sampleIds 500 600 .online) (by decide)
      (by decide),
    by decide,
    createEvent_options.2 sampleStore noOptionRequest 400 sampleIds noFaults
      [⟨"Capital of France?", "Paris", .list [], none⟩]
      ⟨"Capital of France?", "Paris", .list [], none⟩ (by decide) (by decide) (by decide)
      (by decide)⟩

/-- C28 (the code at the failing input): a user of type team without team
reference submits scenario A; the reply has `teamUpdated = true`, and no team
document is changed. -/
theorem submitAnswers_teamUpdated_without_team :
    findById User._id loneStore.users "u3" = some loneCaptain ∧
    loneCaptain.participationType = .team ∧ loneCaptain.teamId = none ∧
    (submitAnswers loneStore ⟨"e1", "e1", "u3", scenarioA.answers⟩ sampleClock noFaults).1 =
      .json ⟨10, ["q1"], false, true⟩ ∧
    (submitAnswers loneStore ⟨"e1", "e1", "u3", scenarioA.answers⟩ sampleClock noFaults).2.teams =
      loneStore.teams := by
  refine ⟨by decide, by decide, by decide, by decide, by decide⟩

/-- C29 (the code at the failing input): on the two-question quiz, whose
questions are worth 20 points together, the submission that answers the first
question correctly three times is accepted with score 30 and with the id of
that question three times in `correctAnswers`. -/
theorem submitAnswers_triple_credit :
    (submitAnswers sampleStore tripleSubmission sampleClock noFaults).1 =
      .json ⟨30, ["q1", "q1", "q1"], false, true⟩ ∧
    totalPoints quizEvent = 20 ∧
    ¬ (["q1", "q1", "q1"] : List ObjectId).Nodup := by
  refine ⟨by decide, by decide, by decide⟩

/-- C30: for a stored event with `teamSize > 0`, an empty roster and
`currentParticipants = 0`, after any sequence of `subscribeToEvent` calls the
stored `currentParticipants` equals the count that `getEvents` derives from the
roster: `teamSize` for a record with a team and 1 for any other record. -/
theorem subscribeAll_seat_counts_agree (db : Store)
    (calls : List (SubscribeRequest × Faults)) (eventId : ObjectId) (event : Event)
    (hevent : findById Event._id db.events eventId = some event)
    (hsize : 0 < event.teamSize)
    (hempty : event.participants = [])
    (hzero : event.currentParticipants = 0) :
    ∃ event1, findById Event._id (subscribeAll db calls).events eventId = some event1 ∧
      event1.teamSize = event.teamSize ∧
      event1.currentParticipants = computedParticipants (subscribeAll db calls).teams event1 ∧
      computedParticipants (subscribeAll db calls).teams event1 =
        (event1.participants.map fun p =>
          if (populateRef Team._id (subscribeAll db calls).teams p.team).isSome
          then event1.teamSize else 1).sum := by
  obtain ⟨e1, h1, hs1, hinv1⟩ := subscribeAll_seat_invariant calls db eventId event hevent hsize
    (by simp [computedParticipants, hempty, hzero])
  exact ⟨e1, h1, hs1, hinv1, computedParticipants_eq_sum _ e1 (by rw [hs1]; exact hsize)⟩

/-- Witness of C30: the two teams and then the captain of the first ask for
seats in the ten-seat event; the last call is rejected for lack of seats. -/
theorem subscribeAll_seat_counts_agree_witness :
    (findById Event._id (subscribeAll clubStore openDayCalls).events "e3").map
        (fun e => (e.currentParticipants, e.participants.length)) = some (10, 2) ∧
    ∃ event1,
      findById Event._id (subscribeAll clubStore openDayCalls).events "e3" = some event1 ∧
      event1.teamSize = roomyEvent.teamSize ∧
      event1.currentParticipants =
        computedParticipants (subscribeAll clubStore openDayCalls).teams event1 ∧
      computedParticipants (subscribeAll clubStore openDayCalls).teams event1 =
        (event1.participants.map fun p =>
          if (populateRef Team._id (subscribeAll clubStore openDayCalls).teams p.team).isSome
          then event1.teamSize else 1).sum :=
  ⟨by decide,
    subscribeAll_seat_counts_agree clubStore openDayCalls "e3" roomyEvent (by decide)
      (by decide) (by decide) (by decide)⟩

end Tournament
